import Mathlib

/-!
Container engine lifecycle: creation, hook scripts and cleanup.

A shallow embedding of

* `src/runtime/engines/imgbuild/create.go` (`CreateContainer`, `runScript`,
  `runAllScripts`),
* `internal/pkg/runtime/engines/singularity/cleanup_linux.go`
  (`CleanupContainer`, `cleanupCrypt`),
* `src/runtime/engines/singularity/process.go` (`StartProcess`),
* `internal/app/singularity/cache_clean_linux.go` (`CleanCache`,
  `CleanCacheName`, `CleanSingularityCache` and their helpers),
* `internal/pkg/client/cache/net.go` (`NetImage`), and
* `src/pkg/sypgp/sypgp.go` (`SelectPubKey`, `SelectPrivKey`, `DecryptKey`).

Every call that leaves the process (stat, hook script, RPC mount, chdir, RPC
chroot, RPC close, file removal, network and cgroup teardown, ...) is answered
by an environment. The environment is deterministic but otherwise arbitrary:
its answer may depend on the call and on the whole history of earlier calls.
Each call is appended, together with its answer, to a chronological trace, and
the properties below are statements about the returned value and that trace.

Go `error` values are represented by their message (`Option String`, `none`
being `nil`).
-/

set_option autoImplicit false

/-! ## Go standard library: `strings.Split` on "/" and `path/filepath` (unix) -/

namespace strings

/-- The pieces of a character list between the occurrences of `sep`
(`strings.Split` with a one-character separator): always at least one piece. -/
def splitChars (sep : Char) : List Char → List (List Char)
  | [] => [[]]
  | c :: cs =>
    if c = sep then [] :: splitChars sep cs
    else
      match splitChars sep cs with
      | [] => [[c]]
      | w :: ws => (c :: w) :: ws

/-- Go `strings.Split(s, "/")`. -/
def Split (s : String) : List String :=
  (splitChars '/' s.data).map String.mk

/-- Go `strings.Join(elems, "/")`. -/
def Join (elems : List String) : String :=
  "/".intercalate elems

end strings

namespace filepath

/-- One step of the lexical cleaning of a path: `stack` holds the elements kept
so far, innermost first. Empty and `.` elements are dropped; `..` removes the
last kept element when there is one that is not itself `..`, is dropped at the
root, and is kept otherwise. -/
def cleanStep (rooted : Bool) (stack : List String) (elem : String) : List String :=
  if elem = "" ∨ elem = "." then stack
  else if elem = ".." then
    match stack with
    | top :: rest => if top = ".." then elem :: stack else rest
    | [] => if rooted then [] else [elem]
  else elem :: stack

/-- Go `filepath.Clean` on unix. -/
def Clean (path : String) : String :=
  if path = "" then "."
  else
    let rooted := path.data.head? = some '/'
    let kept := ((strings.Split path).foldl (cleanStep rooted) []).reverse
    let out := (if rooted then "/" else "") ++ strings.Join kept
    if out = "" then "." else out

/-- Go `filepath.Join`: the elements from the first non-empty one on, joined by
"/" and cleaned; the empty string when every element is empty. -/
def Join : List String → String
  | [] => ""
  | e :: rest => if e ≠ "" then Clean (strings.Join (e :: rest)) else Join rest

end filepath

/-! ## Linux mount flags (`syscall` package) -/

namespace syscall

def MS_NOSUID : Nat := 0x2
def MS_NODEV : Nat := 0x4
def MS_BIND : Nat := 0x1000
def MS_REC : Nat := 0x4000
def MNT_DETACH : Nat := 0x2

end syscall

/-! ## Image build engine: `CreateContainer` -/

namespace Imgbuild

/-- Build-time constants of the repository that the engine refers to: the
engine's own `Name` and the `buildcfg` directories. -/
structure BuildCfg where
  Name : String
  CONTAINER_FINALDIR : String
  SESSIONDIR : String
deriving DecidableEq, Repr

/-- The arguments of one `Mount` remote procedure call. -/
structure MountCall where
  source : String
  target : String
  fstype : String
  flags : Nat
  data : String
deriving DecidableEq, Repr

/-- What `os.Stat` answers: an error, or file information (`IsDir`). -/
inductive StatResult where
  | err (e : String)
  | info (isDir : Bool)
deriving DecidableEq, Repr

/-- How the shell run by `runScript` ends: `cmd.Start` fails, `cmd.Wait`
reports an error (non-zero exit status), or the script exits with status 0. -/
inductive ScriptResult where
  | startFailed (e : String)
  | waitFailed (e : String)
  | ok
deriving DecidableEq, Repr

/-- The calls `CreateContainer` makes to the outside, with their answers. -/
inductive Event where
  | stat (path : String) (r : StatResult)
  | script (label content : String) (r : ScriptResult)
  | mount (c : MountCall) (r : Option String)
  | chdir (path : String) (r : Option String)
  | chroot (path : String) (r : Option String)
  | close (r : Option String)
deriving DecidableEq, Repr

abbrev Trace := List Event

/-- The environment: the answer to each call, given the history so far. -/
structure Env where
  stat : Trace → String → StatResult
  script : Trace → String → ScriptResult
  mount : Trace → MountCall → Option String
  chdir : Trace → String → Option String
  chroot : Trace → String → Option String
  close : Trace → Option String

/-- The fields of the engine that `CreateContainer` reads:
`CommonConfig.EngineName`, `EngineConfig.Rootfs()` and the `%pre` and `%setup`
sections of the recipe. -/
structure EngineOperations where
  EngineName : String
  Rootfs : String
  Pre : List String
  Setup : List String
deriving DecidableEq, Repr

/-- How a call of `CreateContainer` ends: it returns an error (or nil), or the
process is terminated from inside a hook phase. -/
inductive Outcome where
  | returned (err : Option String)
  | aborted
deriving DecidableEq, Repr

/-- The result of a statement that may terminate the process. -/
inductive Step where
  | cont (t : Trace)
  | fatal (t : Trace)
deriving DecidableEq, Repr

/-- Outcome and trace of a whole call. -/
structure Run where
  out : Outcome
  trace : Trace
deriving DecidableEq, Repr

/-- Go `rpc.NewClient`: it always returns a client. -/
def rpcNewClient (name : String) : Option String := some name

/-- Modelled from the spec: `sylog.Fatalf` is not among the sources. A failing
hook "propagates as a process-level abort, not a recoverable error": the call
logs its message and terminates the process, so the statement after it is
never reached. -/
def sylog.Fatalf (t : Trace) : Step := .fatal t

/-- `runScript`: run `/bin/sh -c content` and wait for it; `sylog.Fatalf` when it
cannot be started or does not exit with status 0. -/
def runScript (env : Env) (label content : String) (t : Trace) : Step :=
  let r := env.script t content
  let t := t ++ [Event.script label content r]
  match r with
  | .startFailed _ => sylog.Fatalf t
  | .waitFailed _ => sylog.Fatalf t
  | .ok => .cont t

/-- The loop `for i, s := range script` of `runAllScripts`, from index `i`. -/
def runScriptsFrom (env : Env) (sect : String) : Nat → List String → Trace → Step
  | _, [], t => .cont t
  | i, s :: rest, t =>
    match runScript env (sect ++ "-" ++ toString i) s t with
    | .fatal t => .fatal t
    | .cont t => runScriptsFrom env sect (i + 1) rest t

/-- `runAllScripts`. -/
def runAllScripts (env : Env) (sect : String) (script : List String) (t : Trace) : Step :=
  if h : script.length = 1 then
    runScript env sect (script.get ⟨0, by omega⟩) t
  else if script.length > 1 then
    runScriptsFrom env sect 0 script t
  else .cont t

/-- `rpcOps.Mount`: one round trip on the privileged channel. -/
def rpcMount (env : Env) (c : MountCall) (t : Trace) : Option String × Trace :=
  let r := env.mount t c
  (r, t ++ [Event.mount c r])

/-- `CreateContainer`. -/
def CreateContainer (cfg : BuildCfg) (env : Env) (engine : EngineOperations) : Run :=
  let t : Trace := []
  if engine.EngineName ≠ cfg.Name then
    ⟨.returned (some "engineName configuration doesn't match runtime name"), t⟩
  else
  match rpcNewClient engine.EngineName with
  | none => ⟨.returned (some "failed to initialiaze RPC client"), t⟩
  | some _ =>
  let rootfs := engine.Rootfs
  let st := env.stat t rootfs
  let t := t ++ [Event.stat rootfs st]
  match st with
  | .err _ => ⟨.returned (some ("stat on " ++ rootfs ++ " failed")), t⟩
  | .info isDir =>
  if isDir = false then
    ⟨.returned (some (rootfs ++ " is not a directory")), t⟩
  else
  match runAllScripts env "pre" engine.Pre t with
  | .fatal t => ⟨.aborted, t⟩
  | .cont t =>
  match rpcMount env ⟨rootfs, cfg.CONTAINER_FINALDIR, "",
      syscall.MS_BIND ||| syscall.MS_NOSUID ||| syscall.MS_NODEV, "errors=remount-ro"⟩ t with
  | (some err, t) =>
    ⟨.returned (some ("failed to mount directory filesystem " ++ rootfs ++ ": " ++ err)), t⟩
  | (none, t) =>
  match rpcMount env ⟨"/proc", filepath.Join [cfg.CONTAINER_FINALDIR, "proc"], "",
      syscall.MS_BIND ||| syscall.MS_NOSUID ||| syscall.MS_REC, ""⟩ t with
  | (some err, t) => ⟨.returned (some ("mount proc failed: " ++ err)), t⟩
  | (none, t) =>
  match rpcMount env ⟨"sysfs", filepath.Join [cfg.CONTAINER_FINALDIR, "sys"], "sysfs",
      syscall.MS_NOSUID, ""⟩ t with
  | (some err, t) => ⟨.returned (some ("mount sys failed: " ++ err)), t⟩
  | (none, t) =>
  match rpcMount env ⟨"/home", filepath.Join [cfg.CONTAINER_FINALDIR, "home"], "",
      syscall.MS_BIND, ""⟩ t with
  | (some err, t) => ⟨.returned (some ("mount /home failed: " ++ err)), t⟩
  | (none, t) =>
  match rpcMount env ⟨"/dev", filepath.Join [cfg.CONTAINER_FINALDIR, "dev"], "",
      syscall.MS_BIND ||| syscall.MS_NOSUID ||| syscall.MS_REC, ""⟩ t with
  | (some err, t) => ⟨.returned (some ("mount /dev failed: " ++ err)), t⟩
  | (none, t) =>
  match rpcMount env ⟨"/etc/resolv.conf",
      filepath.Join [cfg.CONTAINER_FINALDIR, "etc/resolv.conf"], "",
      syscall.MS_BIND ||| syscall.MS_NOSUID ||| syscall.MS_REC, ""⟩ t with
  | (some err, t) => ⟨.returned (some ("mount /etc/resolv.conf failed: " ++ err)), t⟩
  | (none, t) =>
  match rpcMount env ⟨"/etc/hosts", filepath.Join [cfg.CONTAINER_FINALDIR, "etc/hosts"], "",
      syscall.MS_BIND ||| syscall.MS_NOSUID ||| syscall.MS_REC, ""⟩ t with
  | (some err, t) => ⟨.returned (some ("mount /etc/hosts failed: " ++ err)), t⟩
  | (none, t) =>
  match rpcMount env ⟨cfg.CONTAINER_FINALDIR, cfg.SESSIONDIR, "",
      syscall.MS_BIND ||| syscall.MS_REC, ""⟩ t with
  | (some err, t) => ⟨.returned (some ("mount staging directory failed: " ++ err)), t⟩
  | (none, t) =>
  match runAllScripts env "setup" engine.Setup t with
  | .fatal t => ⟨.aborted, t⟩
  | .cont t =>
  let r := env.chdir t cfg.SESSIONDIR
  let t := t ++ [Event.chdir cfg.SESSIONDIR r]
  match r with
  | some err => ⟨.returned (some ("change directory failed: " ++ err)), t⟩
  | none =>
  let r := env.chroot t cfg.SESSIONDIR
  let t := t ++ [Event.chroot cfg.SESSIONDIR r]
  match r with
  | some err => ⟨.returned (some ("chroot failed: " ++ err)), t⟩
  | none =>
  let r := env.chdir t "/"
  let t := t ++ [Event.chdir "/" r]
  match r with
  | some err => ⟨.returned (some ("change directory failed: " ++ err)), t⟩
  | none =>
  let r := env.close t
  let t := t ++ [Event.close r]
  match r with
  | some err => ⟨.returned (some ("can't close connection with rpc server: " ++ err)), t⟩
  | none => ⟨.returned none, t⟩

end Imgbuild

namespace Imgbuild

/-! ### Observations on traces -/

/-- The kinds of call. -/
inductive Kind where
  | stat | script | mount | chdir | chroot | close
deriving DecidableEq, Repr

def Event.kind : Event → Kind
  | .stat _ _ => .stat
  | .script _ _ _ => .script
  | .mount _ _ => .mount
  | .chdir _ _ => .chdir
  | .chroot _ _ => .chroot
  | .close _ => .close

/-- Number of calls of a kind in a trace. -/
def callCount (k : Kind) (t : Trace) : Nat :=
  (t.filter (fun e => e.kind = k)).length

/-- The `Mount` calls of a trace, in order, with their answers. -/
def mountCalls : Trace → List (MountCall × Option String)
  | [] => []
  | .mount c r :: t => (c, r) :: mountCalls t
  | _ :: t => mountCalls t

/-- Source and target of the `Mount` calls of a trace, in order. -/
def mountPairs (t : Trace) : List (String × String) :=
  (mountCalls t).map (fun p => (p.1.source, p.1.target))

/-- The hook scripts run in a trace, in order: label and content. -/
def scriptsRun : Trace → List (String × String)
  | [] => []
  | .script l c _ :: t => (l, c) :: scriptsRun t
  | _ :: t => scriptsRun t

/-- A mount, chdir, chroot or close that returned an error. -/
def Event.callFailed : Event → Bool
  | .mount _ (some _) => true
  | .chdir _ (some _) => true
  | .chroot _ (some _) => true
  | .close (some _) => true
  | _ => false

/-- A call on the privileged channel (mount, chroot or close) that returned an
error. -/
def Event.privFailed : Event → Bool
  | .mount _ (some _) => true
  | .chroot _ (some _) => true
  | .close (some _) => true
  | _ => false

/-- A hook script that did not start or did not exit with status 0. -/
def Event.scriptFailed : Event → Bool
  | .script _ _ .ok => false
  | .script _ _ _ => true
  | _ => false

/-- The labels of a hook phase as the specification words them: the phase name
for a single script, `phase-0 .. phase-(N-1)` for `N > 1` scripts. -/
def phaseLabels (phase : String) (n : Nat) : List String :=
  if n = 1 then [phase]
  else (List.range n).map (fun i => phase ++ "-" ++ toString i)

/-- The scripts of a phase paired with their labels, in list order. -/
def labelled (phase : String) (script : List String) : List (String × String) :=
  (phaseLabels phase script.length).zip script

/-- The events of scripts that ran and exited with status 0. -/
def okScripts (ls : List (String × String)) : Trace :=
  ls.map (fun p => Event.script p.1 p.2 .ok)

/-- The eight mounts of the creation sequence as source and target, in the
order of the specification. -/
def expectedMounts (cfg : BuildCfg) (rootfs : String) : List (String × String) :=
  [ (rootfs, cfg.CONTAINER_FINALDIR),
    ("/proc", filepath.Join [cfg.CONTAINER_FINALDIR, "proc"]),
    ("sysfs", filepath.Join [cfg.CONTAINER_FINALDIR, "sys"]),
    ("/home", filepath.Join [cfg.CONTAINER_FINALDIR, "home"]),
    ("/dev", filepath.Join [cfg.CONTAINER_FINALDIR, "dev"]),
    ("/etc/resolv.conf", filepath.Join [cfg.CONTAINER_FINALDIR, "etc/resolv.conf"]),
    ("/etc/hosts", filepath.Join [cfg.CONTAINER_FINALDIR, "etc/hosts"]),
    (cfg.CONTAINER_FINALDIR, cfg.SESSIONDIR) ]

/-- The eight `Mount` calls of `CreateContainer` in program order, each with
the prefix of the error returned when it fails. -/
def mountPlan (cfg : BuildCfg) (rootfs : String) : List (MountCall × String) :=
  [ (⟨rootfs, cfg.CONTAINER_FINALDIR, "",
      syscall.MS_BIND ||| syscall.MS_NOSUID ||| syscall.MS_NODEV, "errors=remount-ro"⟩,
     "failed to mount directory filesystem " ++ rootfs ++ ": "),
    (⟨"/proc", filepath.Join [cfg.CONTAINER_FINALDIR, "proc"], "",
      syscall.MS_BIND ||| syscall.MS_NOSUID ||| syscall.MS_REC, ""⟩,
     "mount proc failed: "),
    (⟨"sysfs", filepath.Join [cfg.CONTAINER_FINALDIR, "sys"], "sysfs",
      syscall.MS_NOSUID, ""⟩,
     "mount sys failed: "),
    (⟨"/home", filepath.Join [cfg.CONTAINER_FINALDIR, "home"], "",
      syscall.MS_BIND, ""⟩,
     "mount /home failed: "),
    (⟨"/dev", filepath.Join [cfg.CONTAINER_FINALDIR, "dev"], "",
      syscall.MS_BIND ||| syscall.MS_NOSUID ||| syscall.MS_REC, ""⟩,
     "mount /dev failed: "),
    (⟨"/etc/resolv.conf", filepath.Join [cfg.CONTAINER_FINALDIR, "etc/resolv.conf"], "",
      syscall.MS_BIND ||| syscall.MS_NOSUID ||| syscall.MS_REC, ""⟩,
     "mount /etc/resolv.conf failed: "),
    (⟨"/etc/hosts", filepath.Join [cfg.CONTAINER_FINALDIR, "etc/hosts"], "",
      syscall.MS_BIND ||| syscall.MS_NOSUID ||| syscall.MS_REC, ""⟩,
     "mount /etc/hosts failed: "),
    (⟨cfg.CONTAINER_FINALDIR, cfg.SESSIONDIR, "",
      syscall.MS_BIND ||| syscall.MS_REC, ""⟩,
     "mount staging directory failed: ") ]

/-- The events of `Mount` calls that succeeded. -/
def okMounts (cs : List (MountCall × String)) : Trace :=
  cs.map (fun c => Event.mount c.1 none)

/-- The trace of a run up to the end of the pre phase, all scripts having
exited with status 0. -/
def preDone (engine : EngineOperations) : Trace :=
  Event.stat engine.Rootfs (.info true) :: okScripts (labelled "pre" engine.Pre)

/-- The trace of a run up to the end of the setup phase, everything having
succeeded. -/
def setupDone (cfg : BuildCfg) (engine : EngineOperations) : Trace :=
  preDone engine ++ okMounts (mountPlan cfg engine.Rootfs) ++
    okScripts (labelled "setup" engine.Setup)

/-- The trace at the end of a statement. -/
def Step.trace : Step → Trace
  | .cont t => t
  | .fatal t => t

/-! ### Sample inputs -/

def cfg0 : BuildCfg :=
  ⟨"imgbuild", "/var/singularity/mnt/container", "/var/singularity/mnt/session"⟩

/-- An environment in which everything succeeds and the rootfs is a directory. -/
def envOk : Env :=
  ⟨fun _ _ => .info true, fun _ _ => .ok, fun _ _ => none, fun _ _ => none,
   fun _ _ => none, fun _ => none⟩

/-- As `envOk`, but every hook script exits with status 1. -/
def envScriptFails : Env :=
  { envOk with script := fun _ _ => .waitFailed "exit status 1" }

/-- As `envOk`, but the rootfs does not exist. -/
def envStatErr : Env :=
  { envOk with stat := fun _ _ => .err "no such file or directory" }

/-- As `envOk`, but the rootfs is a regular file. -/
def envNotDir : Env :=
  { envOk with stat := fun _ _ => .info false }

/-- As `envOk`, but the third `Mount` call is refused. -/
def envThirdMountFails : Env :=
  { envOk with mount := fun t _ => if callCount .mount t = 2 then some "permission denied" else none }

/-- As `envOk`, but changing the working directory fails. -/
def envChdirFails : Env :=
  { envOk with chdir := fun _ _ => some "no such file or directory" }

/-- As `envOk`, but closing the channel fails. -/
def envCloseFails : Env :=
  { envOk with close := fun _ => some "connection is shut down" }

/-- Scenario A: no hook scripts. -/
def engineA : EngineOperations := ⟨"imgbuild", "/tmp/rootfs", [], []⟩

/-- One pre script. -/
def engineOnePre : EngineOperations := ⟨"imgbuild", "/tmp/rootfs", ["exit 1"], []⟩

/-- Two pre scripts and one setup script. -/
def engineHooks : EngineOperations :=
  ⟨"imgbuild", "/tmp/rootfs", ["mkdir -p /tmp/rootfs/etc", "true"], ["echo setup"]⟩

/-- A configuration written for another engine. -/
def engineOther : EngineOperations := ⟨"singularity", "/tmp/rootfs", ["true"], []⟩

end Imgbuild

/-! ## Singularity engine: `CleanupContainer` and `cleanupCrypt` -/

namespace Singularity

/-- Constants of the repository that the cleanup refers to:
`buildcfg.SESSIONDIR` and `instance.SingSubDir`. -/
structure BuildCfg where
  SESSIONDIR : String
  SingSubDir : String
deriving DecidableEq, Repr

/-- A non-nil pointer to an object the engine does not look into (network
setup, cgroup manager, instance file). -/
abbrev Handle := Nat

/-- The fields of the engine that `CleanupContainer` reads. -/
structure EngineOperations where
  ContainerID : String
  DeleteImage : Bool
  Image : String
  Network : Option Handle
  Fakeroot : Bool
  Cgroups : Option Handle
  Instance : Bool
  CryptDev : String
deriving DecidableEq, Repr

/-- What `instance.Get` answers: an error, or the instance file. -/
inductive GetResult where
  | error (e : String)
  | ok (file : Handle)
deriving DecidableEq, Repr

/-- The calls the cleanup makes to the outside, with their answers. -/
inductive Event where
  | removeAll (path : String) (r : Option String)
  | escalate (r : Option String)
  | delNetworks (net : Handle) (r : Option String)
  | drop (r : Option String)
  | cgroupRemove (cg : Handle) (r : Option String)
  | instanceGet (name subDir : String) (r : GetResult)
  | instanceDelete (file : Handle) (r : Option String)
  | lockOSThread
  | unlockOSThread
  | getuid (uid : Nat)
  | setresuid (ruid euid suid : Nat) (r : Option String)
  | unmount (target : String) (flags : Nat) (r : Option String)
  | closeCryptDevice (name : String) (r : Option String)
deriving DecidableEq, Repr

abbrev Trace := List Event

/-- The environment: the answer to each call, given the history so far. -/
structure Env where
  removeAll : Trace → String → Option String
  escalate : Trace → Option String
  delNetworks : Trace → Handle → Option String
  drop : Trace → Option String
  cgroupRemove : Trace → Handle → Option String
  instanceGet : Trace → String → String → GetResult
  instanceDelete : Trace → Handle → Option String
  getuid : Trace → Nat
  setresuid : Trace → Nat → Nat → Nat → Option String
  unmount : Trace → String → Nat → Option String
  closeCryptDevice : Trace → String → Option String

/-- How a call ends: it returns an error (or nil), or it panics at run time
(an index out of range). -/
inductive Result where
  | returned (err : Option String)
  | panicked
deriving DecidableEq, Repr

/-- The statements of `cleanupCrypt` after the two `defer`s: how they end and
the trace at that point. -/
def cleanupCryptBody (cfg : BuildCfg) (env : Env) (path : String) (err : Option String)
    (t : Trace) : Result × Trace :=
  match err with
  | some e => (.returned (some e), t)
  | none =>
  let target := filepath.Join [cfg.SESSIONDIR, "final"]
  let err := env.unmount t target syscall.MNT_DETACH
  let t := t ++ [Event.unmount target syscall.MNT_DETACH err]
  match err with
  | some e => (.returned (some e), t)
  | none =>
  let target := filepath.Join [cfg.SESSIONDIR, "rootfs"]
  let err := env.unmount t target syscall.MNT_DETACH
  let t := t ++ [Event.unmount target syscall.MNT_DETACH err]
  match err with
  | some e => (.returned (some e), t)
  | none =>
  let sp := strings.Split path
  match sp.get? (sp.length - 1) with
  | none => (.panicked, t)
  | some devName =>
  let err := env.closeCryptDevice t devName
  let t := t ++ [Event.closeCryptDevice devName err]
  match err with
  | some e => (.returned (some e), t)
  | none => (.returned none, t)

/-- `cleanupCrypt`: the deferred calls run when the function ends (also by a
panic), in the reverse of the order in which they were deferred:
`runtime.UnlockOSThread` first and `syscall.Setresuid(uid, uid, 0)` second. -/
def cleanupCrypt (cfg : BuildCfg) (env : Env) (path : String) (t : Trace) :
    Result × Trace :=
  let t := t ++ [Event.lockOSThread]
  let uid := env.getuid t
  let t := t ++ [Event.getuid uid]
  let err := env.setresuid t uid 0 uid
  let t := t ++ [Event.setresuid uid 0 uid err]
  let (ret, t) := cleanupCryptBody cfg env path err t
  let t := t ++ [Event.unlockOSThread]
  let t := t ++ [Event.setresuid uid uid 0 (env.setresuid t uid uid 0)]
  (ret, t)

/-- `CleanupContainer`. Neither argument is read; the value returned by
`cleanupCrypt` is dropped. -/
def CleanupContainer (cfg : BuildCfg) (env : Env) (engine : EngineOperations)
    (_fatal : Option String) (_status : Nat) : Result × Trace :=
  let t : Trace := []
  let t :=
    if engine.DeleteImage then
      let image := engine.Image
      t ++ [Event.removeAll image (env.removeAll t image)]
    else t
  let t :=
    match engine.Network with
    | some net =>
      let t := if engine.Fakeroot then t ++ [Event.escalate (env.escalate t)] else t
      let t := t ++ [Event.delNetworks net (env.delNetworks t net)]
      if engine.Fakeroot then t ++ [Event.drop (env.drop t)] else t
    | none => t
  let t :=
    match engine.Cgroups with
    | some cg => t ++ [Event.cgroupRemove cg (env.cgroupRemove t cg)]
    | none => t
  if engine.Instance then
    let r := env.instanceGet t engine.ContainerID cfg.SingSubDir
    let t := t ++ [Event.instanceGet engine.ContainerID cfg.SingSubDir r]
    match r with
    | .error err => (.returned (some err), t)
    | .ok file =>
      let r := env.instanceDelete t file
      (.returned r, t ++ [Event.instanceDelete file r])
  else
  if engine.CryptDev ≠ "" then
    match cleanupCrypt cfg env engine.CryptDev t with
    | (.panicked, t) => (.panicked, t)
    | (.returned _, t) => (.returned none, t)
  else (.returned none, t)

/-- The teardown steps of the cleanup that can be configured independently of
an encrypted device. -/
inductive TeardownStep where
  | image | network | cgroup | instanceRecord
deriving DecidableEq, Repr

/-- The teardown steps attempted in a trace, in order. A step is attempted when
its first call is made: `os.RemoveAll` for the image, `DelNetworks` for the
network, `Remove` for the cgroup, `instance.Get` for the instance record. -/
def stepsAttempted : Trace → List TeardownStep
  | [] => []
  | .removeAll _ _ :: t => .image :: stepsAttempted t
  | .delNetworks _ _ :: t => .network :: stepsAttempted t
  | .cgroupRemove _ _ :: t => .cgroup :: stepsAttempted t
  | .instanceGet _ _ _ :: t => .instanceRecord :: stepsAttempted t
  | _ :: t => stepsAttempted t

/-- The teardown steps a configuration asks for, in the order of the
specification. -/
def stepsConfigured (engine : EngineOperations) : List TeardownStep :=
  (if engine.DeleteImage then [.image] else []) ++
  (if engine.Network.isSome then [.network] else []) ++
  (if engine.Cgroups.isSome then [.cgroup] else []) ++
  (if engine.Instance then [.instanceRecord] else [])

/-! ### Sample inputs -/

def cfg0 : BuildCfg := ⟨"/var/singularity/mnt/session", "sing"⟩

/-- An environment in which image removal, network teardown and cgroup removal
all fail and everything else succeeds. -/
def envTeardownFails : Env :=
  { removeAll := fun _ _ => some "permission denied"
    escalate := fun _ => none
    delNetworks := fun _ _ => some "network teardown failed"
    drop := fun _ => none
    cgroupRemove := fun _ _ => some "device or resource busy"
    instanceGet := fun _ _ _ => .ok 7
    instanceDelete := fun _ _ => none
    getuid := fun _ => 1000
    setresuid := fun _ _ _ _ => none
    unmount := fun _ _ _ => none
    closeCryptDevice := fun _ _ => none }

/-- An instance with an image to delete, a network and a cgroup. -/
def engineFull : EngineOperations :=
  ⟨"c1", true, "/tmp/image.sif", some 1, true, some 2, true, ""⟩

/-- An environment in which every call succeeds. -/
def envAllOk : Env :=
  { envTeardownFails with
    removeAll := fun _ _ => none
    delNetworks := fun _ _ => none
    cgroupRemove := fun _ _ => none }

/-- As `envTeardownFails`, and every call of the crypt device teardown fails
as well. -/
def envEverythingFails : Env :=
  { envTeardownFails with
    setresuid := fun _ _ _ _ => some "operation not permitted"
    unmount := fun _ _ _ => some "device or resource busy"
    closeCryptDevice := fun _ _ => some "device or resource busy" }

/-- As `envAllOk`, but `priv.Escalate` fails. -/
def envEscalateFails : Env :=
  { envAllOk with escalate := fun _ => some "operation not permitted" }

/-- As `envAllOk`, but the instance record is not found. -/
def envInstanceMissing : Env :=
  { envTeardownFails with instanceGet := fun _ _ _ => .error "no instance found" }

/-- As `envAllOk`, but the unmount of the overlay fails. -/
def envOverlayBusy : Env :=
  { envAllOk with unmount := fun _ _ _ => some "device or resource busy" }

/-- An instance on an encrypted root device. -/
def engineCryptInstance : EngineOperations :=
  ⟨"c1", false, "", none, false, none, true, "/dev/mapper/cryptroot"⟩

/-- A container that is not an instance, with an image to delete, a network
under fakeroot, a cgroup and an encrypted root device. -/
def engineCrypt : EngineOperations :=
  ⟨"c1", true, "/tmp/image.sif", some 1, true, some 2, false, "/dev/mapper/cryptroot"⟩

/-- A container with a network under fakeroot and a cgroup. -/
def engineFakerootNet : EngineOperations :=
  ⟨"c1", false, "", some 1, true, some 2, false, ""⟩

/-! ### Observations on traces -/

/-- A call of `priv.Escalate`. -/
def Event.isEscalate : Event → Bool
  | .escalate _ => true
  | _ => false

/-- A call of `priv.Drop`. -/
def Event.isDrop : Event → Bool
  | .drop _ => true
  | _ => false

/-- A call of `syscall.Setresuid`. -/
def Event.isSetresuid : Event → Bool
  | .setresuid _ _ _ _ => true
  | _ => false

/-- A call of `Network.DelNetworks`. -/
def Event.isDelNetworks : Event → Bool
  | .delNetworks _ _ => true
  | _ => false

/-- A call of the record's `Delete`. -/
def Event.isInstanceDelete : Event → Bool
  | .instanceDelete _ _ => true
  | _ => false

/-- A call that only `cleanupCrypt` makes. -/
def Event.isCrypt : Event → Bool
  | .lockOSThread => true
  | .unlockOSThread => true
  | .getuid _ => true
  | .setresuid _ _ _ _ => true
  | .unmount _ _ _ => true
  | .closeCryptDevice _ _ => true
  | _ => false

/-- The calls of the image, network and cgroup steps of `CleanupContainer` for
a configuration, given the answers to `os.RemoveAll`, `priv.Escalate`,
`DelNetworks`, `priv.Drop` and `Remove`. -/
def teardownCalls (engine : EngineOperations) (ri re rn rd rc : Option String) : Trace :=
  (if engine.DeleteImage then [Event.removeAll engine.Image ri] else []) ++
  (match engine.Network with
   | some net =>
     (if engine.Fakeroot then [Event.escalate re] else []) ++ [Event.delNetworks net rn] ++
       (if engine.Fakeroot then [Event.drop rd] else [])
   | none => []) ++
  (match engine.Cgroups with
   | some cg => [Event.cgroupRemove cg rc]
   | none => [])

/-! ### Process handoff: `StartProcess` -/

/-- The fields of the OCI process specification that `StartProcess` reads. -/
structure ProcessSpec where
  Args : List String
  Env : List String
deriving DecidableEq, Repr

/-- What `syscall.Exec` does: it replaces the process image and never returns,
or it returns an error. -/
inductive ExecResult where
  | replaced
  | failed (e : String)
deriving DecidableEq, Repr

/-- The calls `StartProcess` makes to the outside, with their answers. -/
inductive StartEvent where
  | setenv (key value : String) (r : Option String)
  | chdir (path : String) (r : Option String)
  | exec (argv0 : String) (argv envv : List String) (r : ExecResult)
deriving DecidableEq, Repr

/-- The environment of `StartProcess`: the answer to each call, given the
history so far. -/
structure StartEnv where
  setenv : List StartEvent → String → String → Option String
  chdir : List StartEvent → String → Option String
  exec : List StartEvent → String → List String → List String → ExecResult

/-- How a call of `StartProcess` ends: it returns an error (or nil), the
process has become the target program, or it panics on `args[0]`. -/
inductive StartResult where
  | returned (err : Option String)
  | handedOver
  | panicked
deriving DecidableEq, Repr

/-- `StartProcess`. The values returned by `os.Setenv` and `os.Chdir` are
dropped. `syscall.Exec` returns only when it fails, so the `return nil` after
the test of its error is not reached: a successful exec ends the call with the
process handed over. -/
def StartProcess (env : StartEnv) (spec : ProcessSpec) : StartResult × List StartEvent :=
  let t : List StartEvent := []
  let t := t ++ [StartEvent.setenv "PS1" "shell> " (env.setenv t "PS1" "shell> ")]
  let t := t ++ [StartEvent.chdir "/" (env.chdir t "/")]
  let args := spec.Args
  let envv := spec.Env
  match args.get? 0 with
  | none => (.panicked, t)
  | some argv0 =>
  let r := env.exec t argv0 args envv
  let t := t ++ [StartEvent.exec argv0 args envv r]
  match r with
  | .failed err => (.returned (some ("exec " ++ argv0 ++ " failed: " ++ err)), t)
  | .replaced => (.handedOver, t)

/-- An environment in which the executable is not found. -/
def startEnvNoExec : StartEnv :=
  ⟨fun _ _ _ => none, fun _ _ => none, fun _ _ _ _ => .failed "no such file or directory"⟩

/-- An environment in which exec succeeds. -/
def startEnvOk : StartEnv :=
  ⟨fun _ _ _ => none, fun _ _ => none, fun _ _ _ _ => .replaced⟩

/-- A shell with one environment variable. -/
def specShell : ProcessSpec := ⟨["/bin/sh", "-c", "true"], ["PATH=/bin"]⟩

end Singularity

/-! ## Image cache: `NetImage` -/

namespace cache

/-- The cache object. Its type declaration and `isValid` are not among the
sources: the fields are the directories that the sources read (`Library`,
`OciTemp`, `Net`), and `valid` is what `isValid()` answers. -/
structure SingularityCache where
  Library : String
  OciTemp : String
  Net : String
  valid : Bool
deriving DecidableEq, Repr

/-- `NetImage`: the path of an image in the net cache, with the error. -/
def NetImage (c : SingularityCache) (sum name : String) : String × Option String :=
  if !c.valid then ("", some "invalid cache")
  else if sum = "" ∨ name = "" then ("", some "invalid arguments")
  else (filepath.Join [c.Net, sum, name], none)

/-- A valid cache in a home directory. -/
def cacheHome : SingularityCache :=
  ⟨"/home/user/.singularity/cache/library", "/home/user/.singularity/cache/oci-tmp",
   "/home/user/.singularity/cache/net", true⟩

end cache

/-! ## Cache cleaning: `CleanCache`, `CleanCacheName`, `CleanSingularityCache` -/

namespace CacheClean

open cache (SingularityCache)

/-- What `ioutil.ReadDir` answers: an error, or the names of the entries. -/
inductive ListResult where
  | error (e : String)
  | ok (names : List String)
deriving DecidableEq, Repr

/-- The calls the cache cleaning makes to the outside, with their answers. -/
inductive Event where
  | create (c : Option SingularityCache) (err : Option String)
  | readDir (path : String) (r : ListResult)
  | removeAll (path : String) (r : Option String)
  | clean (c : SingularityCache) (r : Option String)
deriving DecidableEq, Repr

abbrev Trace := List Event

/-- The environment: the answer to each call, given the history so far.
`create` is `cache.Create()` and `clean` is the method `Clean` of the cache
object, neither of which is among the sources. -/
structure Env where
  create : Trace → Option SingularityCache × Option String
  readDir : Trace → String → ListResult
  removeAll : Trace → String → Option String
  clean : Trace → SingularityCache → Option String

/-- `cleanLibraryCache`. -/
def cleanLibraryCache (env : Env) (t : Trace) : Option String × Trace :=
  let r := env.create t
  let t := t ++ [Event.create r.1 r.2]
  match r with
  | (none, _) => (some "unable to create the cache object", t)
  | (some _, some _) => (some "unable to create the cache object", t)
  | (some c, none) =>
  let err := env.removeAll t c.Library
  let t := t ++ [Event.removeAll c.Library err]
  match err with
  | some e => (some ("unable to clean library cache: " ++ e), t)
  | none => (none, t)

/-- `cleanOciCache`. -/
def cleanOciCache (env : Env) (t : Trace) : Option String × Trace :=
  let r := env.create t
  let t := t ++ [Event.create r.1 r.2]
  match r with
  | (none, _) => (some "unable to create the cache object", t)
  | (some _, some _) => (some "unable to create the cache object", t)
  | (some c, none) =>
  let err := env.removeAll t c.OciTemp
  let t := t ++ [Event.removeAll c.OciTemp err]
  match err with
  | some e => (some ("unable to clean oci-tmp cache: " ++ e), t)
  | none => (none, t)

/-- `cleanBlobCache`: it removes `c.OciTemp`. -/
def cleanBlobCache (env : Env) (t : Trace) : Option String × Trace :=
  let r := env.create t
  let t := t ++ [Event.create r.1 r.2]
  match r with
  | (none, _) => (some "unable to create the cache object", t)
  | (some _, some _) => (some "unable to create the cache object", t)
  | (some c, none) =>
  let err := env.removeAll t c.OciTemp
  let t := t ++ [Event.removeAll c.OciTemp err]
  match err with
  | some e => (some ("unable to clean oci-blob cache: " ++ e), t)
  | none => (none, t)

/-- `CleanCache`. -/
def CleanCache (env : Env) (cacheType : String) (t : Trace) : Option String × Trace :=
  let r := env.create t
  let t := t ++ [Event.create r.1 r.2]
  match r with
  | (none, _) => (some "unable to create the cache object", t)
  | (some _, some _) => (some "unable to create the cache object", t)
  | (some c, none) =>
  if cacheType = "library" then cleanLibraryCache env t
  else if cacheType = "oci" then cleanOciCache env t
  else if cacheType = "blob" ∨ cacheType = "blobs" then cleanBlobCache env t
  else if cacheType = "all" then
    let err := env.clean t c
    (err, t ++ [Event.clean c err])
  else (some ("not a valid type: " ++ cacheType), t)

/-- The inner loop of `cleanLibraryCacheName` and `cleanOciCacheName`, over the
entries of the directory `f` of the cache `root`: every entry named `cacheName`
is removed. -/
def removeNamed (env : Env) (root f cacheName msgRemove : String) :
    List String → Bool → Trace → (Bool × Option String) × Trace
  | [], foundMatch, t => ((foundMatch, none), t)
  | c :: rest, foundMatch, t =>
    if c = cacheName then
      let path := filepath.Join [root, f, c]
      let err := env.removeAll t path
      let t := t ++ [Event.removeAll path err]
      match err with
      | some e => ((false, some (msgRemove ++ e)), t)
      | none => removeNamed env root f cacheName msgRemove rest true t
    else removeNamed env root f cacheName msgRemove rest foundMatch t

/-- The outer loop of `cleanLibraryCacheName` and `cleanOciCacheName`, over the
directories of the cache `root`. -/
def scanDirs (env : Env) (root cacheName msgLook msgRemove : String) :
    List String → Bool → Trace → (Bool × Option String) × Trace
  | [], foundMatch, t => ((foundMatch, none), t)
  | f :: rest, foundMatch, t =>
    let path := filepath.Join [root, f]
    let r := env.readDir t path
    let t := t ++ [Event.readDir path r]
    match r with
    | .error e => ((false, some (msgLook ++ e)), t)
    | .ok cont =>
      match removeNamed env root f cacheName msgRemove cont foundMatch t with
      | ((_, some e), t) => ((false, some e), t)
      | ((foundMatch, none), t) =>
        scanDirs env root cacheName msgLook msgRemove rest foundMatch t

/-- The common text of `cleanLibraryCacheName` and `cleanOciCacheName`: `root`
selects the directory of the cache, the messages are those of the function. -/
def cleanNamed (env : Env) (root : SingularityCache → String)
    (cacheName msgOpen msgLook msgRemove : String) (t : Trace) :
    (Bool × Option String) × Trace :=
  let r := env.create t
  let t := t ++ [Event.create r.1 r.2]
  match r with
  | (none, _) => ((false, some "unable to create the cache object"), t)
  | (some _, some _) => ((false, some "unable to create the cache object"), t)
  | (some c, none) =>
  let r := env.readDir t (root c)
  let t := t ++ [Event.readDir (root c) r]
  match r with
  | .error e => ((false, some (msgOpen ++ e)), t)
  | .ok files => scanDirs env (root c) cacheName msgLook msgRemove files false t

/-- `cleanLibraryCacheName`. -/
def cleanLibraryCacheName (env : Env) (cacheName : String) (t : Trace) :
    (Bool × Option String) × Trace :=
  cleanNamed env (fun c => c.Library) cacheName
    "unable to opening library cache folder: " "unable to look in library cache folder: "
    "unable to remove library cache: " t

/-- `cleanOciCacheName`. -/
def cleanOciCacheName (env : Env) (cacheName : String) (t : Trace) :
    (Bool × Option String) × Trace :=
  cleanNamed env (fun c => c.OciTemp) cacheName
    "unable to opening oci-tmp cache folder: " "unable to look in oci-tmp cache folder: "
    "unable to remove oci-tmp cache: " t

/-- `CleanCacheName`. -/
def CleanCacheName (env : Env) (cacheName : String) (libraryCache ociCache : Bool)
    (t : Trace) : (Bool × Option String) × Trace :=
  if libraryCache = ociCache then
    match cleanLibraryCacheName env cacheName t with
    | ((_, some err), t) => ((false, some err), t)
    | ((matchLibrary, none), t) =>
    match cleanOciCacheName env cacheName t with
    | ((_, some err), t) => ((false, some err), t)
    | ((matchOci, none), t) =>
    if matchLibrary || matchOci then ((true, none), t) else ((false, none), t)
  else
  if libraryCache then
    match cleanLibraryCacheName env cacheName t with
    | ((_, some err), t) => ((false, some err), t)
    | ((m, none), t) => ((m, none), t)
  else if ociCache then
    match cleanOciCacheName env cacheName t with
    | ((_, some err), t) => ((false, some err), t)
    | ((m, none), t) => ((m, none), t)
  else ((false, none), t)

/-- The flags that the loop over `cacheCleanTypes` of `CleanSingularityCache`
sets. -/
structure Flags where
  libraryClean : Bool
  ociClean : Bool
  blobClean : Bool
  cleanAll : Bool
deriving DecidableEq, Repr

/-- The loop over `cacheCleanTypes`: the flags, or the error for a type that is
not valid. -/
def scanTypes : List String → Flags → Except String Flags
  | [], fl => .ok fl
  | ty :: rest, fl =>
    if ty = "library" then scanTypes rest { fl with libraryClean := true }
    else if ty = "oci" then scanTypes rest { fl with ociClean := true }
    else if ty = "blob" ∨ ty = "blobs" then scanTypes rest { fl with blobClean := true }
    else if ty = "all" then scanTypes rest { fl with cleanAll := true }
    else .error ("not a valid type: " ++ ty)

/-- `CleanSingularityCache`. -/
def CleanSingularityCache (env : Env) (cleanAll : Bool) (cacheCleanTypes : List String)
    (cacheName : String) : Option String × Trace :=
  let t : Trace := []
  match scanTypes cacheCleanTypes ⟨false, false, false, cleanAll⟩ with
  | .error e => (some e, t)
  | .ok fl =>
  if cacheName.length ≥ 1 ∧ fl.cleanAll = false then
    match CleanCacheName env cacheName fl.libraryClean fl.ociClean t with
    | ((_, some err), t) => (some err, t)
    | ((_, none), t) => (none, t)
  else
  match (if fl.cleanAll then CleanCache env "all" t else (none, t)) with
  | (some err, t) => (some err, t)
  | (none, t) =>
  match (if fl.libraryClean then CleanCache env "library" t else (none, t)) with
  | (some err, t) => (some err, t)
  | (none, t) =>
  match (if fl.ociClean then CleanCache env "oci" t else (none, t)) with
  | (some err, t) => (some err, t)
  | (none, t) =>
  match (if fl.blobClean then CleanCache env "blob" t else (none, t)) with
  | (some err, t) => (some err, t)
  | (none, t) => (none, t)

/-- A file system that does not change: the cache object is `c`, the listing of
a directory is `ls`, and every removal succeeds. -/
def staticEnv (c : SingularityCache) (ls : String → ListResult) : Env :=
  ⟨fun _ => (some c, none), fun _ p => ls p, fun _ _ => none, fun _ _ => none⟩

/-- Whether the directory `f` of the cache directory `root` has an entry named
`name`. -/
def dirHas (ls : String → ListResult) (root name f : String) : Bool :=
  match ls (filepath.Join [root, f]) with
  | .error _ => false
  | .ok names => names.contains name

/-- Whether the directory `f` of the cache directory `root` can be listed. -/
def dirListable (ls : String → ListResult) (root f : String) : Bool :=
  match ls (filepath.Join [root, f]) with
  | .error _ => false
  | .ok _ => true

/-- Whether the cache directory `root` has, in one of its directories, an entry
named `name`. -/
def containsNamed (ls : String → ListResult) (root name : String) : Bool :=
  match ls root with
  | .error _ => false
  | .ok files => files.any (dirHas ls root name)

/-- Whether the cache directory `root` and all its directories can be listed. -/
def listable (ls : String → ListResult) (root : String) : Bool :=
  match ls root with
  | .error _ => false
  | .ok files => files.all (dirListable ls root)

/-- Whether the call recorded by the event failed: no cache object or an error
from `cache.Create()`, an error from `ioutil.ReadDir`, `os.RemoveAll` or
`Clean`. -/
def Event.failed : Event → Bool
  | .create none _ => true
  | .create (some _) (some _) => true
  | .create (some _) none => false
  | .readDir _ (.error _) => true
  | .readDir _ (.ok _) => false
  | .removeAll _ (some _) => true
  | .removeAll _ none => false
  | .clean _ (some _) => true
  | .clean _ none => false

/-- Whether the event is a call of `os.RemoveAll`. -/
def Event.isRemoveAll : Event → Bool
  | .removeAll _ _ => true
  | _ => false

/-- Whether the event is a call of the method `Clean` of the cache object. -/
def Event.isClean : Event → Bool
  | .clean _ _ => true
  | _ => false

/-- Whether the event is a call inside the cache directory `root`, whose listing
was `files`, that looks for `cacheName`: the listing of one of the directories
`files` of `root`, or the removal of the entry named `cacheName` of one of
them. -/
def inSearch (root cacheName : String) (files : List String) : Event → Bool
  | .readDir p _ => files.any (fun f => p == filepath.Join [root, f])
  | .removeAll p _ => files.any (fun f => p == filepath.Join [root, f, cacheName])
  | _ => false

/-- Whether the events are those of one search for `cacheName` in the cache
directory that `root` selects: one `cache.Create()`; when it gave the cache
object `c`, the listing of `root c`; when that gave `files`, only calls inside
`root c` that look for `cacheName`. -/
def isSearch (root : SingularityCache → String) (cacheName : String) : Trace → Bool
  | [] => false
  | [.create none _] => true
  | [.create (some _) (some _)] => true
  | .create (some c) none :: .readDir p (.error _) :: rest => p == root c && rest.isEmpty
  | .create (some c) none :: .readDir p (.ok files) :: rest =>
    p == root c && rest.all (inSearch (root c) cacheName files)
  | _ => false

/-- A listing with one image in the library cache and none in the oci-tmp
cache. -/
def lsSample (p : String) : ListResult :=
  if p = "/home/user/.singularity/cache/library" then .ok ["sha256.aa", "sha256.bb"]
  else if p = "/home/user/.singularity/cache/library/sha256.aa" then .ok ["alpine.sif"]
  else if p = "/home/user/.singularity/cache/library/sha256.bb" then .ok ["ubuntu.sif"]
  else if p = "/home/user/.singularity/cache/oci-tmp" then .ok ["sha256.cc"]
  else if p = "/home/user/.singularity/cache/oci-tmp/sha256.cc" then .ok ["busybox.sif"]
  else .error "no such file or directory"

end CacheClean

/-! ## OpenPGP keys: `SelectPubKey`, `SelectPrivKey`, `DecryptKey` -/

namespace sypgp

/-- What `AskQuestion` answers: the error of the scanner, or the line read. -/
inductive AskResult where
  | error (e : String)
  | ok (response : String)
deriving DecidableEq, Repr

/-- The errors of `strconv.ParseUint`. -/
inductive NumError where
  | invalidSyntax
  | outOfRange
deriving DecidableEq, Repr

/-- The errors that the key selection returns. -/
inductive SelectError where
  | ask (e : String)
  | invalidKeyChoice
  | parse (e : NumError)
deriving DecidableEq, Repr

/-- The digits of `strconv.ParseUint(s, 10, 32)`, from left to right, with the
value read so far: a character that is not a decimal digit is a syntax error, a
value above `2^32 - 1` a range error. -/
def parseDigits : List Char → Nat → Except NumError Nat
  | [], n => .ok n
  | c :: cs, n =>
    if '0' ≤ c ∧ c ≤ '9' then
      let n1 := n * 10 + (c.toNat - '0'.toNat)
      if n1 > 2 ^ 32 - 1 then .error .outOfRange else parseDigits cs n1
    else .error .invalidSyntax

/-- Go `strconv.ParseUint(s, 10, 32)`. -/
def ParseUint (s : String) : Except NumError Nat :=
  if s = "" then .error .invalidSyntax else parseDigits s.data 0

/-- How a key selection ends: it returns an entity or an error, or it panics on
`el[i]`. -/
inductive SelectResult (α : Type) where
  | entity (e : α)
  | error (err : SelectError)
  | panicked
deriving DecidableEq, Repr

/-- The text of `SelectPubKey` and of `SelectPrivKey` after the keyring is
printed, `answer` being what `AskQuestion` returned. The comparison is between
unsigned 64-bit integers, so `uint64(len(el))-1` wraps around for an empty
list. -/
def selectKey {α : Type} (el : List α) (answer : AskResult) : SelectResult α :=
  match answer with
  | .error e => .error (.ask e)
  | .ok index =>
  if index = "" then .error .invalidKeyChoice
  else
  match ParseUint index with
  | .error e => .error (.parse e)
  | .ok i =>
  if i > (el.length % 2 ^ 64 + 2 ^ 64 - 1) % 2 ^ 64 then .error .invalidKeyChoice
  else
  match el.get? i with
  | none => .panicked
  | some e => .entity e

/-- `SelectPubKey`. -/
def SelectPubKey {α : Type} (el : List α) (answer : AskResult) : SelectResult α :=
  selectKey el answer

/-- `SelectPrivKey`. -/
def SelectPrivKey {α : Type} (el : List α) (answer : AskResult) : SelectResult α :=
  selectKey el answer

/-- `DecryptKey` on a private key whose field `Encrypted` is `encrypted`:
`answer` is what `AskQuestion` returned and `decrypt` is what the method
`Decrypt` of the key returns for a passphrase, the key being decrypted when it
returns nil. The result is the error returned and the field `Encrypted` at the
return. -/
def DecryptKey (encrypted : Bool) (answer : AskResult) (decrypt : String → Option String) :
    Option String × Bool :=
  if encrypted = true then
    match answer with
    | .error _ => (none, encrypted)
    | .ok pass =>
      match decrypt pass with
      | some err => (some err, encrypted)
      | none => (none, false)
  else (none, encrypted)

end sypgp

/-! ## Theorems -/

namespace Imgbuild

theorem runScript_cont {env : Env} {l c : String} {t t' : Trace}
    (h : runScript env l c t = .cont t') : t' = t ++ okScripts [(l, c)] := by
  simp only [runScript, sylog.Fatalf] at h
  simp only [okScripts, List.map]
  split at h <;> simp_all

theorem runScript_fatal {env : Env} {l c : String} {t t' : Trace}
    (h : runScript env l c t = .fatal t') :
    ∃ r, r ≠ ScriptResult.ok ∧ t' = t ++ [Event.script l c r] := by
  simp only [runScript, sylog.Fatalf] at h
  split at h
  · next e he =>
    refine ⟨env.script t c, by rw [he]; simp, ?_⟩
    simpa using h.symm
  · next e he =>
    refine ⟨env.script t c, by rw [he]; simp, ?_⟩
    simpa using h.symm
  · simp at h

/-- The events of the loop of `runAllScripts` started at index `i`. -/
theorem runScriptsFrom_cont {env : Env} {sect : String} :
    ∀ (script : List String) (i : Nat) (t t' : Trace),
      runScriptsFrom env sect i script t = .cont t' →
      t' = t ++ okScripts
        (((List.range' i script.length).map (fun j => sect ++ "-" ++ toString j)).zip script) := by
  intro script
  induction script with
  | nil => intro i t t' h; simp_all [runScriptsFrom, okScripts]
  | cons s rest ih =>
    intro i t t' h
    simp only [runScriptsFrom] at h
    split at h
    · simp at h
    · next t1 h1 =>
      have e1 := runScript_cont h1
      have e2 := ih (i + 1) t1 t' h
      subst e1
      rw [e2]
      simp [okScripts, List.range']

theorem runScriptsFrom_fatal {env : Env} {sect : String} :
    ∀ (script : List String) (i : Nat) (t t' : Trace),
      runScriptsFrom env sect i script t = .fatal t' →
      ∃ k c r, script.get? k = some c ∧ r ≠ ScriptResult.ok ∧
        t' = t ++ okScripts
          ((((List.range' i script.length).map (fun j => sect ++ "-" ++ toString j)).zip
            script).take k) ++ [Event.script (sect ++ "-" ++ toString (i + k)) c r] := by
  intro script
  induction script with
  | nil => intro i t t' h; simp [runScriptsFrom] at h
  | cons s rest ih =>
    intro i t t' h
    simp only [runScriptsFrom] at h
    split at h
    · next t1 h1 =>
      obtain ⟨r, hr, e1⟩ := runScript_fatal h1
      refine ⟨0, s, r, by simp, hr, ?_⟩
      simp only [Step.fatal.injEq] at h
      subst h
      simp [okScripts, e1]
    · next t1 h1 =>
      have e1 := runScript_cont h1
      obtain ⟨k, c, r, hk, hr, e2⟩ := ih (i + 1) t1 t' h
      refine ⟨k + 1, c, r, by simpa using hk, hr, ?_⟩
      subst e1
      rw [e2]
      simp [okScripts, List.range', Nat.add_assoc, Nat.add_comm 1 k]

theorem labelled_nil (phase : String) : labelled phase [] = [] := by
  simp [labelled]

theorem labelled_single (phase s : String) : labelled phase [s] = [(phase, s)] := by
  simp [labelled, phaseLabels]

theorem labelled_many (phase : String) (script : List String) (h : script.length ≠ 1) :
    labelled phase script =
      ((List.range' 0 script.length).map (fun j => phase ++ "-" ++ toString j)).zip script := by
  simp [labelled, phaseLabels, h, List.range_eq_range']

theorem runAllScripts_cont {env : Env} {sect : String} {script : List String} {t t' : Trace}
    (h : runAllScripts env sect script t = .cont t') :
    t' = t ++ okScripts (labelled sect script) := by
  unfold runAllScripts at h
  split at h
  · next h1 =>
    match script, h1 with
    | [s], _ => simpa [labelled_single] using runScript_cont h
  · next h1 =>
    rw [labelled_many _ _ h1]
    split at h
    · exact runScriptsFrom_cont _ _ _ _ h
    · next h2 =>
      have h3 : script = [] := by
        cases script with
        | nil => rfl
        | cons a l => exfalso; simp only [List.length_cons] at h1 h2; omega
      subst h3
      simp_all [okScripts]

theorem runAllScripts_fatal {env : Env} {sect : String} {script : List String} {t t' : Trace}
    (h : runAllScripts env sect script t = .fatal t') :
    ∃ k l c r, (labelled sect script).get? k = some (l, c) ∧ r ≠ ScriptResult.ok ∧
      t' = t ++ okScripts ((labelled sect script).take k) ++ [Event.script l c r] := by
  unfold runAllScripts at h
  split at h
  · next h1 =>
    match script, h1 with
    | [s], _ =>
      obtain ⟨r, hr, e⟩ := runScript_fatal h
      exact ⟨0, sect, s, r, by simp [labelled_single], hr, by simpa [okScripts] using e⟩
  · next h1 =>
    rw [labelled_many _ _ h1]
    split at h
    · obtain ⟨k, c, r, hk, hr, e⟩ := runScriptsFrom_fatal _ _ _ _ h
      refine ⟨k, sect ++ "-" ++ toString k, c, r, ?_, hr, by simpa using e⟩
      have hk2 : script[k]? = some c := by simpa using hk
      obtain ⟨hlt, hget⟩ := List.getElem?_eq_some_iff.mp hk2
      simp [List.getElem?_eq_getElem, hlt, hget]
    · simp at h

/-! ### Observations and appended traces -/

@[simp] theorem mountCalls_append (a b : Trace) :
    mountCalls (a ++ b) = mountCalls a ++ mountCalls b := by
  induction a with
  | nil => rfl
  | cons e a ih => cases e <;> simp [mountCalls, ih]

@[simp] theorem scriptsRun_append (a b : Trace) :
    scriptsRun (a ++ b) = scriptsRun a ++ scriptsRun b := by
  induction a with
  | nil => rfl
  | cons e a ih => cases e <;> simp [scriptsRun, ih]

@[simp] theorem callCount_append (k : Kind) (a b : Trace) :
    callCount k (a ++ b) = callCount k a + callCount k b := by
  simp [callCount]

@[simp] theorem mountPairs_append (a b : Trace) :
    mountPairs (a ++ b) = mountPairs a ++ mountPairs b := by
  simp [mountPairs]

@[simp] theorem mountCalls_okScripts (l : List (String × String)) :
    mountCalls (okScripts l) = [] := by
  induction l with
  | nil => rfl
  | cons p l ih => simpa [okScripts, mountCalls] using ih

@[simp] theorem mountPairs_okScripts (l : List (String × String)) :
    mountPairs (okScripts l) = [] := by
  simp [mountPairs]

@[simp] theorem scriptsRun_okScripts (l : List (String × String)) :
    scriptsRun (okScripts l) = l := by
  induction l with
  | nil => rfl
  | cons p l ih => simpa [okScripts, scriptsRun] using ih

@[simp] theorem callCount_okScripts (k : Kind) (l : List (String × String)) :
    callCount k (okScripts l) = if k = Kind.script then l.length else 0 := by
  induction l with
  | nil => simp [okScripts, callCount]
  | cons p l ih =>
    have hcons : callCount k (okScripts (p :: l)) =
        (if k = Kind.script then 1 else 0) + callCount k (okScripts l) := by
      simp only [okScripts, callCount, List.map_cons, List.filter_cons, Event.kind]
      by_cases hk : k = Kind.script
      · subst hk; simp; omega
      · have hk2 : ¬ Kind.script = k := fun h => hk h.symm
        simp [hk, hk2]
    rw [hcons, ih]
    by_cases hk : k = Kind.script <;> simp [hk]; omega

theorem okScripts_callFailed (l : List (String × String)) :
    ∀ e ∈ okScripts l, e.callFailed = false := by
  intro e he
  simp only [okScripts, List.mem_map] at he
  obtain ⟨p, _, rfl⟩ := he
  rfl

theorem okScripts_scriptFailed (l : List (String × String)) :
    ∀ e ∈ okScripts l, e.scriptFailed = false := by
  intro e he
  simp only [okScripts, List.mem_map] at he
  obtain ⟨p, _, rfl⟩ := he
  rfl

/-- Every run of `CreateContainer` has one of eleven shapes. -/
theorem CreateContainer_elim (cfg : BuildCfg) (env : Env) (engine : EngineOperations)
    (motive : Run → Prop)
    (mismatch : engine.EngineName ≠ cfg.Name →
      motive ⟨.returned (some "engineName configuration doesn't match runtime name"), []⟩)
    (statErr : engine.EngineName = cfg.Name → ∀ e, env.stat [] engine.Rootfs = .err e →
      motive ⟨.returned (some ("stat on " ++ engine.Rootfs ++ " failed")),
        [Event.stat engine.Rootfs (.err e)]⟩)
    (notDir : engine.EngineName = cfg.Name → env.stat [] engine.Rootfs = .info false →
      motive ⟨.returned (some (engine.Rootfs ++ " is not a directory")),
        [Event.stat engine.Rootfs (.info false)]⟩)
    (preFatal : engine.EngineName = cfg.Name → env.stat [] engine.Rootfs = .info true →
      ∀ k l c r, (labelled "pre" engine.Pre).get? k = some (l, c) → r ≠ ScriptResult.ok →
      motive ⟨.aborted, Event.stat engine.Rootfs (.info true) ::
        (okScripts ((labelled "pre" engine.Pre).take k) ++ [Event.script l c r])⟩)
    (mountErr : engine.EngineName = cfg.Name → env.stat [] engine.Rootfs = .info true →
      ∀ j c pfx err, (mountPlan cfg engine.Rootfs).get? j = some (c, pfx) →
      motive ⟨.returned (some (pfx ++ err)),
        preDone engine ++ okMounts ((mountPlan cfg engine.Rootfs).take j) ++
          [Event.mount c (some err)]⟩)
    (setupFatal : engine.EngineName = cfg.Name → env.stat [] engine.Rootfs = .info true →
      ∀ k l c r, (labelled "setup" engine.Setup).get? k = some (l, c) → r ≠ ScriptResult.ok →
      motive ⟨.aborted, preDone engine ++ okMounts (mountPlan cfg engine.Rootfs) ++
        okScripts ((labelled "setup" engine.Setup).take k) ++ [Event.script l c r]⟩)
    (chdirErr : engine.EngineName = cfg.Name → env.stat [] engine.Rootfs = .info true →
      ∀ err, motive ⟨.returned (some ("change directory failed: " ++ err)),
        setupDone cfg engine ++ [Event.chdir cfg.SESSIONDIR (some err)]⟩)
    (chrootErr : engine.EngineName = cfg.Name → env.stat [] engine.Rootfs = .info true →
      ∀ err, motive ⟨.returned (some ("chroot failed: " ++ err)),
        setupDone cfg engine ++
          [Event.chdir cfg.SESSIONDIR none, Event.chroot cfg.SESSIONDIR (some err)]⟩)
    (chdirRootErr : engine.EngineName = cfg.Name → env.stat [] engine.Rootfs = .info true →
      ∀ err, motive ⟨.returned (some ("change directory failed: " ++ err)),
        setupDone cfg engine ++
          [Event.chdir cfg.SESSIONDIR none, Event.chroot cfg.SESSIONDIR none,
           Event.chdir "/" (some err)]⟩)
    (closeErr : engine.EngineName = cfg.Name → env.stat [] engine.Rootfs = .info true →
      ∀ err, motive ⟨.returned (some ("can't close connection with rpc server: " ++ err)),
        setupDone cfg engine ++
          [Event.chdir cfg.SESSIONDIR none, Event.chroot cfg.SESSIONDIR none,
           Event.chdir "/" none, Event.close (some err)]⟩)
    (success : engine.EngineName = cfg.Name → env.stat [] engine.Rootfs = .info true →
      motive ⟨.returned none,
        setupDone cfg engine ++
          [Event.chdir cfg.SESSIONDIR none, Event.chroot cfg.SESSIONDIR none,
           Event.chdir "/" none, Event.close none]⟩) :
    motive (CreateContainer cfg env engine) := by
  unfold CreateContainer
  simp only [rpcNewClient, rpcMount]
  split
  · next hn => exact mismatch hn
  · next hn =>
    have hn : engine.EngineName = cfg.Name := by simpa using hn
    split
    · next e he => rw [he]; simpa using statErr hn e he
    · next isDir he =>
      rw [he]
      split
      · next hd => subst hd; simpa using notDir hn he
      · next hd =>
        have hd : isDir = true := by simpa using hd
        subst hd
        simp only [List.nil_append]
        split
        · next t1 h1 =>
          obtain ⟨k, l, c, r, hk, hr, e⟩ := runAllScripts_fatal h1
          subst e
          simpa using preFatal hn he k l c r hk hr
        · next t1 h1 =>
          have e := runAllScripts_cont h1
          subst e
          split
          · next err t2 h2 =>
            simp only [Prod.mk.injEq] at h2
            obtain ⟨h2a, h2b⟩ := h2
            subst h2b
            rw [h2a]
            simpa [preDone, okMounts, mountPlan] using mountErr hn he 0 _ _ err rfl
          rename_i t2 h2
          simp only [Prod.mk.injEq] at h2
          obtain ⟨h2a, h2b⟩ := h2
          subst h2b
          simp only [h2a]
          clear h2a
          split
          · next err t2 h2 =>
            simp only [Prod.mk.injEq] at h2
            obtain ⟨h2a, h2b⟩ := h2
            subst h2b
            rw [h2a]
            simpa [preDone, okMounts, mountPlan] using mountErr hn he 1 _ _ err rfl
          rename_i t2 h2
          simp only [Prod.mk.injEq] at h2
          obtain ⟨h2a, h2b⟩ := h2
          subst h2b
          simp only [h2a]
          clear h2a
          split
          · next err t2 h2 =>
            simp only [Prod.mk.injEq] at h2
            obtain ⟨h2a, h2b⟩ := h2
            subst h2b
            rw [h2a]
            simpa [preDone, okMounts, mountPlan] using mountErr hn he 2 _ _ err rfl
          rename_i t2 h2
          simp only [Prod.mk.injEq] at h2
          obtain ⟨h2a, h2b⟩ := h2
          subst h2b
          simp only [h2a]
          clear h2a
          split
          · next err t2 h2 =>
            simp only [Prod.mk.injEq] at h2
            obtain ⟨h2a, h2b⟩ := h2
            subst h2b
            rw [h2a]
            simpa [preDone, okMounts, mountPlan] using mountErr hn he 3 _ _ err rfl
          rename_i t2 h2
          simp only [Prod.mk.injEq] at h2
          obtain ⟨h2a, h2b⟩ := h2
          subst h2b
          simp only [h2a]
          clear h2a
          split
          · next err t2 h2 =>
            simp only [Prod.mk.injEq] at h2
            obtain ⟨h2a, h2b⟩ := h2
            subst h2b
            rw [h2a]
            simpa [preDone, okMounts, mountPlan] using mountErr hn he 4 _ _ err rfl
          rename_i t2 h2
          simp only [Prod.mk.injEq] at h2
          obtain ⟨h2a, h2b⟩ := h2
          subst h2b
          simp only [h2a]
          clear h2a
          split
          · next err t2 h2 =>
            simp only [Prod.mk.injEq] at h2
            obtain ⟨h2a, h2b⟩ := h2
            subst h2b
            rw [h2a]
            simpa [preDone, okMounts, mountPlan] using mountErr hn he 5 _ _ err rfl
          rename_i t2 h2
          simp only [Prod.mk.injEq] at h2
          obtain ⟨h2a, h2b⟩ := h2
          subst h2b
          simp only [h2a]
          clear h2a
          split
          · next err t2 h2 =>
            simp only [Prod.mk.injEq] at h2
            obtain ⟨h2a, h2b⟩ := h2
            subst h2b
            rw [h2a]
            simpa [preDone, okMounts, mountPlan] using mountErr hn he 6 _ _ err rfl
          rename_i t2 h2
          simp only [Prod.mk.injEq] at h2
          obtain ⟨h2a, h2b⟩ := h2
          subst h2b
          simp only [h2a]
          clear h2a
          split
          · next err t2 h2 =>
            simp only [Prod.mk.injEq] at h2
            obtain ⟨h2a, h2b⟩ := h2
            subst h2b
            rw [h2a]
            simpa [preDone, okMounts, mountPlan] using mountErr hn he 7 _ _ err rfl
          rename_i t2 h2
          simp only [Prod.mk.injEq] at h2
          obtain ⟨h2a, h2b⟩ := h2
          subst h2b
          simp only [h2a]
          clear h2a
          split
          · next t3 h3 =>
            obtain ⟨k, l, c, r, hk, hr, e⟩ := runAllScripts_fatal h3
            subst e
            simpa [preDone, okMounts, mountPlan] using setupFatal hn he k l c r hk hr
          rename_i t3 h3
          have e := runAllScripts_cont h3
          subst e
          clear h3
          split
          · next err h4 =>
            rw [h4]
            simpa [setupDone, preDone, okMounts, mountPlan] using chdirErr hn he err
          rename_i h4
          simp only [h4]
          split
          · next err h5 =>
            rw [h5]
            simpa [setupDone, preDone, okMounts, mountPlan] using chrootErr hn he err
          rename_i h5
          simp only [h5]
          split
          · next err h6 =>
            rw [h6]
            simpa [setupDone, preDone, okMounts, mountPlan] using chdirRootErr hn he err
          rename_i h6
          simp only [h6]
          split
          · next err h7 =>
            rw [h7]
            simpa [setupDone, preDone, okMounts, mountPlan] using closeErr hn he err
          rename_i h7
          simp only [h7]
          simpa [setupDone, preDone, okMounts, mountPlan] using success hn he

@[simp] theorem mountCalls_okMounts (cs : List (MountCall × String)) :
    mountCalls (okMounts cs) = cs.map (fun c => (c.1, none)) := by
  induction cs with
  | nil => rfl
  | cons p l ih => simpa [okMounts, mountCalls] using ih

@[simp] theorem scriptsRun_okMounts (cs : List (MountCall × String)) :
    scriptsRun (okMounts cs) = [] := by
  induction cs with
  | nil => rfl
  | cons p l ih => simpa [okMounts, scriptsRun] using ih

@[simp] theorem callCount_okMounts (k : Kind) (cs : List (MountCall × String)) :
    callCount k (okMounts cs) = if k = Kind.mount then cs.length else 0 := by
  induction cs with
  | nil => simp [okMounts, callCount]
  | cons p l ih =>
    have hcons : callCount k (okMounts (p :: l)) =
        (if k = Kind.mount then 1 else 0) + callCount k (okMounts l) := by
      simp only [okMounts, callCount, List.map_cons, List.filter_cons, Event.kind]
      by_cases hk : k = Kind.mount
      · subst hk; simp; omega
      · have hk2 : ¬ Kind.mount = k := fun h => hk h.symm
        simp [hk, hk2]
    rw [hcons, ih]
    by_cases hk : k = Kind.mount <;> simp [hk]; omega

@[simp] theorem callCount_nil (k : Kind) : callCount k [] = 0 := rfl

@[simp] theorem callCount_cons (k : Kind) (e : Event) (t : Trace) :
    callCount k (e :: t) = (if e.kind = k then 1 else 0) + callCount k t := by
  simp only [callCount, List.filter_cons]
  by_cases h : e.kind = k <;> simp [h]; omega

theorem okMounts_callFailed (cs : List (MountCall × String)) :
    ∀ e ∈ okMounts cs, e.callFailed = false := by
  intro e he
  simp only [okMounts, List.mem_map] at he
  obtain ⟨p, _, rfl⟩ := he
  rfl

theorem okMounts_scriptFailed (cs : List (MountCall × String)) :
    ∀ e ∈ okMounts cs, e.scriptFailed = false := by
  intro e he
  simp only [okMounts, List.mem_map] at he
  obtain ⟨p, _, rfl⟩ := he
  rfl

theorem mountPlan_pairs (cfg : BuildCfg) (rootfs : String) :
    (mountPlan cfg rootfs).map (fun c => (c.1.source, c.1.target)) =
      expectedMounts cfg rootfs := rfl

theorem mountPlan_length (cfg : BuildCfg) (rootfs : String) :
    (mountPlan cfg rootfs).length = 8 := rfl

/-! ### Engine name and rootfs validation -/

/-- C3: when the configured engine name differs from the engine's own name,
`CreateContainer` returns the configuration-mismatch error and makes no call at
all: the trace is empty, so there is no stat, no hook script, no mount and no
chroot. -/
theorem CreateContainer_engine_name_mismatch (cfg : BuildCfg) (env : Env)
    (engine : EngineOperations) (h : engine.EngineName ≠ cfg.Name) :
    (CreateContainer cfg env engine).out =
        .returned (some "engineName configuration doesn't match runtime name") ∧
      (CreateContainer cfg env engine).trace = [] ∧
      callCount .mount (CreateContainer cfg env engine).trace = 0 ∧
      callCount .chroot (CreateContainer cfg env engine).trace = 0 ∧
      callCount .stat (CreateContainer cfg env engine).trace = 0 ∧
      callCount .script (CreateContainer cfg env engine).trace = 0 := by
  simp [CreateContainer, h]

theorem CreateContainer_engine_name_mismatch_witness :
    engineOther.EngineName ≠ cfg0.Name ∧
      (CreateContainer cfg0 envOk engineOther).out =
        .returned (some "engineName configuration doesn't match runtime name") ∧
      (CreateContainer cfg0 envOk engineOther).trace = [] :=
  ⟨by decide,
   (CreateContainer_engine_name_mismatch cfg0 envOk engineOther (by decide)).1,
   (CreateContainer_engine_name_mismatch cfg0 envOk engineOther (by decide)).2.1⟩

/-- C4: with a matching engine name, a failing stat of the rootfs yields the
error "stat on <rootfs> failed" and a rootfs that is not a directory yields
"<rootfs> is not a directory"; in both cases the stat is the only call made:
no mount, no chroot and no hook script. -/
theorem CreateContainer_rootfs_invalid (cfg : BuildCfg) (env : Env)
    (engine : EngineOperations) (hname : engine.EngineName = cfg.Name) :
    (∀ e, env.stat [] engine.Rootfs = .err e →
      (CreateContainer cfg env engine).out =
          .returned (some ("stat on " ++ engine.Rootfs ++ " failed")) ∧
        callCount .mount (CreateContainer cfg env engine).trace = 0 ∧
        callCount .chroot (CreateContainer cfg env engine).trace = 0 ∧
        callCount .script (CreateContainer cfg env engine).trace = 0) ∧
    (env.stat [] engine.Rootfs = .info false →
      (CreateContainer cfg env engine).out =
          .returned (some (engine.Rootfs ++ " is not a directory")) ∧
        callCount .mount (CreateContainer cfg env engine).trace = 0 ∧
        callCount .chroot (CreateContainer cfg env engine).trace = 0 ∧
        callCount .script (CreateContainer cfg env engine).trace = 0) := by
  constructor
  · intro e he
    simp [CreateContainer, hname, rpcNewClient, he, Event.kind]
  · intro he
    simp [CreateContainer, hname, rpcNewClient, he, Event.kind]

theorem CreateContainer_rootfs_invalid_witness :
    (CreateContainer cfg0 envStatErr engineHooks).out =
        .returned (some "stat on /tmp/rootfs failed") ∧
      callCount .mount (CreateContainer cfg0 envStatErr engineHooks).trace = 0 ∧
      callCount .script (CreateContainer cfg0 envStatErr engineHooks).trace = 0 ∧
      (CreateContainer cfg0 envNotDir engineHooks).out =
        .returned (some "/tmp/rootfs is not a directory") ∧
      callCount .mount (CreateContainer cfg0 envNotDir engineHooks).trace = 0 ∧
      callCount .script (CreateContainer cfg0 envNotDir engineHooks).trace = 0 :=
  have h1 := (CreateContainer_rootfs_invalid cfg0 envStatErr engineHooks rfl).1
    "no such file or directory" rfl
  have h2 := (CreateContainer_rootfs_invalid cfg0 envNotDir engineHooks rfl).2 rfl
  ⟨h1.1, h1.2.1, h1.2.2.2, h2.1, h2.2.1, h2.2.2.2⟩

/-! ### The successful run -/

theorem mountPairs_setupDone (cfg : BuildCfg) (engine : EngineOperations) :
    mountPairs (setupDone cfg engine) = expectedMounts cfg engine.Rootfs := by
  simp [setupDone, preDone, mountPairs, mountCalls]
  rfl

theorem callCount_setupDone (cfg : BuildCfg) (engine : EngineOperations) :
    callCount .mount (setupDone cfg engine) = 8 ∧
      callCount .chroot (setupDone cfg engine) = 0 ∧
      callCount .close (setupDone cfg engine) = 0 ∧
      callCount .chdir (setupDone cfg engine) = 0 := by
  simp [setupDone, preDone, Event.kind, mountPlan_length]

theorem scriptFailed_of_ne_ok (l c : String) (r : ScriptResult) (h : r ≠ ScriptResult.ok) :
    (Event.script l c r).scriptFailed = true := by
  cases r <;> simp_all [Event.scriptFailed]

/-- C1, as stated, fails: with a matching engine name, a rootfs that is a
directory and no failing mount, chdir, chroot or close, a pre script that exits
with status 1 terminates the process; `CreateContainer` does not return nil and
no mount is issued. -/
theorem CreateContainer_mount_order_counterexample :
    engineOnePre.EngineName = cfg0.Name ∧
      envScriptFails.stat [] engineOnePre.Rootfs = .info true ∧
      (∀ e ∈ (CreateContainer cfg0 envScriptFails engineOnePre).trace, e.callFailed = false) ∧
      (CreateContainer cfg0 envScriptFails engineOnePre).out = .aborted ∧
      (CreateContainer cfg0 envScriptFails engineOnePre).out ≠ .returned none ∧
      mountPairs (CreateContainer cfg0 envScriptFails engineOnePre).trace = [] := by
  decide

/-- C1, amended: with a matching engine name, a rootfs that is a directory, and
every hook script, mount, chdir, chroot and close of the run succeeding,
`CreateContainer` returns nil, its `Mount` calls are exactly the eight of the
specification in that order, and the single `Chroot` of the session directory
comes after all of them. -/
theorem CreateContainer_mount_order (cfg : BuildCfg) (env : Env) (engine : EngineOperations)
    (hname : engine.EngineName = cfg.Name)
    (hdir : env.stat [] engine.Rootfs = .info true)
    (hcalls : ∀ e ∈ (CreateContainer cfg env engine).trace, e.callFailed = false)
    (hscripts : ∀ e ∈ (CreateContainer cfg env engine).trace, e.scriptFailed = false) :
    (CreateContainer cfg env engine).out = .returned none ∧
      mountPairs (CreateContainer cfg env engine).trace = expectedMounts cfg engine.Rootfs ∧
      callCount .chroot (CreateContainer cfg env engine).trace = 1 ∧
      ∃ before after,
        (CreateContainer cfg env engine).trace =
          before ++ Event.chroot cfg.SESSIONDIR none :: after ∧
        mountPairs before = expectedMounts cfg engine.Rootfs ∧
        callCount .mount after = 0 := by
  revert hcalls hscripts
  refine CreateContainer_elim cfg env engine
    (fun r => (∀ e ∈ r.trace, e.callFailed = false) → (∀ e ∈ r.trace, e.scriptFailed = false) →
      r.out = .returned none ∧ mountPairs r.trace = expectedMounts cfg engine.Rootfs ∧
      callCount .chroot r.trace = 1 ∧
      ∃ before after, r.trace = before ++ Event.chroot cfg.SESSIONDIR none :: after ∧
        mountPairs before = expectedMounts cfg engine.Rootfs ∧ callCount .mount after = 0)
    ?_ ?_ ?_ ?_ ?_ ?_ ?_ ?_ ?_ ?_ ?_
  · intro h; exact absurd hname h
  · intro _ e he; rw [hdir] at he; simp at he
  · intro _ he; rw [hdir] at he; simp at he
  · intro _ _ k l c r _ hr _ hs
    have := hs (Event.script l c r) (by simp)
    rw [scriptFailed_of_ne_ok l c r hr] at this
    simp at this
  · intro _ _ j c pfx err _ hc _
    have := hc (Event.mount c (some err)) (by simp)
    simp [Event.callFailed] at this
  · intro _ _ k l c r _ hr _ hs
    have := hs (Event.script l c r) (by simp)
    rw [scriptFailed_of_ne_ok l c r hr] at this
    simp at this
  · intro _ _ err hc _
    have := hc (Event.chdir cfg.SESSIONDIR (some err)) (by simp)
    simp [Event.callFailed] at this
  · intro _ _ err hc _
    have := hc (Event.chroot cfg.SESSIONDIR (some err)) (by simp)
    simp [Event.callFailed] at this
  · intro _ _ err hc _
    have := hc (Event.chdir "/" (some err)) (by simp)
    simp [Event.callFailed] at this
  · intro _ _ err hc _
    have := hc (Event.close (some err)) (by simp)
    simp [Event.callFailed] at this
  · intro _ _ _ _
    refine ⟨rfl, ?_, ?_, setupDone cfg engine ++ [Event.chdir cfg.SESSIONDIR none],
      [Event.chdir "/" none, Event.close none], ?_, ?_, ?_⟩
    · simp only [mountPairs_append, mountPairs_setupDone]
      simp [mountPairs, mountCalls]
    · simp [callCount_setupDone, Event.kind]
    · simp
    · simp only [mountPairs_append, mountPairs_setupDone]
      simp [mountPairs, mountCalls]
    · simp [Event.kind]

theorem CreateContainer_mount_order_witness :
    (CreateContainer cfg0 envOk engineHooks).out = .returned none ∧
      mountPairs (CreateContainer cfg0 envOk engineHooks).trace =
        expectedMounts cfg0 engineHooks.Rootfs :=
  have h := CreateContainer_mount_order cfg0 envOk engineHooks rfl rfl (by decide) (by decide)
  ⟨h.1, h.2.1⟩

/-- C2, as stated, fails: in scenario A the channel receives eight `Mount`
calls, not seven. Moreover the success of the privileged calls alone does not
make `CreateContainer` succeed: when the chdir into the session directory
fails, it returns an error and `Chroot` and `Close` are never called. -/
theorem CreateContainer_scenario_A_counterexample :
    (engineA.EngineName = cfg0.Name ∧ engineA.Pre = [] ∧ engineA.Setup = [] ∧
      envOk.stat [] engineA.Rootfs = .info true ∧
      (∀ e ∈ (CreateContainer cfg0 envOk engineA).trace, e.callFailed = false) ∧
      (CreateContainer cfg0 envOk engineA).out = .returned none ∧
      callCount .mount (CreateContainer cfg0 envOk engineA).trace = 8 ∧
      callCount .mount (CreateContainer cfg0 envOk engineA).trace ≠ 7) ∧
    (envChdirFails.stat [] engineA.Rootfs = .info true ∧
      (∀ e ∈ (CreateContainer cfg0 envChdirFails engineA).trace, e.privFailed = false) ∧
      (CreateContainer cfg0 envChdirFails engineA).out =
        .returned (some "change directory failed: no such file or directory") ∧
      callCount .chroot (CreateContainer cfg0 envChdirFails engineA).trace = 0 ∧
      callCount .close (CreateContainer cfg0 envChdirFails engineA).trace = 0) := by
  decide

/-- C2, amended: in scenario A (matching engine name, rootfs a directory, no
pre or setup hook scripts, every privileged call and both chdir calls
succeeding) `CreateContainer` returns nil and the channel receives exactly 8
`Mount` calls, exactly 1 `Chroot` call and exactly 1 `Close` call. -/
theorem CreateContainer_scenario_A (cfg : BuildCfg) (env : Env) (engine : EngineOperations)
    (hname : engine.EngineName = cfg.Name)
    (hdir : env.stat [] engine.Rootfs = .info true)
    (hpre : engine.Pre = []) (hsetup : engine.Setup = [])
    (hcalls : ∀ e ∈ (CreateContainer cfg env engine).trace, e.callFailed = false) :
    (CreateContainer cfg env engine).out = .returned none ∧
      callCount .mount (CreateContainer cfg env engine).trace = 8 ∧
      callCount .chroot (CreateContainer cfg env engine).trace = 1 ∧
      callCount .close (CreateContainer cfg env engine).trace = 1 := by
  revert hcalls
  refine CreateContainer_elim cfg env engine
    (fun r => (∀ e ∈ r.trace, e.callFailed = false) →
      r.out = .returned none ∧ callCount .mount r.trace = 8 ∧
      callCount .chroot r.trace = 1 ∧ callCount .close r.trace = 1)
    ?_ ?_ ?_ ?_ ?_ ?_ ?_ ?_ ?_ ?_ ?_
  · intro h; exact absurd hname h
  · intro _ e he; rw [hdir] at he; simp at he
  · intro _ he; rw [hdir] at he; simp at he
  · intro _ _ k l c r hk
    simp [hpre, labelled_nil] at hk
  · intro _ _ j c pfx err _ hc
    have := hc (Event.mount c (some err)) (by simp)
    simp [Event.callFailed] at this
  · intro _ _ k l c r hk
    simp [hsetup, labelled_nil] at hk
  · intro _ _ err hc
    have := hc (Event.chdir cfg.SESSIONDIR (some err)) (by simp)
    simp [Event.callFailed] at this
  · intro _ _ err hc
    have := hc (Event.chroot cfg.SESSIONDIR (some err)) (by simp)
    simp [Event.callFailed] at this
  · intro _ _ err hc
    have := hc (Event.chdir "/" (some err)) (by simp)
    simp [Event.callFailed] at this
  · intro _ _ err hc
    have := hc (Event.close (some err)) (by simp)
    simp [Event.callFailed] at this
  · intro _ _ _
    simp [callCount_setupDone, Event.kind]

theorem CreateContainer_scenario_A_witness :
    (CreateContainer cfg0 envOk engineA).out = .returned none ∧
      callCount .mount (CreateContainer cfg0 envOk engineA).trace = 8 ∧
      callCount .chroot (CreateContainer cfg0 envOk engineA).trace = 1 ∧
      callCount .close (CreateContainer cfg0 envOk engineA).trace = 1 :=
  CreateContainer_scenario_A cfg0 envOk engineA rfl rfl rfl rfl (by decide)

/-! ### A failing mount -/

theorem getElem?_okCalls_ne (l : List (MountCall × String)) (i : Nat) (c : MountCall)
    (err : String) :
    (l.map (fun p => (p.1, (none : Option String))))[i]? ≠ some (c, some err) := by
  intro h
  rw [List.getElem?_map] at h
  cases hl : l[i]? with
  | none => simp [hl] at h
  | some p => simp [hl] at h

theorem getElem?_okCalls_append (l : List (MountCall × String)) (c' : MountCall)
    (err' : String) (i : Nat) (c : MountCall) (err : String)
    (h : (l.map (fun p => (p.1, (none : Option String))) ++ [(c', some err')])[i]? =
      some (c, some err)) :
    i = l.length ∧ c = c' ∧ err = err' := by
  rcases Nat.lt_trichotomy i l.length with hlt | heq | hgt
  · rw [List.getElem?_append_left (by simpa using hlt)] at h
    exact absurd h (getElem?_okCalls_ne l i c err)
  · subst heq
    rw [List.getElem?_append_right (by simp)] at h
    simp at h
    exact ⟨rfl, h.1.symm, h.2.symm⟩
  · rw [List.getElem?_append_right (by simp; omega)] at h
    simp at h
    have : i - l.length ≠ 0 := by omega
    cases hi : i - l.length with
    | zero => exact absurd hi this
    | succ n => simp [hi] at h

theorem mountCalls_nil : mountCalls [] = [] := rfl

theorem mountCalls_stat (p : String) (r : StatResult) (t : Trace) :
    mountCalls (Event.stat p r :: t) = mountCalls t := rfl

theorem mountCalls_script (l c : String) (r : ScriptResult) (t : Trace) :
    mountCalls (Event.script l c r :: t) = mountCalls t := rfl

theorem mountCalls_mount (c : MountCall) (r : Option String) (t : Trace) :
    mountCalls (Event.mount c r :: t) = (c, r) :: mountCalls t := rfl

theorem mountCalls_chdir (p : String) (r : Option String) (t : Trace) :
    mountCalls (Event.chdir p r :: t) = mountCalls t := rfl

theorem mountCalls_chroot (p : String) (r : Option String) (t : Trace) :
    mountCalls (Event.chroot p r :: t) = mountCalls t := rfl

theorem mountCalls_close (r : Option String) (t : Trace) :
    mountCalls (Event.close r :: t) = mountCalls t := rfl

theorem mountCalls_preDone (engine : EngineOperations) :
    mountCalls (preDone engine) = [] := by
  simp only [preDone, mountCalls_stat, mountCalls_okScripts]

theorem mountCalls_setupDone (cfg : BuildCfg) (engine : EngineOperations) :
    mountCalls (setupDone cfg engine) =
      (mountPlan cfg engine.Rootfs).map (fun p => (p.1, (none : Option String))) := by
  simp only [setupDone, mountCalls_append, mountCalls_preDone, mountCalls_okScripts,
    mountCalls_okMounts, List.nil_append, List.append_nil]

theorem callCount_preDone (engine : EngineOperations) :
    callCount .mount (preDone engine) = 0 ∧ callCount .chroot (preDone engine) = 0 ∧
      callCount .close (preDone engine) = 0 ∧ callCount .chdir (preDone engine) = 0 := by
  simp [preDone, Event.kind]

/-- C5: if the `k`-th `Mount` call of a run returns an error, then
`CreateContainer` returns a non-nil error whose message ends with the text of
that error, exactly `k` `Mount` calls have been attempted (the first `k - 1`
having succeeded), the failing call is the last call of the run, the only hook
scripts run are those of the pre phase, and neither `Chroot` nor `Close` is
called. -/
theorem CreateContainer_mount_failure (cfg : BuildCfg) (env : Env) (engine : EngineOperations)
    (k : Nat) (c : MountCall) (err : String) (hk : 0 < k)
    (hkth : (mountCalls (CreateContainer cfg env engine).trace)[k - 1]? = some (c, some err)) :
    (∃ pfx, (CreateContainer cfg env engine).out = .returned (some (pfx ++ err))) ∧
      callCount .mount (CreateContainer cfg env engine).trace = k ∧
      (∀ i, i < k - 1 →
        ∃ c', (mountCalls (CreateContainer cfg env engine).trace)[i]? = some (c', none)) ∧
      (∃ before, (CreateContainer cfg env engine).trace = before ++ [Event.mount c (some err)]) ∧
      scriptsRun (CreateContainer cfg env engine).trace = labelled "pre" engine.Pre ∧
      callCount .chroot (CreateContainer cfg env engine).trace = 0 ∧
      callCount .close (CreateContainer cfg env engine).trace = 0 := by
  revert hkth
  refine CreateContainer_elim cfg env engine
    (fun r => (mountCalls r.trace)[k - 1]? = some (c, some err) →
      (∃ pfx, r.out = .returned (some (pfx ++ err))) ∧
      callCount .mount r.trace = k ∧
      (∀ i, i < k - 1 → ∃ c', (mountCalls r.trace)[i]? = some (c', none)) ∧
      (∃ before, r.trace = before ++ [Event.mount c (some err)]) ∧
      scriptsRun r.trace = labelled "pre" engine.Pre ∧
      callCount .chroot r.trace = 0 ∧ callCount .close r.trace = 0)
    ?_ ?_ ?_ ?_ ?_ ?_ ?_ ?_ ?_ ?_ ?_
  · intro _ h; simp [mountCalls] at h
  · intro _ e _ h; simp [mountCalls] at h
  · intro _ _ h; simp [mountCalls] at h
  · intro _ _ k' l c' r _ _ h; simp [mountCalls] at h
  · intro _ _ j c' pfx err' hj h
    have hj2 : (mountPlan cfg engine.Rootfs)[j]? = some (c', pfx) := by simpa using hj
    obtain ⟨hjlt, _⟩ := List.getElem?_eq_some_iff.mp hj2
    have hlen : ((mountPlan cfg engine.Rootfs).take j).length = j := by
      simp; omega
    have hm : mountCalls (preDone engine ++ okMounts ((mountPlan cfg engine.Rootfs).take j) ++
        [Event.mount c' (some err')]) =
        ((mountPlan cfg engine.Rootfs).take j).map (fun p => (p.1, (none : Option String))) ++
          [(c', some err')] := by
      simp [preDone, mountCalls]
    simp only [] at h ⊢
    rw [hm] at h ⊢
    obtain ⟨h1, h2, h3⟩ := getElem?_okCalls_append _ _ _ _ _ _ h
    subst h2 h3
    rw [hlen] at h1
    refine ⟨⟨pfx, rfl⟩, ?_, ?_, ⟨_, rfl⟩, ?_, ?_, ?_⟩
    · simp [callCount_preDone, Event.kind]; omega
    · intro i hi
      have hi2 : i < ((mountPlan cfg engine.Rootfs).take j).length := by omega
      rw [List.getElem?_append_left (by simpa using hi2)]
      rw [List.getElem?_map, List.getElem?_eq_getElem hi2]
      exact ⟨_, rfl⟩
    · simp [preDone, scriptsRun]
    · simp [callCount_preDone, Event.kind]
    · simp [callCount_preDone, Event.kind]
  · intro _ _ k' l c' r _ _ h
    simp only [mountCalls_append, mountCalls_preDone, mountCalls_okMounts, mountCalls_okScripts,
      mountCalls_script, mountCalls_nil, List.nil_append, List.append_nil] at h
    exact absurd h (getElem?_okCalls_ne _ _ _ _)
  · intro _ _ err' h
    simp only [mountCalls_append, mountCalls_setupDone, mountCalls_chdir, mountCalls_chroot,
      mountCalls_close, mountCalls_nil, List.append_nil] at h
    exact absurd h (getElem?_okCalls_ne _ _ _ _)
  · intro _ _ err' h
    simp only [mountCalls_append, mountCalls_setupDone, mountCalls_chdir, mountCalls_chroot,
      mountCalls_close, mountCalls_nil, List.append_nil] at h
    exact absurd h (getElem?_okCalls_ne _ _ _ _)
  · intro _ _ err' h
    simp only [mountCalls_append, mountCalls_setupDone, mountCalls_chdir, mountCalls_chroot,
      mountCalls_close, mountCalls_nil, List.append_nil] at h
    exact absurd h (getElem?_okCalls_ne _ _ _ _)
  · intro _ _ err' h
    simp only [mountCalls_append, mountCalls_setupDone, mountCalls_chdir, mountCalls_chroot,
      mountCalls_close, mountCalls_nil, List.append_nil] at h
    exact absurd h (getElem?_okCalls_ne _ _ _ _)
  · intro _ _ h
    simp only [mountCalls_append, mountCalls_setupDone, mountCalls_chdir, mountCalls_chroot,
      mountCalls_close, mountCalls_nil, List.append_nil] at h
    exact absurd h (getElem?_okCalls_ne _ _ _ _)

theorem CreateContainer_mount_failure_witness :
    (0 < 3) ∧
      (∃ pfx, (CreateContainer cfg0 envThirdMountFails engineHooks).out =
        .returned (some (pfx ++ "permission denied"))) ∧
      callCount .mount (CreateContainer cfg0 envThirdMountFails engineHooks).trace = 3 ∧
      callCount .chroot (CreateContainer cfg0 envThirdMountFails engineHooks).trace = 0 ∧
      callCount .close (CreateContainer cfg0 envThirdMountFails engineHooks).trace = 0 :=
  have h := CreateContainer_mount_failure cfg0 envThirdMountFails engineHooks 3
    ⟨"sysfs", filepath.Join [cfg0.CONTAINER_FINALDIR, "sys"], "sysfs", syscall.MS_NOSUID, ""⟩
    "permission denied" (by decide) (by decide)
  ⟨by decide, h.1, h.2.1, h.2.2.2.2.2.1, h.2.2.2.2.2.2⟩

/-! ### Hook scripts -/

theorem kind_okScripts (l : List (String × String)) :
    ∀ e ∈ okScripts l, e.kind = Kind.script := by
  intro e he
  simp only [okScripts, List.mem_map] at he
  obtain ⟨p, _, rfl⟩ := he
  rfl

theorem kind_okMounts (cs : List (MountCall × String)) :
    ∀ e ∈ okMounts cs, e.kind = Kind.mount := by
  intro e he
  simp only [okMounts, List.mem_map] at he
  obtain ⟨p, _, rfl⟩ := he
  rfl

theorem scriptsRun_nil : scriptsRun [] = [] := rfl

theorem scriptsRun_script (l c : String) (r : ScriptResult) (t : Trace) :
    scriptsRun (Event.script l c r :: t) = (l, c) :: scriptsRun t := rfl

theorem take_append_get {α : Type} (L : List α) (k : Nat) (x : α) (h : L.get? k = some x) :
    L.take k ++ [x] <+: L := by
  have h2 : L[k]? = some x := by simpa using h
  have h3 : L.take (k + 1) = L.take k ++ [x] := by
    rw [List.take_succ, h2]; rfl
  rw [← h3]
  exact List.take_prefix _ _

/-- C6: `runAllScripts` adds to the trace only script executions; the scripts
run are, in list order and with the labels of the specification, an initial
part of the list, and the whole list when none of them fails. The labels are:
none for an empty list (the call is a no-op), the phase name for a single
script, and `phase-0 .. phase-(N-1)` for `N > 1` scripts. -/
theorem runAllScripts_labels (env : Env) (phase : String) (script : List String) (t : Trace) :
    (∃ ran, (runAllScripts env phase script t).trace = t ++ ran ∧
        (∀ e ∈ ran, e.kind = Kind.script) ∧
        scriptsRun ran <+: labelled phase script ∧
        ((∀ e ∈ ran, e.scriptFailed = false) →
          scriptsRun ran = labelled phase script ∧
            runAllScripts env phase script t = .cont (t ++ ran))) ∧
      (script = [] → runAllScripts env phase script t = .cont t) ∧
      (∀ s, script = [s] → labelled phase script = [(phase, s)]) ∧
      (1 < script.length → labelled phase script =
        ((List.range script.length).map (fun i => phase ++ "-" ++ toString i)).zip script) := by
  refine ⟨?_, ?_, ?_, ?_⟩
  · cases h : runAllScripts env phase script t with
    | cont t' =>
      have e := runAllScripts_cont h
      subst e
      refine ⟨okScripts (labelled phase script), rfl, kind_okScripts _, ?_, ?_⟩
      · simp
      · intro _; simp
    | fatal t' =>
      obtain ⟨k, l, c, r, hk, hr, e⟩ := runAllScripts_fatal h
      subst e
      refine ⟨okScripts ((labelled phase script).take k) ++ [Event.script l c r], ?_, ?_, ?_, ?_⟩
      · simp [Step.trace]
      · intro e he
        rcases List.mem_append.mp he with h1 | h1
        · exact kind_okScripts _ e h1
        · simp at h1; subst h1; rfl
      · simp only [scriptsRun_append, scriptsRun_okScripts, scriptsRun_script, scriptsRun_nil]
        exact take_append_get _ _ _ hk
      · intro hall
        have := hall (Event.script l c r) (by simp)
        rw [scriptFailed_of_ne_ok l c r hr] at this
        simp at this
  · intro h; subst h; simp [runAllScripts]
  · intro s h; subst h; exact labelled_single phase s
  · intro h
    rw [labelled_many phase script (by omega), List.range_eq_range']

theorem runAllScripts_labels_witness :
    (runAllScripts envOk "pre" ["echo a", "echo b", "echo c"] []).trace =
        [Event.script "pre-0" "echo a" .ok, Event.script "pre-1" "echo b" .ok,
         Event.script "pre-2" "echo c" .ok] ∧
      (runAllScripts envOk "setup" ["echo a"] []).trace = [Event.script "setup" "echo a" .ok] ∧
      runAllScripts envOk "pre" [] [] = .cont [] ∧
      labelled "pre" ["echo a", "echo b", "echo c"] =
        [("pre-0", "echo a"), ("pre-1", "echo b"), ("pre-2", "echo c")] :=
  ⟨by decide, by decide,
   (runAllScripts_labels envOk "pre" [] []).2.1 rfl,
   ((runAllScripts_labels envOk "pre" ["echo a", "echo b", "echo c"] []).2.2.2
     (by decide)).trans (by decide)⟩

theorem scriptsRun_take_prefix (L : List (String × String)) (k : Nat) (l c : String)
    (r : ScriptResult) (hk : L.get? k = some (l, c)) :
    scriptsRun (okScripts (L.take k) ++ [Event.script l c r]) <+: L := by
  simp only [scriptsRun_append, scriptsRun_okScripts, scriptsRun_script, scriptsRun_nil]
  exact take_append_get _ _ _ hk

theorem kind_take_script (L : List (String × String)) (k : Nat) (l c : String)
    (r : ScriptResult) :
    ∀ e ∈ okScripts (L.take k) ++ [Event.script l c r], e.kind = Kind.script := by
  intro e he
  rcases List.mem_append.mp he with h1 | h1
  · exact kind_okScripts _ e h1
  · simp at h1; subst h1; rfl

theorem getLast?_okMounts_mountPlan (cfg : BuildCfg) (rootfs : String) :
    (okMounts (mountPlan cfg rootfs)).getLast? =
      some (Event.mount ⟨cfg.CONTAINER_FINALDIR, cfg.SESSIONDIR, "",
        syscall.MS_BIND ||| syscall.MS_REC, ""⟩ none) := rfl

theorem okMounts_mountPlan_ne_nil (cfg : BuildCfg) (rootfs : String) :
    okMounts (mountPlan cfg rootfs) ≠ [] := by
  simp [okMounts, mountPlan]

/-- C7: the trace of every run of `CreateContainer` is made of five successive
parts: the stat, executions of pre scripts, `Mount` calls, executions of setup
scripts, and chdir, chroot and close calls. So every pre script that runs does
so before the first `Mount` call, and a `Mount` call is made only after all pre
scripts have run; every setup script that runs does so after the `Mount` that
binds the final directory onto the session directory, which succeeded, and
before the chdir into the session directory and the `Chroot` call, which are
made only after all setup scripts have run. -/
theorem CreateContainer_hook_order (cfg : BuildCfg) (env : Env) (engine : EngineOperations) :
    ∃ stats pre mounts setup rest,
      (CreateContainer cfg env engine).trace = stats ++ pre ++ mounts ++ setup ++ rest ∧
      (∀ e ∈ stats, e.kind = Kind.stat) ∧
      (∀ e ∈ pre, e.kind = Kind.script) ∧
      scriptsRun pre <+: labelled "pre" engine.Pre ∧
      (∀ e ∈ mounts, e.kind = Kind.mount) ∧
      (∀ e ∈ setup, e.kind = Kind.script) ∧
      scriptsRun setup <+: labelled "setup" engine.Setup ∧
      (∀ e ∈ rest, e.kind = Kind.chdir ∨ e.kind = Kind.chroot ∨ e.kind = Kind.close) ∧
      (mounts ≠ [] → scriptsRun pre = labelled "pre" engine.Pre) ∧
      (setup ≠ [] ∨ rest ≠ [] →
        mounts.getLast? = some (Event.mount ⟨cfg.CONTAINER_FINALDIR, cfg.SESSIONDIR, "",
          syscall.MS_BIND ||| syscall.MS_REC, ""⟩ none)) ∧
      (rest ≠ [] → scriptsRun setup = labelled "setup" engine.Setup) := by
  refine CreateContainer_elim cfg env engine
    (fun r => ∃ stats pre mounts setup rest,
      r.trace = stats ++ pre ++ mounts ++ setup ++ rest ∧
      (∀ e ∈ stats, e.kind = Kind.stat) ∧
      (∀ e ∈ pre, e.kind = Kind.script) ∧
      scriptsRun pre <+: labelled "pre" engine.Pre ∧
      (∀ e ∈ mounts, e.kind = Kind.mount) ∧
      (∀ e ∈ setup, e.kind = Kind.script) ∧
      scriptsRun setup <+: labelled "setup" engine.Setup ∧
      (∀ e ∈ rest, e.kind = Kind.chdir ∨ e.kind = Kind.chroot ∨ e.kind = Kind.close) ∧
      (mounts ≠ [] → scriptsRun pre = labelled "pre" engine.Pre) ∧
      (setup ≠ [] ∨ rest ≠ [] →
        mounts.getLast? = some (Event.mount ⟨cfg.CONTAINER_FINALDIR, cfg.SESSIONDIR, "",
          syscall.MS_BIND ||| syscall.MS_REC, ""⟩ none)) ∧
      (rest ≠ [] → scriptsRun setup = labelled "setup" engine.Setup))
    ?_ ?_ ?_ ?_ ?_ ?_ ?_ ?_ ?_ ?_ ?_
  · intro _
    exact ⟨[], [], [], [], [], by simp [scriptsRun_nil]⟩
  · intro _ e _
    exact ⟨[Event.stat engine.Rootfs (.err e)], [], [], [], [], by simp [scriptsRun_nil, Event.kind]⟩
  · intro _ _
    exact ⟨[Event.stat engine.Rootfs (.info false)], [], [], [], [],
      by simp [scriptsRun_nil, Event.kind]⟩
  · intro _ _ k l c r hk _
    refine ⟨[Event.stat engine.Rootfs (.info true)],
      okScripts ((labelled "pre" engine.Pre).take k) ++ [Event.script l c r], [], [], [],
      by simp, by simp [Event.kind], kind_take_script _ _ _ _ _,
      scriptsRun_take_prefix _ _ _ _ _ hk, by simp, by simp, by simp [scriptsRun_nil],
      by simp, by simp, by simp, by simp⟩
  · intro _ _ j c pfx err _
    refine ⟨[Event.stat engine.Rootfs (.info true)], okScripts (labelled "pre" engine.Pre),
      okMounts ((mountPlan cfg engine.Rootfs).take j) ++ [Event.mount c (some err)], [], [],
      by simp [preDone], by simp [Event.kind], kind_okScripts _, by simp, ?_, by simp,
      by simp [scriptsRun_nil], by simp, by simp, by simp, by simp⟩
    intro e he
    rcases List.mem_append.mp he with h1 | h1
    · exact kind_okMounts _ e h1
    · simp at h1; subst h1; rfl
  · intro _ _ k l c r hk _
    refine ⟨[Event.stat engine.Rootfs (.info true)], okScripts (labelled "pre" engine.Pre),
      okMounts (mountPlan cfg engine.Rootfs),
      okScripts ((labelled "setup" engine.Setup).take k) ++ [Event.script l c r], [],
      by simp [preDone], by simp [Event.kind], kind_okScripts _, by simp, kind_okMounts _,
      kind_take_script _ _ _ _ _, scriptsRun_take_prefix _ _ _ _ _ hk, by simp, by simp,
      fun _ => getLast?_okMounts_mountPlan cfg engine.Rootfs, by simp⟩
  · intro _ _ err
    refine ⟨[Event.stat engine.Rootfs (.info true)], okScripts (labelled "pre" engine.Pre),
      okMounts (mountPlan cfg engine.Rootfs), okScripts (labelled "setup" engine.Setup),
      [Event.chdir cfg.SESSIONDIR (some err)],
      by simp [setupDone, preDone], by simp [Event.kind], kind_okScripts _, by simp,
      kind_okMounts _, kind_okScripts _, by simp, by simp [Event.kind], by simp,
      fun _ => getLast?_okMounts_mountPlan cfg engine.Rootfs, by simp⟩
  · intro _ _ err
    refine ⟨[Event.stat engine.Rootfs (.info true)], okScripts (labelled "pre" engine.Pre),
      okMounts (mountPlan cfg engine.Rootfs), okScripts (labelled "setup" engine.Setup),
      [Event.chdir cfg.SESSIONDIR none, Event.chroot cfg.SESSIONDIR (some err)],
      by simp [setupDone, preDone], by simp [Event.kind], kind_okScripts _, by simp,
      kind_okMounts _, kind_okScripts _, by simp, by simp [Event.kind], by simp,
      fun _ => getLast?_okMounts_mountPlan cfg engine.Rootfs, by simp⟩
  · intro _ _ err
    refine ⟨[Event.stat engine.Rootfs (.info true)], okScripts (labelled "pre" engine.Pre),
      okMounts (mountPlan cfg engine.Rootfs), okScripts (labelled "setup" engine.Setup),
      [Event.chdir cfg.SESSIONDIR none, Event.chroot cfg.SESSIONDIR none,
        Event.chdir "/" (some err)],
      by simp [setupDone, preDone], by simp [Event.kind], kind_okScripts _, by simp,
      kind_okMounts _, kind_okScripts _, by simp, by simp [Event.kind], by simp,
      fun _ => getLast?_okMounts_mountPlan cfg engine.Rootfs, by simp⟩
  · intro _ _ err
    refine ⟨[Event.stat engine.Rootfs (.info true)], okScripts (labelled "pre" engine.Pre),
      okMounts (mountPlan cfg engine.Rootfs), okScripts (labelled "setup" engine.Setup),
      [Event.chdir cfg.SESSIONDIR none, Event.chroot cfg.SESSIONDIR none,
        Event.chdir "/" none, Event.close (some err)],
      by simp [setupDone, preDone], by simp [Event.kind], kind_okScripts _, by simp,
      kind_okMounts _, kind_okScripts _, by simp, by simp [Event.kind], by simp,
      fun _ => getLast?_okMounts_mountPlan cfg engine.Rootfs, by simp⟩
  · intro _ _
    refine ⟨[Event.stat engine.Rootfs (.info true)], okScripts (labelled "pre" engine.Pre),
      okMounts (mountPlan cfg engine.Rootfs), okScripts (labelled "setup" engine.Setup),
      [Event.chdir cfg.SESSIONDIR none, Event.chroot cfg.SESSIONDIR none,
        Event.chdir "/" none, Event.close none],
      by simp [setupDone, preDone], by simp [Event.kind], kind_okScripts _, by simp,
      kind_okMounts _, kind_okScripts _, by simp, by simp [Event.kind], by simp,
      fun _ => getLast?_okMounts_mountPlan cfg engine.Rootfs, by simp⟩

theorem CreateContainer_hook_order_witness :
    ∃ stats pre mounts setup rest,
      (CreateContainer cfg0 envOk engineHooks).trace = stats ++ pre ++ mounts ++ setup ++ rest ∧
      (∀ e ∈ stats, e.kind = Kind.stat) ∧
      (∀ e ∈ pre, e.kind = Kind.script) ∧
      scriptsRun pre <+: labelled "pre" engineHooks.Pre ∧
      (∀ e ∈ mounts, e.kind = Kind.mount) ∧
      (∀ e ∈ setup, e.kind = Kind.script) ∧
      scriptsRun setup <+: labelled "setup" engineHooks.Setup ∧
      (∀ e ∈ rest, e.kind = Kind.chdir ∨ e.kind = Kind.chroot ∨ e.kind = Kind.close) ∧
      (mounts ≠ [] → scriptsRun pre = labelled "pre" engineHooks.Pre) ∧
      (setup ≠ [] ∨ rest ≠ [] →
        mounts.getLast? = some (Event.mount ⟨cfg0.CONTAINER_FINALDIR, cfg0.SESSIONDIR, "",
          syscall.MS_BIND ||| syscall.MS_REC, ""⟩ none)) ∧
      (rest ≠ [] → scriptsRun setup = labelled "setup" engineHooks.Setup) :=
  CreateContainer_hook_order cfg0 envOk engineHooks

/-! ### A failing hook script -/

/-- In a list that ends with `e` and has no element satisfying `p` before it,
an element satisfying `p` can only be `e`. -/
theorem split_at_last {α : Type} (p : α → Prop) :
    ∀ (X : List α) (e f : α) (before after : List α),
      (∀ x ∈ X, ¬ p x) → p f → X ++ [e] = before ++ f :: after →
      after = [] ∧ before = X ∧ f = e := by
  intro X
  induction X with
  | nil =>
    intro e f before after _ _ h
    cases before with
    | nil => simp at h; exact ⟨h.2, rfl, h.1.symm⟩
    | cons b bs => simp at h
  | cons x X ih =>
    intro e f before after hX hf h
    cases before with
    | nil =>
      simp at h
      exact absurd (h.1 ▸ hf) (hX x (by simp))
    | cons b bs =>
      simp at h
      obtain ⟨h1, h2⟩ := h
      obtain ⟨ha, hb, hc⟩ := ih e f bs after (fun y hy => hX y (by simp [hy])) hf h2
      exact ⟨ha, by rw [hb, h1], hc⟩

theorem not_scriptFailed_preDone (engine : EngineOperations) :
    ∀ e ∈ preDone engine, ¬ e.scriptFailed = true := by
  intro e he
  simp only [preDone, List.mem_cons] at he
  rcases he with h | h
  · subst h; simp [Event.scriptFailed]
  · simp [okScripts_scriptFailed _ e h]

theorem not_scriptFailed_setupDone (cfg : BuildCfg) (engine : EngineOperations) :
    ∀ e ∈ setupDone cfg engine, ¬ e.scriptFailed = true := by
  intro e he
  simp only [setupDone, List.mem_append] at he
  rcases he with (h | h) | h
  · exact not_scriptFailed_preDone engine e h
  · simp [okMounts_scriptFailed _ e h]
  · simp [okScripts_scriptFailed _ e h]

theorem mem_of_split {α : Type} {t before after : List α} {f : α}
    (h : t = before ++ f :: after) : f ∈ t := by
  subst h; simp

theorem labelled_label_mem (phase : String) (script : List String) (k : Nat) (l c : String)
    (h : (labelled phase script).get? k = some (l, c)) :
    l ∈ phaseLabels phase script.length := by
  have h2 : (labelled phase script)[k]? = some (l, c) := by simpa using h
  have h3 : (l, c) ∈ labelled phase script := List.getElem?_mem h2
  exact (List.of_mem_zip h3).1

theorem phaseLabels_data (phase : String) (n : Nat) (l : String)
    (h : l ∈ phaseLabels phase n) : ∃ rest, l.data = phase.data ++ rest := by
  unfold phaseLabels at h
  split at h
  · simp at h; subst h; exact ⟨[], by simp⟩
  · simp only [List.mem_map] at h
    obtain ⟨i, _, rfl⟩ := h
    exact ⟨("-" ++ toString i).data, by simp [String.data_append]⟩

theorem pre_label_ne_setup_label (n m : Nat) (l : String)
    (h1 : l ∈ phaseLabels "pre" n) (h2 : l ∈ phaseLabels "setup" m) : False := by
  obtain ⟨r1, e1⟩ := phaseLabels_data _ _ _ h1
  obtain ⟨r2, e2⟩ := phaseLabels_data _ _ _ h2
  rw [e1] at e2
  simp at e2

/-- C8: if a hook script of a run fails to start or exits non-zero, the process
is terminated and that execution is the last call of the run, so no later
script and nothing else is attempted; when the failing script carries a label
of the pre phase, the run contains no `Mount` call at all. -/
theorem CreateContainer_hook_failure (cfg : BuildCfg) (env : Env) (engine : EngineOperations)
    (before after : Trace) (l c : String) (r : ScriptResult)
    (hsplit : (CreateContainer cfg env engine).trace = before ++ Event.script l c r :: after)
    (hr : r ≠ ScriptResult.ok) :
    (CreateContainer cfg env engine).out = .aborted ∧ after = [] ∧
      (l ∈ phaseLabels "pre" engine.Pre.length →
        callCount .mount (CreateContainer cfg env engine).trace = 0) := by
  have hf : (Event.script l c r).scriptFailed = true := scriptFailed_of_ne_ok l c r hr
  revert hsplit
  refine CreateContainer_elim cfg env engine
    (fun run => run.trace = before ++ Event.script l c r :: after →
      run.out = .aborted ∧ after = [] ∧
      (l ∈ phaseLabels "pre" engine.Pre.length → callCount .mount run.trace = 0))
    ?_ ?_ ?_ ?_ ?_ ?_ ?_ ?_ ?_ ?_ ?_
  · intro _ h; simp at h
  · intro _ e _ h
    have := mem_of_split h
    simp at this
  · intro _ _ h
    have := mem_of_split h
    simp at this
  · intro _ _ k l' c' r' _ _ h
    refine ⟨rfl, ?_, ?_⟩
    · have h2 : (Event.stat engine.Rootfs (.info true) ::
          okScripts ((labelled "pre" engine.Pre).take k)) ++ [Event.script l' c' r'] =
          before ++ Event.script l c r :: after := by simpa using h
      refine (split_at_last (fun e => e.scriptFailed = true) _ _ _ _ _ ?_ hf h2).1
      intro x hx
      simp only [List.mem_cons] at hx
      rcases hx with hx | hx
      · subst hx; simp [Event.scriptFailed]
      · simp [okScripts_scriptFailed _ x hx]
    · intro _
      simp [Event.kind]
  · intro _ _ j c' pfx err _ h
    exfalso
    have h2 : (preDone engine ++ okMounts ((mountPlan cfg engine.Rootfs).take j)) ++
        [Event.mount c' (some err)] = before ++ Event.script l c r :: after := by simpa using h
    have h3 := (split_at_last (fun e => e.scriptFailed = true) _ _ _ _ _ ?_ hf h2).2.2
    · simp at h3
    · intro x hx
      rcases List.mem_append.mp hx with hx | hx
      · exact not_scriptFailed_preDone engine x hx
      · simp [okMounts_scriptFailed _ x hx]
  · intro _ _ k l' c' r' hk _ h
    have h2 : (preDone engine ++ okMounts (mountPlan cfg engine.Rootfs) ++
        okScripts ((labelled "setup" engine.Setup).take k)) ++ [Event.script l' c' r'] =
        before ++ Event.script l c r :: after := by simpa using h
    have h3 := split_at_last (fun e => e.scriptFailed = true) _ _ _ _ _ ?_ hf h2
    · refine ⟨rfl, h3.1, ?_⟩
      intro hl
      exfalso
      have h4 : l = l' := by
        have := h3.2.2
        simp at this
        exact this.1
      subst h4
      exact pre_label_ne_setup_label _ _ l hl (labelled_label_mem _ _ _ _ _ hk)
    · intro x hx
      rcases List.mem_append.mp hx with hx | hx
      · rcases List.mem_append.mp hx with hx | hx
        · exact not_scriptFailed_preDone engine x hx
        · simp [okMounts_scriptFailed _ x hx]
      · simp [okScripts_scriptFailed _ x hx]
  · intro _ _ err h
    exfalso
    have h3 := (split_at_last (fun e => e.scriptFailed = true) _ _ _ _ _
      (not_scriptFailed_setupDone cfg engine) hf h).2.2
    simp at h3
  · intro _ _ err h
    exfalso
    have h2 : (setupDone cfg engine ++ [Event.chdir cfg.SESSIONDIR none]) ++
        [Event.chroot cfg.SESSIONDIR (some err)] = before ++ Event.script l c r :: after := by
      simpa using h
    have h3 := (split_at_last (fun e => e.scriptFailed = true) _ _ _ _ _ ?_ hf h2).2.2
    · simp at h3
    · intro x hx
      rcases List.mem_append.mp hx with hx | hx
      · exact not_scriptFailed_setupDone cfg engine x hx
      · simp at hx; subst hx; simp [Event.scriptFailed]
  · intro _ _ err h
    exfalso
    have h2 : (setupDone cfg engine ++ [Event.chdir cfg.SESSIONDIR none,
        Event.chroot cfg.SESSIONDIR none]) ++
        [Event.chdir "/" (some err)] = before ++ Event.script l c r :: after := by
      simpa using h
    have h3 := (split_at_last (fun e => e.scriptFailed = true) _ _ _ _ _ ?_ hf h2).2.2
    · simp at h3
    · intro x hx
      rcases List.mem_append.mp hx with hx | hx
      · exact not_scriptFailed_setupDone cfg engine x hx
      · simp at hx; rcases hx with hx | hx <;> subst hx <;> simp [Event.scriptFailed]
  · intro _ _ err h
    exfalso
    have h2 : (setupDone cfg engine ++ [Event.chdir cfg.SESSIONDIR none,
        Event.chroot cfg.SESSIONDIR none, Event.chdir "/" none]) ++
        [Event.close (some err)] = before ++ Event.script l c r :: after := by
      simpa using h
    have h3 := (split_at_last (fun e => e.scriptFailed = true) _ _ _ _ _ ?_ hf h2).2.2
    · simp at h3
    · intro x hx
      rcases List.mem_append.mp hx with hx | hx
      · exact not_scriptFailed_setupDone cfg engine x hx
      · simp at hx; rcases hx with hx | hx | hx <;> subst hx <;> simp [Event.scriptFailed]
  · intro _ _ h
    exfalso
    have h2 : (setupDone cfg engine ++ [Event.chdir cfg.SESSIONDIR none,
        Event.chroot cfg.SESSIONDIR none, Event.chdir "/" none]) ++
        [Event.close none] = before ++ Event.script l c r :: after := by
      simpa using h
    have h3 := (split_at_last (fun e => e.scriptFailed = true) _ _ _ _ _ ?_ hf h2).2.2
    · simp at h3
    · intro x hx
      rcases List.mem_append.mp hx with hx | hx
      · exact not_scriptFailed_setupDone cfg engine x hx
      · simp at hx; rcases hx with hx | hx | hx <;> subst hx <;> simp [Event.scriptFailed]

theorem CreateContainer_hook_failure_witness :
    (CreateContainer cfg0 envScriptFails engineHooks).out = .aborted ∧
      callCount .mount (CreateContainer cfg0 envScriptFails engineHooks).trace = 0 :=
  have h := CreateContainer_hook_failure cfg0 envScriptFails engineHooks
    [Event.stat "/tmp/rootfs" (.info true)] [] "pre-0" "mkdir -p /tmp/rootfs/etc"
    (.waitFailed "exit status 1") (by decide) (by decide)
  ⟨h.1, h.2.2 (by decide)⟩

/-! ### Closing the channel -/

theorem callCount_pos_of_mem {t : Trace} {e : Event} (h : e ∈ t) : 0 < callCount e.kind t := by
  induction t with
  | nil => simp at h
  | cons x t ih =>
    rw [callCount_cons]
    rcases List.mem_cons.mp h with h1 | h1
    · subst h1; simp
    · have := ih h1; omega

theorem close_not_mem_setupDone (cfg : BuildCfg) (engine : EngineOperations) (r : Option String) :
    Event.close r ∉ setupDone cfg engine := by
  intro h
  have h1 := callCount_pos_of_mem h
  have h2 := (callCount_setupDone cfg engine).2.2.1
  simp only [Event.kind] at h1
  omega

theorem close_not_mem_preDone (engine : EngineOperations) (r : Option String) :
    Event.close r ∉ preDone engine := by
  intro h
  have h1 := callCount_pos_of_mem h
  have h2 := (callCount_preDone engine).2.2.1
  simp only [Event.kind] at h1
  omega

theorem close_not_mem_okMounts (cs : List (MountCall × String)) (r : Option String) :
    Event.close r ∉ okMounts cs := by
  intro h
  have := kind_okMounts cs _ h
  simp [Event.kind] at this

theorem close_not_mem_okScripts (l : List (String × String)) (r : Option String) :
    Event.close r ∉ okScripts l := by
  intro h
  have := kind_okScripts l _ h
  simp [Event.kind] at this

/-- C9: `CreateContainer` returns nil only if the channel was closed exactly
once, as the last call of the run, directly after the `Chroot` of the session
directory and the chdir to "/" that follows it, and the close reported no
error; and if the close reports an error, `CreateContainer` returns the error
"can't close connection with rpc server: <cause>". -/
theorem CreateContainer_close (cfg : BuildCfg) (env : Env) (engine : EngineOperations) :
    ((CreateContainer cfg env engine).out = .returned none →
      callCount .close (CreateContainer cfg env engine).trace = 1 ∧
      ∃ before, (CreateContainer cfg env engine).trace =
          before ++ [Event.chroot cfg.SESSIONDIR none, Event.chdir "/" none, Event.close none] ∧
        callCount .close before = 0) ∧
    (∀ err, Event.close (some err) ∈ (CreateContainer cfg env engine).trace →
      (CreateContainer cfg env engine).out =
        .returned (some ("can't close connection with rpc server: " ++ err))) := by
  refine CreateContainer_elim cfg env engine
    (fun run => (run.out = .returned none →
        callCount .close run.trace = 1 ∧
        ∃ before, run.trace =
            before ++ [Event.chroot cfg.SESSIONDIR none, Event.chdir "/" none, Event.close none] ∧
          callCount .close before = 0) ∧
      (∀ err, Event.close (some err) ∈ run.trace →
        run.out = .returned (some ("can't close connection with rpc server: " ++ err))))
    ?_ ?_ ?_ ?_ ?_ ?_ ?_ ?_ ?_ ?_ ?_
  · intro _
    exact ⟨by simp, by simp⟩
  · intro _ e _
    exact ⟨by simp, by simp⟩
  · intro _ _
    exact ⟨by simp, by simp⟩
  · intro _ _ k l c r _ _
    exact ⟨by simp, by simp [close_not_mem_okScripts]⟩
  · intro _ _ j c pfx err _
    exact ⟨by simp, by simp [close_not_mem_preDone, close_not_mem_okMounts]⟩
  · intro _ _ k l c r _ _
    exact ⟨by simp, by simp [close_not_mem_preDone, close_not_mem_okMounts,
      close_not_mem_okScripts]⟩
  · intro _ _ err
    exact ⟨by simp, by simp [close_not_mem_setupDone]⟩
  · intro _ _ err
    exact ⟨by simp, by simp [close_not_mem_setupDone]⟩
  · intro _ _ err
    exact ⟨by simp, by simp [close_not_mem_setupDone]⟩
  · intro _ _ err
    refine ⟨by simp, ?_⟩
    intro err' h
    simp [close_not_mem_setupDone] at h
    subst h
    rfl
  · intro _ _
    refine ⟨fun _ => ⟨?_, setupDone cfg engine ++ [Event.chdir cfg.SESSIONDIR none], ?_, ?_⟩, ?_⟩
    · simp [callCount_setupDone, Event.kind]
    · simp
    · simp [callCount_setupDone, Event.kind]
    · simp [close_not_mem_setupDone]

theorem CreateContainer_close_witness :
    callCount .close (CreateContainer cfg0 envOk engineHooks).trace = 1 ∧
      (CreateContainer cfg0 envCloseFails engineHooks).out =
        .returned (some "can't close connection with rpc server: connection is shut down") :=
  ⟨((CreateContainer_close cfg0 envOk engineHooks).1 (by decide)).1,
   (CreateContainer_close cfg0 envCloseFails engineHooks).2 "connection is shut down"
     (by decide)⟩

end Imgbuild

namespace Singularity

/-! ### The teardown steps of `CleanupContainer` -/

theorem stepsAttempted_append (a b : Trace) :
    stepsAttempted (a ++ b) = stepsAttempted a ++ stepsAttempted b := by
  induction a with
  | nil => rfl
  | cons e a ih => cases e <;> simp [stepsAttempted, ih]

/-- The body of `cleanupCrypt` starts no teardown step of the orchestrator. -/
theorem stepsAttempted_cleanupCryptBody (cfg : BuildCfg) (env : Env) (path : String)
    (err : Option String) (t : Trace) :
    stepsAttempted (cleanupCryptBody cfg env path err t).2 = stepsAttempted t := by
  unfold cleanupCryptBody
  split
  · rfl
  · simp only []
    split
    · simp [stepsAttempted_append, stepsAttempted]
    · split
      · simp [stepsAttempted_append, stepsAttempted]
      · split
        · simp [stepsAttempted_append, stepsAttempted]
        · split <;> simp [stepsAttempted_append, stepsAttempted]

theorem stepsAttempted_cleanupCrypt (cfg : BuildCfg) (env : Env) (path : String) (t : Trace) :
    stepsAttempted (cleanupCrypt cfg env path t).2 = stepsAttempted t := by
  simp [cleanupCrypt, stepsAttempted_append, stepsAttempted_cleanupCryptBody, stepsAttempted]

/-- The crypt step of `CleanupContainer` starts no teardown step of the
orchestrator. -/
theorem stepsAttempted_cryptStep (cfg : BuildCfg) (env : Env) (crypt : String) (t : Trace) :
    stepsAttempted
      (if crypt ≠ "" then
        match cleanupCrypt cfg env crypt t with
        | (.panicked, t) => (Result.panicked, t)
        | (.returned _, t) => (Result.returned none, t)
      else (Result.returned none, t)).2 = stepsAttempted t := by
  split
  · have h := stepsAttempted_cleanupCrypt cfg env crypt t
    split
    · next heq => rw [heq] at h; exact h
    · next heq => rw [heq] at h; exact h
  · rfl

/-- C10: whatever the outcome of each call (so also when image removal,
network teardown or cgroup removal fail), the teardown steps that
`CleanupContainer` attempts among image removal, network teardown, cgroup
removal and instance-record deletion are exactly the configured ones
(`DeleteImage` true, `Network` non-nil, `Cgroups` non-nil, `Instance` true),
each once, in that order. -/
theorem CleanupContainer_steps (cfg : BuildCfg) (env : Env) (engine : EngineOperations)
    (fatal : Option String) (status : Nat) :
    stepsAttempted (CleanupContainer cfg env engine fatal status).2 = stepsConfigured engine := by
  obtain ⟨id, del, image, net, fake, cg, inst, crypt⟩ := engine
  unfold CleanupContainer stepsConfigured
  cases inst
  · simp only [Bool.false_eq_true, if_false]
    rw [stepsAttempted_cryptStep]
    cases del <;> cases net <;> cases fake <;> cases cg <;>
      simp [stepsAttempted_append, stepsAttempted]
  · simp only [if_true]
    split <;>
      cases del <;> cases net <;> cases fake <;> cases cg <;>
        simp [stepsAttempted_append, stepsAttempted]

theorem CleanupContainer_steps_witness :
    stepsAttempted (CleanupContainer cfg0 envTeardownFails engineFull none 0).2 =
      [.image, .network, .cgroup, .instanceRecord] :=
  CleanupContainer_steps cfg0 envTeardownFails engineFull none 0

end Singularity

namespace Singularity

/-! ### Crypt device teardown -/

theorem splitChars_ne_nil (sep : Char) (cs : List Char) : strings.splitChars sep cs ≠ [] := by
  induction cs with
  | nil => simp [strings.splitChars]
  | cons c cs ih =>
    unfold strings.splitChars
    split
    · simp
    · split
      · simp
      · simp

/-- The index `len(sp)-1` of `cleanupCrypt` is in range. -/
theorem Split_last_some (path : String) :
    ∃ dev, (strings.Split path).get? ((strings.Split path).length - 1) = some dev := by
  have h : strings.Split path ≠ [] := by
    simp [strings.Split, splitChars_ne_nil]
  have hlen : (strings.Split path).length - 1 < (strings.Split path).length := by
    have := List.length_pos.mpr h
    omega
  exact ⟨_, List.get?_eq_get hlen⟩

/-- Every run of `cleanupCrypt` has one of five shapes. -/
theorem cleanupCrypt_elim (cfg : BuildCfg) (env : Env) (path : String) (t : Trace)
    (motive : Result × Trace → Prop)
    (escalateErr : ∀ uid e r, motive (.returned (some e),
      t ++ [Event.lockOSThread, Event.getuid uid, Event.setresuid uid 0 uid (some e),
        Event.unlockOSThread, Event.setresuid uid uid 0 r]))
    (overlayErr : ∀ uid e r, motive (.returned (some e),
      t ++ [Event.lockOSThread, Event.getuid uid, Event.setresuid uid 0 uid none,
        Event.unmount (filepath.Join [cfg.SESSIONDIR, "final"]) syscall.MNT_DETACH (some e),
        Event.unlockOSThread, Event.setresuid uid uid 0 r]))
    (rootfsErr : ∀ uid e r, motive (.returned (some e),
      t ++ [Event.lockOSThread, Event.getuid uid, Event.setresuid uid 0 uid none,
        Event.unmount (filepath.Join [cfg.SESSIONDIR, "final"]) syscall.MNT_DETACH none,
        Event.unmount (filepath.Join [cfg.SESSIONDIR, "rootfs"]) syscall.MNT_DETACH (some e),
        Event.unlockOSThread, Event.setresuid uid uid 0 r]))
    (closeErr : ∀ uid dev e r,
      (strings.Split path).get? ((strings.Split path).length - 1) = some dev →
      motive (.returned (some e),
      t ++ [Event.lockOSThread, Event.getuid uid, Event.setresuid uid 0 uid none,
        Event.unmount (filepath.Join [cfg.SESSIONDIR, "final"]) syscall.MNT_DETACH none,
        Event.unmount (filepath.Join [cfg.SESSIONDIR, "rootfs"]) syscall.MNT_DETACH none,
        Event.closeCryptDevice dev (some e),
        Event.unlockOSThread, Event.setresuid uid uid 0 r]))
    (success : ∀ uid dev r,
      (strings.Split path).get? ((strings.Split path).length - 1) = some dev →
      motive (.returned none,
      t ++ [Event.lockOSThread, Event.getuid uid, Event.setresuid uid 0 uid none,
        Event.unmount (filepath.Join [cfg.SESSIONDIR, "final"]) syscall.MNT_DETACH none,
        Event.unmount (filepath.Join [cfg.SESSIONDIR, "rootfs"]) syscall.MNT_DETACH none,
        Event.closeCryptDevice dev none,
        Event.unlockOSThread, Event.setresuid uid uid 0 r])) :
    motive (cleanupCrypt cfg env path t) := by
  obtain ⟨dev, hdev⟩ := Split_last_some path
  unfold cleanupCrypt cleanupCryptBody
  simp only [hdev]
  split
  · next e he =>
    rw [he]
    simpa using escalateErr _ e _
  · next he =>
    rw [he]
    split
    · next e h1 =>
      rw [h1]
      simpa using overlayErr _ e _
    · next h1 =>
      simp only [h1]
      split
      · next e h2 =>
        rw [h2]
        simpa using rootfsErr _ e _
      · next h2 =>
        simp only [h2]
        split
        · next e h3 =>
          rw [h3]
          simpa using closeErr _ dev e _ hdev
        · next h3 =>
          simp only [h3]
          simpa using success _ dev _ hdev

/-- C16: `cleanupCrypt` makes its calls in the order escalation
(`Setresuid(uid, 0, uid)`), unmount of `<session>/final`, unmount of
`<session>/rootfs`, close of the crypt device, and stops at the first one that
fails: it returns that call's error and attempts no later step; it returns nil
only when all four succeeded. (The two deferred calls follow in every case.) -/
theorem cleanupCrypt_stops_at_first_failure (cfg : BuildCfg) (env : Env) (path : String)
    (t : Trace) :
    ∃ uid r0 steps r1 ret,
      cleanupCrypt cfg env path t =
        (ret, t ++ [Event.lockOSThread, Event.getuid uid, Event.setresuid uid 0 uid r0] ++ steps ++
          [Event.unlockOSThread, Event.setresuid uid uid 0 r1]) ∧
      ((∃ e, r0 = some e ∧ steps = [] ∧ ret = .returned (some e)) ∨
       (∃ e, r0 = none ∧ ret = .returned (some e) ∧ steps =
          [Event.unmount (filepath.Join [cfg.SESSIONDIR, "final"]) syscall.MNT_DETACH (some e)]) ∨
       (∃ e, r0 = none ∧ ret = .returned (some e) ∧ steps =
          [Event.unmount (filepath.Join [cfg.SESSIONDIR, "final"]) syscall.MNT_DETACH none,
           Event.unmount (filepath.Join [cfg.SESSIONDIR, "rootfs"]) syscall.MNT_DETACH (some e)]) ∨
       (∃ dev e, r0 = none ∧ ret = .returned (some e) ∧ steps =
          [Event.unmount (filepath.Join [cfg.SESSIONDIR, "final"]) syscall.MNT_DETACH none,
           Event.unmount (filepath.Join [cfg.SESSIONDIR, "rootfs"]) syscall.MNT_DETACH none,
           Event.closeCryptDevice dev (some e)]) ∨
       (∃ dev, r0 = none ∧ ret = .returned none ∧ steps =
          [Event.unmount (filepath.Join [cfg.SESSIONDIR, "final"]) syscall.MNT_DETACH none,
           Event.unmount (filepath.Join [cfg.SESSIONDIR, "rootfs"]) syscall.MNT_DETACH none,
           Event.closeCryptDevice dev none])) := by
  refine cleanupCrypt_elim cfg env path t
    (fun p => ∃ uid r0 steps r1 ret,
      p = (ret, t ++ [Event.lockOSThread, Event.getuid uid, Event.setresuid uid 0 uid r0] ++
          steps ++ [Event.unlockOSThread, Event.setresuid uid uid 0 r1]) ∧
      ((∃ e, r0 = some e ∧ steps = [] ∧ ret = .returned (some e)) ∨
       (∃ e, r0 = none ∧ ret = .returned (some e) ∧ steps =
          [Event.unmount (filepath.Join [cfg.SESSIONDIR, "final"]) syscall.MNT_DETACH (some e)]) ∨
       (∃ e, r0 = none ∧ ret = .returned (some e) ∧ steps =
          [Event.unmount (filepath.Join [cfg.SESSIONDIR, "final"]) syscall.MNT_DETACH none,
           Event.unmount (filepath.Join [cfg.SESSIONDIR, "rootfs"]) syscall.MNT_DETACH (some e)]) ∨
       (∃ dev e, r0 = none ∧ ret = .returned (some e) ∧ steps =
          [Event.unmount (filepath.Join [cfg.SESSIONDIR, "final"]) syscall.MNT_DETACH none,
           Event.unmount (filepath.Join [cfg.SESSIONDIR, "rootfs"]) syscall.MNT_DETACH none,
           Event.closeCryptDevice dev (some e)]) ∨
       (∃ dev, r0 = none ∧ ret = .returned none ∧ steps =
          [Event.unmount (filepath.Join [cfg.SESSIONDIR, "final"]) syscall.MNT_DETACH none,
           Event.unmount (filepath.Join [cfg.SESSIONDIR, "rootfs"]) syscall.MNT_DETACH none,
           Event.closeCryptDevice dev none])))
    ?_ ?_ ?_ ?_ ?_
  · intro uid e r
    exact ⟨uid, some e, [], r, _, by simp, Or.inl ⟨e, rfl, rfl, rfl⟩⟩
  · intro uid e r
    exact ⟨uid, none, _, r, _, by simp, Or.inr (Or.inl ⟨e, rfl, rfl, rfl⟩)⟩
  · intro uid e r
    exact ⟨uid, none, _, r, _, by simp, Or.inr (Or.inr (Or.inl ⟨e, rfl, rfl, rfl⟩))⟩
  · intro uid dev e r _
    exact ⟨uid, none, _, r, _, by simp, Or.inr (Or.inr (Or.inr (Or.inl ⟨dev, e, rfl, rfl, rfl⟩)))⟩
  · intro uid dev r _
    exact ⟨uid, none, _, r, _, by simp, Or.inr (Or.inr (Or.inr (Or.inr ⟨dev, rfl, rfl, rfl⟩)))⟩

/-- C17: on every path of `cleanupCrypt` the calls of `Setresuid` are exactly
two: the escalation `Setresuid(uid, 0, uid)` and, as the last call of the
function, the restoration `Setresuid(uid, uid, 0)`, both with the uid that
`os.Getuid` returned; so the effective uid requested last is the real uid. -/
theorem cleanupCrypt_setresuid_paired (cfg : BuildCfg) (env : Env) (path : String)
    (t : Trace) :
    ∃ uid r0 mid r1,
      (cleanupCrypt cfg env path t).2 =
        t ++ [Event.lockOSThread, Event.getuid uid, Event.setresuid uid 0 uid r0] ++ mid ++
          [Event.unlockOSThread, Event.setresuid uid uid 0 r1] ∧
      (∀ e ∈ mid, e.isSetresuid = false) ∧
      List.countP Event.isSetresuid ((cleanupCrypt cfg env path t).2.drop t.length) = 2 := by
  refine cleanupCrypt_elim cfg env path t
    (fun p => ∃ uid r0 mid r1,
      p.2 = t ++ [Event.lockOSThread, Event.getuid uid, Event.setresuid uid 0 uid r0] ++ mid ++
          [Event.unlockOSThread, Event.setresuid uid uid 0 r1] ∧
      (∀ e ∈ mid, e.isSetresuid = false) ∧
      List.countP Event.isSetresuid (p.2.drop t.length) = 2)
    ?_ ?_ ?_ ?_ ?_
  · intro uid e r
    exact ⟨uid, some e, [], r, by simp, by simp, by simp [Event.isSetresuid]⟩
  · intro uid e r
    exact ⟨uid, none,
      [Event.unmount (filepath.Join [cfg.SESSIONDIR, "final"]) syscall.MNT_DETACH (some e)], r,
      by simp, by simp [Event.isSetresuid], by simp [Event.isSetresuid]⟩
  · intro uid e r
    exact ⟨uid, none,
      [Event.unmount (filepath.Join [cfg.SESSIONDIR, "final"]) syscall.MNT_DETACH none,
       Event.unmount (filepath.Join [cfg.SESSIONDIR, "rootfs"]) syscall.MNT_DETACH (some e)], r,
      by simp, by simp [Event.isSetresuid], by simp [Event.isSetresuid]⟩
  · intro uid dev e r _
    exact ⟨uid, none,
      [Event.unmount (filepath.Join [cfg.SESSIONDIR, "final"]) syscall.MNT_DETACH none,
       Event.unmount (filepath.Join [cfg.SESSIONDIR, "rootfs"]) syscall.MNT_DETACH none,
       Event.closeCryptDevice dev (some e)], r,
      by simp, by simp [Event.isSetresuid], by simp [Event.isSetresuid]⟩
  · intro uid dev r _
    exact ⟨uid, none,
      [Event.unmount (filepath.Join [cfg.SESSIONDIR, "final"]) syscall.MNT_DETACH none,
       Event.unmount (filepath.Join [cfg.SESSIONDIR, "rootfs"]) syscall.MNT_DETACH none,
       Event.closeCryptDevice dev none], r,
      by simp, by simp [Event.isSetresuid], by simp [Event.isSetresuid]⟩

/-- C18, evaluated: the deferred calls of `cleanupCrypt` run in the reverse of
the order of their `defer` statements, so on every path the thread is unpinned
first and the privilege is restored after it: every trace ends with
`UnlockOSThread` followed by `Setresuid(uid, uid, 0)`. -/
theorem cleanupCrypt_unlock_before_restore :
    (∀ (cfg : BuildCfg) (env : Env) (path : String) (t : Trace),
      ∃ before uid r, (cleanupCrypt cfg env path t).2 =
        before ++ [Event.unlockOSThread, Event.setresuid uid uid 0 r]) ∧
    cleanupCrypt cfg0 envAllOk "/dev/mapper/cryptroot" [] =
      (.returned none,
       [Event.lockOSThread, Event.getuid 1000, Event.setresuid 1000 0 1000 none,
        Event.unmount "/var/singularity/mnt/session/final" 2 none,
        Event.unmount "/var/singularity/mnt/session/rootfs" 2 none,
        Event.closeCryptDevice "cryptroot" none,
        Event.unlockOSThread, Event.setresuid 1000 1000 0 none]) := by
  refine ⟨?_, by decide⟩
  intro cfg env path t
  simp only [cleanupCrypt, List.append_assoc, List.cons_append, List.nil_append]
  exact ⟨_, _, _, rfl⟩

/-! ### The shape of the runs of `CleanupContainer` -/

/-- `CleanupContainer` first makes the calls of the image, network and cgroup
steps and then continues with the instance record or the crypt device. -/
theorem CleanupContainer_prefix (cfg : BuildCfg) (env : Env) (engine : EngineOperations)
    (fatal : Option String) (status : Nat) :
    ∃ ri re rn rd rc, CleanupContainer cfg env engine fatal status =
      (if engine.Instance then
        match env.instanceGet (teardownCalls engine ri re rn rd rc) engine.ContainerID
            cfg.SingSubDir with
        | .error err => (.returned (some err), teardownCalls engine ri re rn rd rc ++
            [Event.instanceGet engine.ContainerID cfg.SingSubDir
              (env.instanceGet (teardownCalls engine ri re rn rd rc) engine.ContainerID
                cfg.SingSubDir)])
        | .ok file => (.returned (env.instanceDelete (teardownCalls engine ri re rn rd rc ++
              [Event.instanceGet engine.ContainerID cfg.SingSubDir
                (env.instanceGet (teardownCalls engine ri re rn rd rc) engine.ContainerID
                  cfg.SingSubDir)]) file),
            teardownCalls engine ri re rn rd rc ++
              [Event.instanceGet engine.ContainerID cfg.SingSubDir
                (env.instanceGet (teardownCalls engine ri re rn rd rc) engine.ContainerID
                  cfg.SingSubDir),
               Event.instanceDelete file (env.instanceDelete (teardownCalls engine ri re rn rd rc ++
                [Event.instanceGet engine.ContainerID cfg.SingSubDir
                  (env.instanceGet (teardownCalls engine ri re rn rd rc) engine.ContainerID
                    cfg.SingSubDir)]) file)])
      else if engine.CryptDev ≠ "" then
        match cleanupCrypt cfg env engine.CryptDev (teardownCalls engine ri re rn rd rc) with
        | (.panicked, t) => (.panicked, t)
        | (.returned _, t) => (.returned none, t)
      else (.returned none, teardownCalls engine ri re rn rd rc)) := by
  obtain ⟨id, del, image, net, fake, cg, inst, crypt⟩ := engine
  cases del <;> cases net <;> cases fake <;> cases cg <;> cases inst <;>
    simp only [CleanupContainer, teardownCalls, if_true, if_false, Bool.false_eq_true,
      List.nil_append, List.append_nil, List.append_assoc, List.cons_append] <;>
    first
      | exact ⟨_, _, _, _, _, rfl⟩
      | exact ⟨_, _, _, _, none, rfl⟩
      | exact ⟨_, none, _, none, _, rfl⟩
      | exact ⟨_, none, _, none, none, rfl⟩
      | exact ⟨_, none, none, none, _, rfl⟩
      | exact ⟨_, none, none, none, none, rfl⟩
      | exact ⟨none, _, _, _, _, rfl⟩
      | exact ⟨none, _, _, _, none, rfl⟩
      | exact ⟨none, none, _, none, _, rfl⟩
      | exact ⟨none, none, _, none, none, rfl⟩
      | exact ⟨none, none, none, none, _, rfl⟩
      | exact ⟨none, none, none, none, none, rfl⟩
      | exact ⟨none, none, none, none, none, trivial⟩

/-- `cleanupCrypt` returns (it does not panic) and adds to the trace only calls
of its own, at least one. -/
theorem cleanupCrypt_ext (cfg : BuildCfg) (env : Env) (path : String) (t : Trace) :
    ∃ ret ext, cleanupCrypt cfg env path t = (.returned ret, t ++ ext) ∧
      (∀ e ∈ ext, e.isCrypt = true) ∧ ext ≠ [] := by
  refine cleanupCrypt_elim cfg env path t
    (fun p => ∃ ret ext, p = (.returned ret, t ++ ext) ∧
      (∀ e ∈ ext, e.isCrypt = true) ∧ ext ≠ [])
    ?_ ?_ ?_ ?_ ?_
  · intro uid e r
    exact ⟨_, _, rfl, by simp [Event.isCrypt], by simp⟩
  · intro uid e r
    exact ⟨_, _, rfl, by simp [Event.isCrypt], by simp⟩
  · intro uid e r
    exact ⟨_, _, rfl, by simp [Event.isCrypt], by simp⟩
  · intro uid dev e r _
    exact ⟨_, _, rfl, by simp [Event.isCrypt], by simp⟩
  · intro uid dev r _
    exact ⟨_, _, rfl, by simp [Event.isCrypt], by simp⟩

/-- Every run of `CleanupContainer` has one of four shapes. -/
theorem CleanupContainer_elim (cfg : BuildCfg) (env : Env) (engine : EngineOperations)
    (fatal : Option String) (status : Nat) (motive : Result × Trace → Prop)
    (instErr : engine.Instance = true → ∀ ri re rn rd rc err,
      motive (.returned (some err), teardownCalls engine ri re rn rd rc ++
        [Event.instanceGet engine.ContainerID cfg.SingSubDir (.error err)]))
    (instOk : engine.Instance = true → ∀ ri re rn rd rc file r,
      motive (.returned r, teardownCalls engine ri re rn rd rc ++
        [Event.instanceGet engine.ContainerID cfg.SingSubDir (.ok file),
         Event.instanceDelete file r]))
    (crypt : engine.Instance = false → engine.CryptDev ≠ "" → ∀ ri re rn rd rc ret ext,
      cleanupCrypt cfg env engine.CryptDev (teardownCalls engine ri re rn rd rc) =
        (.returned ret, teardownCalls engine ri re rn rd rc ++ ext) →
      (∀ e ∈ ext, e.isCrypt = true) → ext ≠ [] →
      motive (.returned none, teardownCalls engine ri re rn rd rc ++ ext))
    (plain : engine.Instance = false → engine.CryptDev = "" → ∀ ri re rn rd rc,
      motive (.returned none, teardownCalls engine ri re rn rd rc)) :
    motive (CleanupContainer cfg env engine fatal status) := by
  obtain ⟨ri, re, rn, rd, rc, h⟩ := CleanupContainer_prefix cfg env engine fatal status
  rw [h]
  split
  · next hi =>
    split
    · next err he => rw [he]; exact instErr hi ri re rn rd rc err
    · next file he => rw [he]; exact instOk hi ri re rn rd rc file _
  · next hi =>
    have hi : engine.Instance = false := by simpa using hi
    split
    · next hc =>
      obtain ⟨ret, ext, h1, h2, h3⟩ :=
        cleanupCrypt_ext cfg env engine.CryptDev (teardownCalls engine ri re rn rd rc)
      rw [h1]
      exact crypt hi hc ri re rn rd rc ret ext h1 h2 h3
    · next hc =>
      have hc : engine.CryptDev = "" := by simpa using hc
      exact plain hi hc ri re rn rd rc

/-! ### The calls of the image, network and cgroup steps -/

theorem teardownCalls_isCrypt (engine : EngineOperations) (ri re rn rd rc : Option String) :
    ∀ e ∈ teardownCalls engine ri re rn rd rc, e.isCrypt = false := by
  obtain ⟨id, del, image, net, fake, cg, inst, crypt⟩ := engine
  cases del <;> cases net <;> cases fake <;> cases cg <;>
    simp [teardownCalls, Event.isCrypt]

theorem teardownCalls_isInstanceDelete (engine : EngineOperations)
    (ri re rn rd rc : Option String) :
    ∀ e ∈ teardownCalls engine ri re rn rd rc, e.isInstanceDelete = false := by
  obtain ⟨id, del, image, net, fake, cg, inst, crypt⟩ := engine
  cases del <;> cases net <;> cases fake <;> cases cg <;>
    simp [teardownCalls, Event.isInstanceDelete]

theorem teardownCalls_countP_escalate (engine : EngineOperations)
    (ri re rn rd rc : Option String) :
    List.countP Event.isEscalate (teardownCalls engine ri re rn rd rc) =
      (if engine.Network.isSome = true ∧ engine.Fakeroot = true then 1 else 0) := by
  obtain ⟨id, del, image, net, fake, cg, inst, crypt⟩ := engine
  cases del <;> cases net <;> cases fake <;> cases cg <;>
    simp [teardownCalls, Event.isEscalate, List.countP_cons]

theorem teardownCalls_countP_drop (engine : EngineOperations)
    (ri re rn rd rc : Option String) :
    List.countP Event.isDrop (teardownCalls engine ri re rn rd rc) =
      (if engine.Network.isSome = true ∧ engine.Fakeroot = true then 1 else 0) := by
  obtain ⟨id, del, image, net, fake, cg, inst, crypt⟩ := engine
  cases del <;> cases net <;> cases fake <;> cases cg <;>
    simp [teardownCalls, Event.isDrop, List.countP_cons]

theorem teardownCalls_bracket (engine : EngineOperations) (ri re rn rd rc : Option String)
    (net : Handle) (hn : engine.Network = some net) (hf : engine.Fakeroot = true) :
    ∃ before after, teardownCalls engine ri re rn rd rc =
      before ++ [Event.escalate re, Event.delNetworks net rn, Event.drop rd] ++ after := by
  obtain ⟨id, del, image, net', fake, cg, inst, crypt⟩ := engine
  simp only at hn hf
  subst hn hf
  refine ⟨if del = true then [Event.removeAll image ri] else [],
    (match cg with
     | some cg => [Event.cgroupRemove cg rc]
     | none => []), ?_⟩
  cases cg <;> simp [teardownCalls]

theorem teardownCalls_delNetworks (engine : EngineOperations) (ri re rn rd rc : Option String)
    (net : Handle) (hn : engine.Network = some net) :
    Event.delNetworks net rn ∈ teardownCalls engine ri re rn rd rc := by
  obtain ⟨id, del, image, net', fake, cg, inst, crypt⟩ := engine
  simp only at hn
  subst hn
  simp [teardownCalls]

theorem countP_eq_zero_of_isCrypt (p : Event → Bool) (hp : ∀ e, e.isCrypt = true → p e = false)
    (ext : Trace) (h : ∀ e ∈ ext, e.isCrypt = true) : List.countP p ext = 0 := by
  rw [List.countP_eq_zero]
  intro e he
  simp [hp e (h e he)]

theorem isEscalate_of_isCrypt (e : Event) (h : e.isCrypt = true) : e.isEscalate = false := by
  cases e <;> simp_all [Event.isCrypt, Event.isEscalate]

theorem isDrop_of_isCrypt (e : Event) (h : e.isCrypt = true) : e.isDrop = false := by
  cases e <;> simp_all [Event.isCrypt, Event.isDrop]

/-! ### The instance record and the crypt device -/

/-- C11, evaluated: when `Instance` is true, `CleanupContainer` returns from the
instance step on every path (`return err` and `return file.Delete()`), so no
call of `cleanupCrypt` is ever made, also when the record was found and
deleted: an instance on an encrypted root device keeps its device open. -/
theorem CleanupContainer_instance_skips_crypt :
    (∀ (cfg : BuildCfg) (env : Env) (engine : EngineOperations) (fatal : Option String)
        (status : Nat), engine.Instance = true →
        ∀ e ∈ (CleanupContainer cfg env engine fatal status).2, e.isCrypt = false) ∧
    engineCryptInstance.CryptDev ≠ "" ∧
    CleanupContainer cfg0 envAllOk engineCryptInstance none 0 =
      (.returned none,
       [Event.instanceGet "c1" "sing" (.ok 7), Event.instanceDelete 7 none]) := by
  refine ⟨?_, by decide, by decide⟩
  intro cfg env engine fatal status hi
  refine CleanupContainer_elim cfg env engine fatal status
    (fun p => ∀ e ∈ p.2, e.isCrypt = false) ?_ ?_ ?_ ?_
  · intro _ ri re rn rd rc err e he
    rcases List.mem_append.mp he with h | h
    · exact teardownCalls_isCrypt _ _ _ _ _ _ e h
    · simp at h; subst h; rfl
  · intro _ ri re rn rd rc file r e he
    rcases List.mem_append.mp he with h | h
    · exact teardownCalls_isCrypt _ _ _ _ _ _ e h
    · simp at h; rcases h with h | h <;> subst h <;> rfl
  · intro h; rw [hi] at h; simp at h
  · intro h; rw [hi] at h; simp at h

/-- C12: when `Instance` is true, the value `CleanupContainer` returns is the
one of the instance step: the error of `instance.Get` when the lookup fails,
and then the record's `Delete` is not called; otherwise what `Delete` returned.
The answers of the image, network and cgroup steps are not part of it. -/
theorem CleanupContainer_instance_result (cfg : BuildCfg) (env : Env)
    (engine : EngineOperations) (fatal : Option String) (status : Nat)
    (hi : engine.Instance = true) :
    (∃ ri re rn rd rc err,
      CleanupContainer cfg env engine fatal status =
        (.returned (some err), teardownCalls engine ri re rn rd rc ++
          [Event.instanceGet engine.ContainerID cfg.SingSubDir (.error err)]) ∧
      ∀ e ∈ (CleanupContainer cfg env engine fatal status).2, e.isInstanceDelete = false) ∨
    (∃ ri re rn rd rc file r,
      CleanupContainer cfg env engine fatal status =
        (.returned r, teardownCalls engine ri re rn rd rc ++
          [Event.instanceGet engine.ContainerID cfg.SingSubDir (.ok file),
           Event.instanceDelete file r])) := by
  refine CleanupContainer_elim cfg env engine fatal status
    (fun p => (∃ ri re rn rd rc err,
      p = (.returned (some err), teardownCalls engine ri re rn rd rc ++
          [Event.instanceGet engine.ContainerID cfg.SingSubDir (.error err)]) ∧
      ∀ e ∈ p.2, e.isInstanceDelete = false) ∨
    (∃ ri re rn rd rc file r,
      p = (.returned r, teardownCalls engine ri re rn rd rc ++
          [Event.instanceGet engine.ContainerID cfg.SingSubDir (.ok file),
           Event.instanceDelete file r]))) ?_ ?_ ?_ ?_
  · intro _ ri re rn rd rc err
    refine Or.inl ⟨ri, re, rn, rd, rc, err, rfl, ?_⟩
    intro e he
    rcases List.mem_append.mp he with h | h
    · exact teardownCalls_isInstanceDelete _ _ _ _ _ _ e h
    · simp at h; subst h; rfl
  · intro _ ri re rn rd rc file r
    exact Or.inr ⟨ri, re, rn, rd, rc, file, r, rfl⟩
  · intro h; rw [hi] at h; simp at h
  · intro h; rw [hi] at h; simp at h

theorem CleanupContainer_instance_result_witness :
    engineFull.Instance = true ∧
    ((∃ ri re rn rd rc err,
      CleanupContainer cfg0 envInstanceMissing engineFull none 0 =
        (.returned (some err), teardownCalls engineFull ri re rn rd rc ++
          [Event.instanceGet engineFull.ContainerID cfg0.SingSubDir (.error err)]) ∧
      ∀ e ∈ (CleanupContainer cfg0 envInstanceMissing engineFull none 0).2,
        e.isInstanceDelete = false) ∨
    (∃ ri re rn rd rc file r,
      CleanupContainer cfg0 envInstanceMissing engineFull none 0 =
        (.returned r, teardownCalls engineFull ri re rn rd rc ++
          [Event.instanceGet engineFull.ContainerID cfg0.SingSubDir (.ok file),
           Event.instanceDelete file r]))) :=
  ⟨rfl, CleanupContainer_instance_result cfg0 envInstanceMissing engineFull none 0 rfl⟩

/-- C13: when `Instance` is false, `CleanupContainer` returns nil, whatever the
answers of image removal, network teardown, cgroup removal and the crypt device
teardown are. -/
theorem CleanupContainer_not_instance_nil (cfg : BuildCfg) (env : Env)
    (engine : EngineOperations) (fatal : Option String) (status : Nat)
    (hi : engine.Instance = false) :
    (CleanupContainer cfg env engine fatal status).1 = .returned none := by
  refine CleanupContainer_elim cfg env engine fatal status
    (fun p => p.1 = .returned none) ?_ ?_ ?_ ?_
  · intro h; rw [hi] at h; simp at h
  · intro h; rw [hi] at h; simp at h
  · intro _ _ ri re rn rd rc ret ext _ _ _; rfl
  · intro _ _ ri re rn rd rc; rfl

theorem CleanupContainer_not_instance_nil_witness :
    (CleanupContainer cfg0 envEverythingFails engineCrypt none 0).1 = .returned none :=
  CleanupContainer_not_instance_nil cfg0 envEverythingFails engineCrypt none 0 rfl

/-! ### Privilege escalation around the network teardown -/

/-- C14: in every run of `CleanupContainer` the number of `priv.Escalate` calls
equals the number of `priv.Drop` calls; both are 1 when `Network` is non-nil
and `Fakeroot` is true, with `Escalate` directly before `DelNetworks` and `Drop`
directly after it whatever `DelNetworks` returned, and both are 0 otherwise. -/
theorem CleanupContainer_escalate_drop (cfg : BuildCfg) (env : Env)
    (engine : EngineOperations) (fatal : Option String) (status : Nat) :
    List.countP Event.isEscalate (CleanupContainer cfg env engine fatal status).2 =
        List.countP Event.isDrop (CleanupContainer cfg env engine fatal status).2 ∧
      List.countP Event.isEscalate (CleanupContainer cfg env engine fatal status).2 =
        (if engine.Network.isSome = true ∧ engine.Fakeroot = true then 1 else 0) ∧
      (∀ net, engine.Network = some net → engine.Fakeroot = true →
        ∃ before after r1 r2 r3, (CleanupContainer cfg env engine fatal status).2 =
          before ++ [Event.escalate r1, Event.delNetworks net r2, Event.drop r3] ++ after) := by
  refine CleanupContainer_elim cfg env engine fatal status
    (fun p => List.countP Event.isEscalate p.2 = List.countP Event.isDrop p.2 ∧
      List.countP Event.isEscalate p.2 =
        (if engine.Network.isSome = true ∧ engine.Fakeroot = true then 1 else 0) ∧
      (∀ net, engine.Network = some net → engine.Fakeroot = true →
        ∃ before after r1 r2 r3, p.2 =
          before ++ [Event.escalate r1, Event.delNetworks net r2, Event.drop r3] ++ after))
    ?_ ?_ ?_ ?_
  · intro _ ri re rn rd rc err
    refine ⟨?_, ?_, ?_⟩
    · simp [List.countP_append, teardownCalls_countP_escalate, teardownCalls_countP_drop,
        List.countP_cons, Event.isEscalate, Event.isDrop]
    · simp [List.countP_append, teardownCalls_countP_escalate, List.countP_cons,
        Event.isEscalate]
    · intro net hn hf
      obtain ⟨b, a, h⟩ := teardownCalls_bracket engine ri re rn rd rc net hn hf
      exact ⟨b, a ++ [Event.instanceGet engine.ContainerID cfg.SingSubDir (.error err)],
        re, rn, rd, by simp [h]⟩
  · intro _ ri re rn rd rc file r
    refine ⟨?_, ?_, ?_⟩
    · simp [List.countP_append, teardownCalls_countP_escalate, teardownCalls_countP_drop,
        List.countP_cons, Event.isEscalate, Event.isDrop]
    · simp [List.countP_append, teardownCalls_countP_escalate, List.countP_cons,
        Event.isEscalate]
    · intro net hn hf
      obtain ⟨b, a, h⟩ := teardownCalls_bracket engine ri re rn rd rc net hn hf
      exact ⟨b, a ++ [Event.instanceGet engine.ContainerID cfg.SingSubDir (.ok file),
        Event.instanceDelete file r], re, rn, rd, by simp [h]⟩
  · intro _ _ ri re rn rd rc ret ext _ hext _
    have h1 := countP_eq_zero_of_isCrypt Event.isEscalate isEscalate_of_isCrypt ext hext
    have h2 := countP_eq_zero_of_isCrypt Event.isDrop isDrop_of_isCrypt ext hext
    refine ⟨?_, ?_, ?_⟩
    · simp [List.countP_append, teardownCalls_countP_escalate, teardownCalls_countP_drop, h1, h2]
    · simp [List.countP_append, teardownCalls_countP_escalate, h1]
    · intro net hn hf
      obtain ⟨b, a, h⟩ := teardownCalls_bracket engine ri re rn rd rc net hn hf
      exact ⟨b, a ++ ext, re, rn, rd, by simp [h]⟩
  · intro _ _ ri re rn rd rc
    refine ⟨?_, ?_, ?_⟩
    · simp [teardownCalls_countP_escalate, teardownCalls_countP_drop]
    · simp [teardownCalls_countP_escalate]
    · intro net hn hf
      obtain ⟨b, a, h⟩ := teardownCalls_bracket engine ri re rn rd rc net hn hf
      exact ⟨b, a, re, rn, rd, by simp [h]⟩

theorem CleanupContainer_escalate_drop_witness :
    List.countP Event.isEscalate
        (CleanupContainer cfg0 envTeardownFails engineCrypt none 0).2 = 1 ∧
      List.countP Event.isDrop
        (CleanupContainer cfg0 envTeardownFails engineCrypt none 0).2 = 1 :=
  have h := CleanupContainer_escalate_drop cfg0 envTeardownFails engineCrypt none 0
  ⟨h.2.1, h.1 ▸ h.2.1⟩

/-- C15, evaluated: `CleanupContainer` drops the value returned by
`priv.Escalate`, so `DelNetworks` is called whenever `Network` is non-nil, also
when the escalation failed. -/
theorem CleanupContainer_escalate_unchecked :
    (∀ (cfg : BuildCfg) (env : Env) (engine : EngineOperations) (fatal : Option String)
        (status : Nat) (net : Handle), engine.Network = some net →
        ∃ r, Event.delNetworks net r ∈ (CleanupContainer cfg env engine fatal status).2) ∧
    CleanupContainer cfg0 envEscalateFails engineFakerootNet none 0 =
      (.returned none,
       [Event.escalate (some "operation not permitted"), Event.delNetworks 1 none,
        Event.drop none, Event.cgroupRemove 2 none]) := by
  refine ⟨?_, by decide⟩
  intro cfg env engine fatal status net hn
  refine CleanupContainer_elim cfg env engine fatal status
    (fun p => ∃ r, Event.delNetworks net r ∈ p.2) ?_ ?_ ?_ ?_
  · intro _ ri re rn rd rc err
    exact ⟨rn, List.mem_append_left _ (teardownCalls_delNetworks engine ri re rn rd rc net hn)⟩
  · intro _ ri re rn rd rc file r
    exact ⟨rn, List.mem_append_left _ (teardownCalls_delNetworks engine ri re rn rd rc net hn)⟩
  · intro _ _ ri re rn rd rc ret ext _ _ _
    exact ⟨rn, List.mem_append_left _ (teardownCalls_delNetworks engine ri re rn rd rc net hn)⟩
  · intro _ _ ri re rn rd rc
    exact ⟨rn, teardownCalls_delNetworks engine ri re rn rd rc net hn⟩

/-- C19: `CleanupContainer` reads neither the fatal error nor the wait status:
for the same configuration and the same environment, any two pairs of
arguments give the same calls with the same answers and the same result. -/
theorem CleanupContainer_ignores_arguments (cfg : BuildCfg) (env : Env)
    (engine : EngineOperations) (fatal fatal' : Option String) (status status' : Nat) :
    CleanupContainer cfg env engine fatal status =
      CleanupContainer cfg env engine fatal' status' := rfl

/-! ### Process handoff -/

/-- C20: for a non-empty argument vector, `StartProcess` sets `PS1` to
"shell> ", changes directory to "/", and then calls exec with the first
argument as path, the whole argument vector and the environment list of the
specification as it is; these are its only calls. If exec returns an error,
`StartProcess` returns the error "exec <args[0]> failed: <cause>"; otherwise
the process is handed over. -/
theorem StartProcess_exec (env : StartEnv) (spec : ProcessSpec) (hargs : spec.Args ≠ []) :
    ∃ r1 r2 r3,
      (StartProcess env spec).2 =
        [StartEvent.setenv "PS1" "shell> " r1, StartEvent.chdir "/" r2,
         StartEvent.exec (spec.Args.head hargs) spec.Args spec.Env r3] ∧
      (∀ cause, r3 = .failed cause →
        (StartProcess env spec).1 =
          .returned (some ("exec " ++ spec.Args.head hargs ++ " failed: " ++ cause))) ∧
      (r3 = .replaced → (StartProcess env spec).1 = .handedOver) := by
  obtain ⟨args, envv⟩ := spec
  cases args with
  | nil => exact absurd rfl hargs
  | cons a rest =>
    simp only [StartProcess, List.get?, List.head, List.nil_append]
    split
    · next cause h =>
      refine ⟨_, _, _, rfl, ?_, ?_⟩
      · intro c hc
        rw [h] at hc
        simp at hc
        subst hc
        rfl
      · intro hc
        rw [h] at hc
        simp at hc
    · next h =>
      refine ⟨_, _, _, rfl, ?_, ?_⟩
      · intro c hc
        rw [h] at hc
        simp at hc
      · intro _
        rfl

theorem StartProcess_exec_witness :
    specShell.Args ≠ [] ∧
    StartProcess startEnvNoExec specShell =
      (.returned (some "exec /bin/sh failed: no such file or directory"),
       [StartEvent.setenv "PS1" "shell> " none, StartEvent.chdir "/" none,
        StartEvent.exec "/bin/sh" ["/bin/sh", "-c", "true"] ["PATH=/bin"]
          (.failed "no such file or directory")]) ∧
    ∃ r1 r2 r3,
      (StartProcess startEnvNoExec specShell).2 =
        [StartEvent.setenv "PS1" "shell> " r1, StartEvent.chdir "/" r2,
         StartEvent.exec "/bin/sh" specShell.Args specShell.Env r3] ∧
      (∀ cause, r3 = .failed cause →
        (StartProcess startEnvNoExec specShell).1 =
          .returned (some ("exec " ++ "/bin/sh" ++ " failed: " ++ cause))) ∧
      (r3 = .replaced → (StartProcess startEnvNoExec specShell).1 = .handedOver) :=
  ⟨by decide, by decide, StartProcess_exec startEnvNoExec specShell (by decide)⟩

end Singularity

namespace Singularity

/-! ### The device name -/

/-- The pieces of `splitChars`: the last piece has no separator and ends the
list; it is the whole list exactly when there is no separator. -/
theorem splitChars_last (sep : Char) (cs : List Char) :
    ∃ init l, strings.splitChars sep cs = init ++ [l] ∧ sep ∉ l ∧
      (init = [] → l = cs) ∧ (init ≠ [] → ∃ pre, cs = pre ++ sep :: l) ∧
      (sep ∉ cs → init = []) := by
  induction cs with
  | nil => exact ⟨[], [], by simp [strings.splitChars], by simp, by simp, by simp, by simp⟩
  | cons c cs ih =>
    obtain ⟨init, l, hs, hl, h1, h2, h3⟩ := ih
    by_cases hc : c = sep
    · subst hc
      refine ⟨[] :: init, l, by simp [strings.splitChars, hs], hl, by simp, ?_, by simp⟩
      intro _
      cases init with
      | nil => exact ⟨[], by simp [h1 rfl]⟩
      | cons i0 irest =>
        obtain ⟨pre, hpre⟩ := h2 (by simp)
        exact ⟨c :: pre, by simp [hpre]⟩
    · cases init with
      | nil =>
        have hl2 := h1 rfl
        refine ⟨[], c :: l, ?_, ?_, ?_, by simp, by simp⟩
        · simp only [strings.splitChars, hc, if_false, hs]
          rfl
        · simp only [List.mem_cons, not_or]
          exact ⟨fun h => hc h.symm, hl⟩
        · intro _; rw [hl2]
      | cons i0 irest =>
        obtain ⟨pre, hpre⟩ := h2 (by simp)
        refine ⟨(c :: i0) :: irest, l, ?_, hl, by simp, ?_, ?_⟩
        · simp only [strings.splitChars, hc, if_false, hs]
          rfl
        · intro _; exact ⟨c :: pre, by simp [hpre]⟩
        · intro hn
          have : sep ∉ cs := fun h => hn (List.mem_cons_of_mem _ h)
          exact absurd (h3 this) (by simp)

theorem ends_with_sep_last_nil (sep : Char) (pre pre' l : List Char) (hl : sep ∉ l)
    (h : pre ++ [sep] = pre' ++ sep :: l) : l = [] := by
  have hr := congrArg List.reverse h
  simp only [List.reverse_append, List.reverse_cons, List.reverse_nil, List.nil_append,
    List.singleton_append, List.append_assoc] at hr
  cases hlr : l.reverse with
  | nil => simpa using hlr
  | cons y ys =>
    rw [hlr] at hr
    simp only [List.cons_append, List.cons.injEq] at hr
    have hy : y ∈ l := by
      have : y ∈ l.reverse := by rw [hlr]; simp
      simpa using this
    exact absurd (hr.1 ▸ hy) hl

/-- C25: the index `sp[len(sp)-1]` of `cleanupCrypt` is in range for every
path, and the name found there, which is the one every call of
`CloseCryptDevice` receives, is the last "/"-separated segment of the path: it
has no "/", the path ends with it, it is the whole path when the path has no
"/", and it is empty for the empty path and for a path that ends in "/". -/
theorem cleanupCrypt_device_name (path : String) :
    ∃ name,
      (strings.Split path).length - 1 < (strings.Split path).length ∧
      (strings.Split path).get? ((strings.Split path).length - 1) = some name ∧
      '/' ∉ name.data ∧
      name.data <:+ path.data ∧
      ('/' ∉ path.data → name = path) ∧
      (path = "" → name = "") ∧
      (∀ pre, path.data = pre ++ ['/'] → name = "") ∧
      (∀ (cfg : BuildCfg) (env : Env) (n : String) (r : Option String),
        Event.closeCryptDevice n r ∈ (cleanupCrypt cfg env path []).2 → n = name) := by
  obtain ⟨init, l, hs, hl, h1, h2, h3⟩ := splitChars_last '/' path.data
  have hsplit : strings.Split path = init.map String.mk ++ [String.mk l] := by
    simp [strings.Split, hs]
  have hlen : (strings.Split path).length = init.length + 1 := by simp [hsplit]
  have hget : (strings.Split path).get? ((strings.Split path).length - 1) = some (String.mk l) := by
    rw [hlen, hsplit]
    simp
  have hnosep : '/' ∉ path.data → String.mk l = path := by
    intro hn
    rw [h1 (h3 hn)]
  refine ⟨String.mk l, by omega, hget, hl, ?_, hnosep, ?_, ?_, ?_⟩
  · cases init with
    | nil => rw [h1 rfl]
    | cons i0 irest =>
      obtain ⟨pre, hpre⟩ := h2 (by simp)
      exact ⟨pre ++ ['/'], by simp [hpre]⟩
  · intro hp
    subst hp
    exact hnosep (by simp)
  · intro pre hpre
    cases init with
    | nil =>
      exfalso
      have := h1 rfl
      rw [this, hpre] at hl
      simp at hl
    | cons i0 irest =>
      obtain ⟨pre', hpre'⟩ := h2 (by simp)
      rw [hpre] at hpre'
      rw [ends_with_sep_last_nil '/' pre pre' l hl hpre']
  · intro cfg env n r
    refine cleanupCrypt_elim cfg env path []
      (fun p => Event.closeCryptDevice n r ∈ p.2 → n = String.mk l) ?_ ?_ ?_ ?_ ?_
    · intro uid e r' h; simp at h
    · intro uid e r' h; simp at h
    · intro uid e r' h; simp at h
    · intro uid dev e r' hdev h
      rw [hget] at hdev
      simp at h hdev
      rw [h.1, hdev]
    · intro uid dev r' hdev h
      rw [hget] at hdev
      simp at h hdev
      rw [h.1, hdev]

theorem cleanupCrypt_device_name_witness :
    (strings.Split "/dev/mapper/cryptroot").get? ((strings.Split "/dev/mapper/cryptroot").length - 1) =
        some "cryptroot" ∧
      (strings.Split "").get? ((strings.Split "").length - 1) = some "" ∧
      (strings.Split "/dev/mapper/").get? ((strings.Split "/dev/mapper/").length - 1) = some "" ∧
      (strings.Split "cryptroot").get? ((strings.Split "cryptroot").length - 1) =
        some "cryptroot" ∧
      ∃ name, (strings.Split "/dev/mapper/cryptroot").get?
          ((strings.Split "/dev/mapper/cryptroot").length - 1) = some name ∧
        '/' ∉ name.data :=
  ⟨by decide, by decide, by decide, by decide,
    (cleanupCrypt_device_name "/dev/mapper/cryptroot").elim
      (fun name h => ⟨name, h.2.1, h.2.2.1⟩)⟩

end Singularity

namespace sypgp

/-! ### Key selection and decryption -/

theorem parseDigits_le (cs : List Char) :
    ∀ (n i : Nat), n ≤ 2 ^ 32 - 1 → parseDigits cs n = .ok i → i ≤ 2 ^ 32 - 1 := by
  induction cs with
  | nil =>
    intro n i hn h
    simp only [parseDigits, Except.ok.injEq] at h
    omega
  | cons c cs ih =>
    intro n i hn h
    simp only [parseDigits] at h
    split at h
    · split at h
      · simp at h
      · next hle => exact ih _ i (by omega) h
    · simp at h

theorem ParseUint_le (s : String) (i : Nat) (h : ParseUint s = .ok i) : i ≤ 2 ^ 32 - 1 := by
  unfold ParseUint at h
  split at h
  · simp at h
  · exact parseDigits_le _ 0 i (by omega) h

theorem selectKey_refused {α : Type} (el : List α) (index : String) (i : Nat)
    (hne : index ≠ "") (hp : ParseUint index = .ok i)
    (hb : i > (el.length % 2 ^ 64 + 2 ^ 64 - 1) % 2 ^ 64) :
    selectKey el (.ok index) = .error .invalidKeyChoice := by
  simp only [selectKey, hne, hp, if_false, if_pos hb]

theorem selectKey_none {α : Type} (el : List α) (index : String) (i : Nat)
    (hne : index ≠ "") (hp : ParseUint index = .ok i)
    (hb : ¬ i > (el.length % 2 ^ 64 + 2 ^ 64 - 1) % 2 ^ 64) (hg : el.get? i = none) :
    selectKey el (.ok index) = .panicked := by
  simp only [selectKey, hne, hp, if_false, if_neg hb, hg]

theorem selectKey_some {α : Type} (el : List α) (index : String) (i : Nat) (e : α)
    (hne : index ≠ "") (hp : ParseUint index = .ok i)
    (hb : ¬ i > (el.length % 2 ^ 64 + 2 ^ 64 - 1) % 2 ^ 64) (hg : el.get? i = some e) :
    selectKey el (.ok index) = .entity e := by
  simp only [selectKey, hne, hp, if_false, if_neg hb, hg]

/-- C23, evaluated: for an empty entity list the bound `uint64(len(el))-1` of
`SelectPrivKey` and `SelectPubKey` wraps around to `2^64 - 1`, so no index is
refused and `el[i]` is read out of range: every answer that parses as a number
makes them panic. For a non-empty list the bound is right: an index below
`len(el)` returns `el[i]`, any other index the error "invalid key choice". -/
theorem selectKey_empty_list_panics :
    (∀ (index : String) (i : Nat), index ≠ "" → ParseUint index = .ok i →
      SelectPrivKey ([] : List Nat) (.ok index) = .panicked ∧
      SelectPubKey ([] : List Nat) (.ok index) = .panicked) ∧
    (∀ (el : List Nat) (index : String) (i : Nat), el ≠ [] → el.length < 2 ^ 64 →
      index ≠ "" → ParseUint index = .ok i →
      (∀ h : i < el.length, SelectPrivKey el (.ok index) = .entity (el.get ⟨i, h⟩)) ∧
      (el.length ≤ i → SelectPrivKey el (.ok index) = .error .invalidKeyChoice)) ∧
    SelectPrivKey ([] : List Nat) (.ok "0") = .panicked ∧
    SelectPubKey ([] : List Nat) (.ok "0") = .panicked := by
  refine ⟨?_, ?_, by decide, by decide⟩
  · intro index i hne hp
    have hi := ParseUint_le index i hp
    have hb : ¬ i > (([] : List Nat).length % 2 ^ 64 + 2 ^ 64 - 1) % 2 ^ 64 := by
      simp only [List.length_nil]
      omega
    simp only [SelectPrivKey, SelectPubKey]
    exact ⟨selectKey_none [] index i hne hp hb rfl, selectKey_none [] index i hne hp hb rfl⟩
  · intro el index i hel hlen hne hp
    have hpos : 0 < el.length := List.length_pos.mpr hel
    constructor
    · intro h
      have hb : ¬ i > (el.length % 2 ^ 64 + 2 ^ 64 - 1) % 2 ^ 64 := by omega
      simp only [SelectPrivKey]
      exact selectKey_some el index i _ hne hp hb (List.get?_eq_get h)
    · intro h
      have hb : i > (el.length % 2 ^ 64 + 2 ^ 64 - 1) % 2 ^ 64 := by omega
      simp only [SelectPrivKey]
      exact selectKey_refused el index i hne hp hb

/-- C24, evaluated: when the key is encrypted and `AskQuestion` fails,
`DecryptKey` returns nil (`return nil` where the error is at hand) and the key
is still encrypted. When `Decrypt` fails the error is returned, and when it
succeeds the key is decrypted. -/
theorem DecryptKey_ask_error_returns_nil :
    (∀ (e : String) (decrypt : String → Option String),
      DecryptKey true (.error e) decrypt = (none, true)) ∧
    (∀ (pass err : String) (decrypt : String → Option String), decrypt pass = some err →
      DecryptKey true (.ok pass) decrypt = (some err, true)) ∧
    (∀ (pass : String) (decrypt : String → Option String), decrypt pass = none →
      DecryptKey true (.ok pass) decrypt = (none, false)) ∧
    DecryptKey true (.error "bufio.Scanner: token too long") (fun _ => none) = (none, true) := by
  refine ⟨?_, ?_, ?_, by decide⟩
  · intro e decrypt; rfl
  · intro pass err decrypt h; simp [DecryptKey, h]
  · intro pass decrypt h; simp [DecryptKey, h]

end sypgp

namespace cache

/-! ### Net cache -/

/-- C27, evaluated: `NetImage` refuses only the empty strings; with `sum` and
`name` both ".", or with ".." and the name of the net directory,
`filepath.Join` cleans the path back to the net cache directory itself. -/
theorem NetImage_collides_with_cache_dir :
    cacheHome.valid = true ∧
    NetImage cacheHome "." "." = (cacheHome.Net, none) ∧
    NetImage cacheHome ".." "net" = (cacheHome.Net, none) := by
  decide

end cache

namespace Singularity

/-! ### The argument vector of `StartProcess` -/

/-- C26, as stated, fails: with an empty argument vector `StartProcess` sets
`PS1`, changes directory and then faults on `args[0]`. -/
theorem StartProcess_args_counterexample :
    StartProcess startEnvOk ⟨[], ["PATH=/bin"]⟩ =
      (.panicked, [StartEvent.setenv "PS1" "shell> " none, StartEvent.chdir "/" none]) := by
  decide

/-- C26, amended: for every process specification with a non-empty argument
vector, `StartProcess` either hands the process over to exec or returns the
error "exec <args[0]> failed: <cause>"; it does not fault on `args[0]`. -/
theorem StartProcess_args (env : StartEnv) (spec : ProcessSpec) (hargs : spec.Args ≠ []) :
    (StartProcess env spec).1 ≠ .panicked ∧
      ((StartProcess env spec).1 = .handedOver ∨
        ∃ cause, (StartProcess env spec).1 =
          .returned (some ("exec " ++ spec.Args.head hargs ++ " failed: " ++ cause))) := by
  obtain ⟨args, envv⟩ := spec
  cases args with
  | nil => exact absurd rfl hargs
  | cons a rest =>
    simp only [StartProcess, List.get?, List.head, List.nil_append]
    split
    · next cause h => exact ⟨by simp, Or.inr ⟨cause, rfl⟩⟩
    · next h => exact ⟨by simp, Or.inl rfl⟩

theorem StartProcess_args_witness :
    specShell.Args ≠ [] ∧
      (StartProcess startEnvOk specShell).1 ≠ .panicked ∧
      (StartProcess startEnvOk specShell).1 = .handedOver :=
  ⟨by decide, (StartProcess_args startEnvOk specShell (by decide)).1, by decide⟩

end Singularity

namespace CacheClean

/-! ### Whole-cache cleaning -/

/-- C28, evaluated: `cleanBlobCache` removes `c.OciTemp`, the directory that
`cleanOciCache` removes: for every environment the two make the same calls, and
`CleanCache` with type "blob" removes the oci-tmp directory. -/
theorem cleanBlobCache_removes_oci_tmp :
    (∀ (env : Env) (t : Trace), (cleanBlobCache env t).2 = (cleanOciCache env t).2) ∧
    CleanCache (staticEnv cache.cacheHome lsSample) "blob" [] =
      (none, [Event.create (some cache.cacheHome) none, Event.create (some cache.cacheHome) none,
        Event.removeAll "/home/user/.singularity/cache/oci-tmp" none]) ∧
    CleanCache (staticEnv cache.cacheHome lsSample) "blobs" [] =
      CleanCache (staticEnv cache.cacheHome lsSample) "oci" [] := by
  refine ⟨?_, by decide, by decide⟩
  intro env t
  simp only [cleanBlobCache, cleanOciCache]
  split
  · rfl
  · rfl
  · split <;> rfl

end CacheClean

namespace CacheClean

/-! ### The searches of `CleanCacheName` -/

theorem removeNamed_error (env : Env) (root f cacheName msgRemove : String) :
    ∀ (cont : List String) (found : Bool) (t : Trace),
      (removeNamed env root f cacheName msgRemove cont found t).1.2 ≠ none →
      (removeNamed env root f cacheName msgRemove cont found t).1.1 = false := by
  intro cont
  induction cont with
  | nil => intro found t h; simp [removeNamed] at h
  | cons c rest ih =>
    intro found t h
    by_cases hc : c = cacheName
    · subst hc
      cases hr : env.removeAll t (filepath.Join [root, f, c]) with
      | some e => simp [removeNamed, hr]
      | none =>
        simp only [removeNamed, hr, if_true] at h ⊢
        exact ih _ _ h
    · simp only [removeNamed, hc, if_false] at h ⊢
      exact ih _ _ h

theorem scanDirs_error (env : Env) (root cacheName msgLook msgRemove : String) :
    ∀ (files : List String) (found : Bool) (t : Trace),
      (scanDirs env root cacheName msgLook msgRemove files found t).1.2 ≠ none →
      (scanDirs env root cacheName msgLook msgRemove files found t).1.1 = false := by
  intro files
  induction files with
  | nil => intro found t h; simp [scanDirs] at h
  | cons f rest ih =>
    intro found t h
    cases hr : env.readDir t (filepath.Join [root, f]) with
    | error e => simp [scanDirs, hr]
    | ok cont =>
      cases hrm : removeNamed env root f cacheName msgRemove cont found
          (t ++ [Event.readDir (filepath.Join [root, f]) (.ok cont)]) with
      | mk res t1 =>
        obtain ⟨m, e⟩ := res
        cases e with
        | some e => simp [scanDirs, hr, hrm]
        | none =>
          simp only [scanDirs, hr, hrm] at h ⊢
          exact ih _ _ h

theorem cleanNamed_error (env : Env) (root : cache.SingularityCache → String)
    (cacheName msgOpen msgLook msgRemove : String) (t : Trace) :
    (cleanNamed env root cacheName msgOpen msgLook msgRemove t).1.2 ≠ none →
    (cleanNamed env root cacheName msgOpen msgLook msgRemove t).1.1 = false := by
  intro h
  cases hc : env.create t with
  | mk c err =>
    cases c with
    | none => simp [cleanNamed, hc]
    | some c =>
      cases err with
      | some e => simp [cleanNamed, hc]
      | none =>
        cases hr : env.readDir (t ++ [Event.create (some c) none]) (root c) with
        | error e => simp [cleanNamed, hc, hr]
        | ok files =>
          simp only [cleanNamed, hc, hr] at h ⊢
          exact scanDirs_error _ _ _ _ _ _ _ _ h

/-! ### A file system that does not change -/

theorem removeNamed_static (c : cache.SingularityCache) (ls : String → ListResult)
    (root f cacheName msgRemove : String) :
    ∀ (cont : List String) (found : Bool) (t : Trace),
      (removeNamed (staticEnv c ls) root f cacheName msgRemove cont found t).1 =
        (found || cont.contains cacheName, none) := by
  intro cont
  induction cont with
  | nil => intro found t; simp [removeNamed]
  | cons x rest ih =>
    intro found t
    by_cases hx : x = cacheName
    · subst hx
      simp only [removeNamed, staticEnv, if_true]
      have := ih true (t ++ [Event.removeAll (filepath.Join [root, f, x]) none])
      simp only [staticEnv] at this
      rw [this]
      simp
    · simp only [removeNamed, hx, if_false]
      rw [ih]
      have : ¬ cacheName = x := fun h => hx h.symm
      simp [List.contains_cons, this]

theorem scanDirs_static (c : cache.SingularityCache) (ls : String → ListResult)
    (root cacheName msgLook msgRemove : String) :
    ∀ (files : List String) (found : Bool) (t : Trace),
      files.all (dirListable ls root) = true →
      (scanDirs (staticEnv c ls) root cacheName msgLook msgRemove files found t).1 =
        (found || files.any (dirHas ls root cacheName), none) := by
  intro files
  induction files with
  | nil => intro found t _; simp [scanDirs]
  | cons f rest ih =>
    intro found t h
    simp only [List.all_cons, Bool.and_eq_true] at h
    obtain ⟨hf, hrest⟩ := h
    cases hl : ls (filepath.Join [root, f]) with
    | error e => simp [dirListable, hl] at hf
    | ok cont =>
      have hrm := removeNamed_static c ls root f cacheName msgRemove cont found
        (t ++ [Event.readDir (filepath.Join [root, f]) (.ok cont)])
      cases hres : removeNamed (staticEnv c ls) root f cacheName msgRemove cont found
          (t ++ [Event.readDir (filepath.Join [root, f]) (.ok cont)]) with
      | mk res t1 =>
        rw [hres] at hrm
        simp only at hrm
        subst hrm
        have hstat : (staticEnv c ls).readDir t (filepath.Join [root, f]) = .ok cont := hl
        simp only [scanDirs, hstat, hres]
        rw [ih _ _ hrest]
        simp [dirHas, hl, Bool.or_assoc]

theorem cleanNamed_static (c : cache.SingularityCache) (ls : String → ListResult)
    (root : cache.SingularityCache → String) (cacheName msgOpen msgLook msgRemove : String)
    (t : Trace) (h : listable ls (root c) = true) :
    (cleanNamed (staticEnv c ls) root cacheName msgOpen msgLook msgRemove t).1 =
      (containsNamed ls (root c) cacheName, none) := by
  cases hl : ls (root c) with
  | error e => simp [listable, hl] at h
  | ok files =>
    have hall : files.all (dirListable ls (root c)) = true := by
      simpa [listable, hl] using h
    have hcreate : (staticEnv c ls).create t = (some c, none) := rfl
    have hread : (staticEnv c ls).readDir (t ++ [Event.create (some c) none]) (root c) =
        .ok files := hl
    simp only [cleanNamed, hcreate, hread]
    rw [scanDirs_static c ls _ _ _ _ files false _ hall]
    simp [containsNamed, hl]

theorem cleanLibraryCacheName_error (env : Env) (cacheName : String) (t : Trace) :
    (cleanLibraryCacheName env cacheName t).1.2 ≠ none →
    (cleanLibraryCacheName env cacheName t).1.1 = false :=
  cleanNamed_error env _ _ _ _ _ t

theorem cleanOciCacheName_error (env : Env) (cacheName : String) (t : Trace) :
    (cleanOciCacheName env cacheName t).1.2 ≠ none →
    (cleanOciCacheName env cacheName t).1.1 = false :=
  cleanNamed_error env _ _ _ _ _ t

theorem CleanCacheName_library (env : Env) (cacheName : String) (t : Trace) :
    CleanCacheName env cacheName true false t = cleanLibraryCacheName env cacheName t := by
  have h1 := cleanLibraryCacheName_error env cacheName t
  simp only [CleanCacheName, Bool.true_eq_false, if_false, if_true]
  cases hr1 : cleanLibraryCacheName env cacheName t with
  | mk res1 t1 =>
    obtain ⟨m1, e1⟩ := res1
    rw [hr1] at h1
    cases e1 with
    | some e =>
      have := h1 (by simp)
      simp only at this
      subst this
      rfl
    | none => rfl

theorem CleanCacheName_oci (env : Env) (cacheName : String) (t : Trace) :
    CleanCacheName env cacheName false true t = cleanOciCacheName env cacheName t := by
  have h1 := cleanOciCacheName_error env cacheName t
  simp only [CleanCacheName, Bool.false_eq_true, if_false, if_true]
  cases hr1 : cleanOciCacheName env cacheName t with
  | mk res1 t1 =>
    obtain ⟨m1, e1⟩ := res1
    rw [hr1] at h1
    cases e1 with
    | some e =>
      have := h1 (by simp)
      simp only at this
      subst this
      rfl
    | none => rfl

theorem CleanCacheName_both (env : Env) (cacheName : String) (b : Bool) (t : Trace) :
    CleanCacheName env cacheName b b t =
      if (cleanLibraryCacheName env cacheName t).1.2.isSome then
        cleanLibraryCacheName env cacheName t
      else if (cleanOciCacheName env cacheName (cleanLibraryCacheName env cacheName t).2).1.2.isSome
      then cleanOciCacheName env cacheName (cleanLibraryCacheName env cacheName t).2
      else
        (((cleanLibraryCacheName env cacheName t).1.1 ||
            (cleanOciCacheName env cacheName (cleanLibraryCacheName env cacheName t).2).1.1, none),
          (cleanOciCacheName env cacheName (cleanLibraryCacheName env cacheName t).2).2) := by
  have h1 := cleanLibraryCacheName_error env cacheName t
  simp only [CleanCacheName, if_true]
  cases hr1 : cleanLibraryCacheName env cacheName t with
  | mk res1 t1 =>
    obtain ⟨m1, e1⟩ := res1
    rw [hr1] at h1
    cases e1 with
    | some e =>
      have := h1 (by simp)
      simp only at this
      subst this
      simp
    | none =>
      have h2 := cleanOciCacheName_error env cacheName t1
      simp only [Option.isSome_none, Bool.false_eq_true, if_false]
      cases hr2 : cleanOciCacheName env cacheName t1 with
      | mk res2 t2 =>
        obtain ⟨m2, e2⟩ := res2
        rw [hr2] at h2
        cases e2 with
        | some e =>
          have := h2 (by simp)
          simp only at this
          subst this
          simp
        | none =>
          cases m1 <;> cases m2 <;> simp

/-! ### The calls of a search by name -/

theorem removeNamed_calls (env : Env) (root f cacheName msgRemove : String) :
    ∀ (cont : List String) (found : Bool) (t : Trace),
      ∃ seg, (removeNamed env root f cacheName msgRemove cont found t).2 = t ++ seg ∧
        (∀ e ∈ seg, ∃ r, e = Event.removeAll (filepath.Join [root, f, cacheName]) r) ∧
        (removeNamed env root f cacheName msgRemove cont found t).1.2.isNone =
          !seg.any Event.failed ∧
        ((removeNamed env root f cacheName msgRemove cont found t).1.2 = none →
          (removeNamed env root f cacheName msgRemove cont found t).1.1 =
            (found || seg.any Event.isRemoveAll)) := by
  intro cont
  induction cont with
  | nil => intro found t; exact ⟨[], by simp [removeNamed]⟩
  | cons c rest ih =>
    intro found t
    by_cases hc : c = cacheName
    · subst hc
      cases hr : env.removeAll t (filepath.Join [root, f, c]) with
      | some e =>
        refine ⟨[Event.removeAll (filepath.Join [root, f, c]) (some e)], ?_⟩
        simp [removeNamed, hr, Event.failed]
      | none =>
        obtain ⟨seg, h1, h2, h3, h4⟩ :=
          ih true (t ++ [Event.removeAll (filepath.Join [root, f, c]) none])
        refine ⟨Event.removeAll (filepath.Join [root, f, c]) none :: seg, ?_, ?_, ?_, ?_⟩
        · simp only [removeNamed, hr, if_true]
          rw [h1]; simp
        · intro e he
          rcases List.mem_cons.mp he with he | he
          · exact ⟨none, he⟩
          · exact h2 e he
        · simp only [removeNamed, hr, if_true]
          rw [h3]; simp [Event.failed]
        · simp only [removeNamed, hr, if_true]
          intro h
          rw [h4 h]; simp [Event.isRemoveAll]
    · simp only [removeNamed, hc, if_false]
      exact ih found t

theorem scanDirs_calls (env : Env) (root cacheName msgLook msgRemove : String)
    (all : List String) :
    ∀ (files : List String) (found : Bool) (t : Trace), files ⊆ all →
      ∃ seg, (scanDirs env root cacheName msgLook msgRemove files found t).2 = t ++ seg ∧
        seg.all (inSearch root cacheName all) = true ∧
        (scanDirs env root cacheName msgLook msgRemove files found t).1.2.isNone =
          !seg.any Event.failed ∧
        ((scanDirs env root cacheName msgLook msgRemove files found t).1.2 = none →
          (scanDirs env root cacheName msgLook msgRemove files found t).1.1 =
            (found || seg.any Event.isRemoveAll)) := by
  intro files
  induction files with
  | nil => intro found t _; exact ⟨[], by simp [scanDirs]⟩
  | cons f rest ih =>
    intro found t hsub
    have hf : f ∈ all := hsub (List.mem_cons_self _ _)
    have hrest : rest ⊆ all := fun x hx => hsub (List.mem_cons_of_mem _ hx)
    have hread : ∀ r, inSearch root cacheName all
        (Event.readDir (filepath.Join [root, f]) r) = true := by
      intro r
      simp only [inSearch, List.any_eq_true]
      exact ⟨f, hf, by simp⟩
    cases hr : env.readDir t (filepath.Join [root, f]) with
    | error e =>
      refine ⟨[Event.readDir (filepath.Join [root, f]) (.error e)], ?_⟩
      simp [scanDirs, hr, Event.failed, hread]
    | ok cont =>
      obtain ⟨seg1, h1, h2, h3, h4⟩ := removeNamed_calls env root f cacheName msgRemove cont
        found (t ++ [Event.readDir (filepath.Join [root, f]) (.ok cont)])
      have hseg1 : seg1.all (inSearch root cacheName all) = true := by
        rw [List.all_eq_true]
        intro e he
        obtain ⟨r, rfl⟩ := h2 e he
        simp only [inSearch, List.any_eq_true]
        exact ⟨f, hf, by simp⟩
      cases hrm : removeNamed env root f cacheName msgRemove cont found
          (t ++ [Event.readDir (filepath.Join [root, f]) (.ok cont)]) with
      | mk res t1 =>
        obtain ⟨m, e⟩ := res
        rw [hrm] at h1 h3 h4
        simp only at h1 h3 h4
        cases e with
        | some e =>
          refine ⟨Event.readDir (filepath.Join [root, f]) (.ok cont) :: seg1, ?_⟩
          simp only [scanDirs, hr, hrm]
          refine ⟨by rw [h1]; simp, by simp [hread, hseg1], ?_, by simp⟩
          simp only [Option.isNone_some] at h3
          simp [Event.failed, ← h3]
        | none =>
          simp only [Option.isNone_none] at h3
          have hm := h4 rfl
          obtain ⟨seg2, g1, g2, g3, g4⟩ := ih m t1 hrest
          refine ⟨Event.readDir (filepath.Join [root, f]) (.ok cont) :: (seg1 ++ seg2), ?_⟩
          simp only [scanDirs, hr, hrm]
          refine ⟨by rw [g1, h1]; simp, by simp [hread, hseg1, g2], ?_, ?_⟩
          · rw [g3]
            have : seg1.any Event.failed = false := by
              cases h : seg1.any Event.failed
              · rfl
              · rw [h] at h3; simp at h3
            simp [Event.failed, this]
          · intro h
            rw [g4 h, hm]
            simp [Event.isRemoveAll, Bool.or_assoc]

theorem cleanNamed_calls (env : Env) (root : cache.SingularityCache → String)
    (cacheName msgOpen msgLook msgRemove : String) (t : Trace) :
    ∃ seg, (cleanNamed env root cacheName msgOpen msgLook msgRemove t).2 = t ++ seg ∧
      isSearch root cacheName seg = true ∧
      (cleanNamed env root cacheName msgOpen msgLook msgRemove t).1.2.isNone =
        !seg.any Event.failed ∧
      (cleanNamed env root cacheName msgOpen msgLook msgRemove t).1.1 =
        (!seg.any Event.failed && seg.any Event.isRemoveAll) := by
  cases hc : env.create t with
  | mk c err =>
    cases c with
    | none =>
      exact ⟨[Event.create none err], by simp [cleanNamed, hc, isSearch, Event.failed]⟩
    | some c =>
      cases err with
      | some e =>
        exact ⟨[Event.create (some c) (some e)], by simp [cleanNamed, hc, isSearch, Event.failed]⟩
      | none =>
        cases hr : env.readDir (t ++ [Event.create (some c) none]) (root c) with
        | error e =>
          exact ⟨[Event.create (some c) none, Event.readDir (root c) (.error e)],
            by simp [cleanNamed, hc, hr, isSearch, Event.failed]⟩
        | ok files =>
          obtain ⟨seg, h1, h2, h3, h4⟩ := scanDirs_calls env (root c) cacheName msgLook msgRemove
            files files false
            (t ++ [Event.create (some c) none] ++ [Event.readDir (root c) (.ok files)])
            (List.Subset.refl _)
          have herr := scanDirs_error env (root c) cacheName msgLook msgRemove files false
            (t ++ [Event.create (some c) none] ++ [Event.readDir (root c) (.ok files)])
          refine ⟨Event.create (some c) none :: Event.readDir (root c) (.ok files) :: seg, ?_⟩
          simp only [cleanNamed, hc, hr]
          refine ⟨by rw [h1]; simp, by simp [isSearch, h2], ?_, ?_⟩
          · rw [h3]; simp [Event.failed]
          · cases hres : (scanDirs env (root c) cacheName msgLook msgRemove files false
                (t ++ [Event.create (some c) none] ++
                  [Event.readDir (root c) (.ok files)])).1.2 with
            | none =>
              rw [hres] at h3
              rw [h4 hres]
              simp only [Option.isNone_none] at h3
              have : seg.any Event.failed = false := by
                cases h : seg.any Event.failed
                · rfl
                · rw [h] at h3; simp at h3
              simp [Event.failed, Event.isRemoveAll, this]
            | some e =>
              rw [hres] at h3
              rw [herr (by rw [hres]; simp)]
              simp only [Option.isNone_some] at h3
              have : seg.any Event.failed = true := by
                cases h : seg.any Event.failed
                · rw [h] at h3; simp at h3
                · rfl
              simp [Event.failed, this]

theorem isSearch_inv (root : cache.SingularityCache → String) (cacheName : String)
    (seg : Trace) (h : isSearch root cacheName seg = true) :
    (∃ e, seg = [Event.create none e]) ∨
    (∃ c e, seg = [Event.create (some c) (some e)]) ∨
    (∃ c e, seg = [Event.create (some c) none, Event.readDir (root c) (.error e)]) ∨
    (∃ c files rest, seg = Event.create (some c) none :: Event.readDir (root c) (.ok files) :: rest ∧
      rest.all (inSearch (root c) cacheName files) = true) := by
  unfold isSearch at h
  split at h
  · simp at h
  · exact Or.inl ⟨_, rfl⟩
  · exact Or.inr (Or.inl ⟨_, _, rfl⟩)
  · simp only [Bool.and_eq_true, beq_iff_eq, List.isEmpty_iff] at h
    obtain ⟨rfl, rfl⟩ := h
    exact Or.inr (Or.inr (Or.inl ⟨_, _, rfl⟩))
  · simp only [Bool.and_eq_true, beq_iff_eq] at h
    obtain ⟨rfl, h⟩ := h
    exact Or.inr (Or.inr (Or.inr ⟨_, _, _, rfl, h⟩))
  · simp at h

theorem inSearch_not_clean (root cacheName : String) (files : List String) (e : Event)
    (h : inSearch root cacheName files e = true) : Event.isClean e = false := by
  cases e <;> simp [inSearch, Event.isClean] at h ⊢

theorem isSearch_not_clean (root : cache.SingularityCache → String) (cacheName : String)
    (seg : Trace) (h : isSearch root cacheName seg = true) : seg.any Event.isClean = false := by
  rcases isSearch_inv root cacheName seg h with ⟨e, rfl⟩ | ⟨c, e, rfl⟩ | ⟨c, e, rfl⟩ |
    ⟨c, files, rest, rfl, hrest⟩
  · simp [Event.isClean]
  · simp [Event.isClean]
  · simp [Event.isClean]
  · simp only [List.any_cons, Event.isClean, Bool.false_or]
    rw [List.all_eq_true] at hrest
    cases hany : rest.any Event.isClean
    · rfl
    · rw [List.any_eq_true] at hany
      obtain ⟨e, he, hc⟩ := hany
      rw [inSearch_not_clean _ _ _ e (hrest e he)] at hc
      exact absurd hc (by simp)

theorem isSearch_removeAll (root : cache.SingularityCache → String) (cacheName : String)
    (seg : Trace) (h : isSearch root cacheName seg = true) (p : String) (r : Option String)
    (hp : Event.removeAll p r ∈ seg) :
    ∃ c files f, Event.create (some c) none ∈ seg ∧ Event.readDir (root c) (.ok files) ∈ seg ∧
      f ∈ files ∧ p = filepath.Join [root c, f, cacheName] := by
  rcases isSearch_inv root cacheName seg h with ⟨e, rfl⟩ | ⟨c, e, rfl⟩ | ⟨c, e, rfl⟩ |
    ⟨c, files, rest, rfl, hrest⟩
  · simp at hp
  · simp at hp
  · simp at hp
  · simp only [List.mem_cons, reduceCtorEq, false_or] at hp
    rw [List.all_eq_true] at hrest
    have := hrest _ hp
    simp only [inSearch, List.any_eq_true, beq_iff_eq] at this
    obtain ⟨f, hf, hpf⟩ := this
    exact ⟨c, files, f, by simp, by simp, hf, hpf⟩

theorem cleanLibraryCacheName_calls (env : Env) (cacheName : String) (t : Trace) :
    ∃ seg, (cleanLibraryCacheName env cacheName t).2 = t ++ seg ∧
      isSearch cache.SingularityCache.Library cacheName seg = true ∧
      (cleanLibraryCacheName env cacheName t).1.2.isNone = !seg.any Event.failed ∧
      (cleanLibraryCacheName env cacheName t).1.1 =
        (!seg.any Event.failed && seg.any Event.isRemoveAll) :=
  cleanNamed_calls env _ _ _ _ _ t

theorem cleanOciCacheName_calls (env : Env) (cacheName : String) (t : Trace) :
    ∃ seg, (cleanOciCacheName env cacheName t).2 = t ++ seg ∧
      isSearch cache.SingularityCache.OciTemp cacheName seg = true ∧
      (cleanOciCacheName env cacheName t).1.2.isNone = !seg.any Event.failed ∧
      (cleanOciCacheName env cacheName t).1.1 =
        (!seg.any Event.failed && seg.any Event.isRemoveAll) :=
  cleanNamed_calls env _ _ _ _ _ t

theorem CleanCacheName_calls (env : Env) (cacheName : String) (lib oci : Bool) (t : Trace) :
    ∃ seg1 seg2, (CleanCacheName env cacheName lib oci t).2 = t ++ (seg1 ++ seg2) ∧
      (if (lib == oci || lib) = true then isSearch cache.SingularityCache.Library cacheName seg1 = true
        else seg1 = []) ∧
      (if ((lib == oci || oci) && !seg1.any Event.failed) = true
        then isSearch cache.SingularityCache.OciTemp cacheName seg2 = true else seg2 = []) ∧
      (CleanCacheName env cacheName lib oci t).1.2.isNone =
        !(seg1 ++ seg2).any Event.failed ∧
      (CleanCacheName env cacheName lib oci t).1.1 =
        (!(seg1 ++ seg2).any Event.failed && (seg1 ++ seg2).any Event.isRemoveAll) := by
  have hboth : ∀ b : Bool, ∃ seg1 seg2,
      (CleanCacheName env cacheName b b t).2 = t ++ (seg1 ++ seg2) ∧
      isSearch cache.SingularityCache.Library cacheName seg1 = true ∧
      (if (!seg1.any Event.failed) = true
        then isSearch cache.SingularityCache.OciTemp cacheName seg2 = true else seg2 = []) ∧
      (CleanCacheName env cacheName b b t).1.2.isNone = !(seg1 ++ seg2).any Event.failed ∧
      (CleanCacheName env cacheName b b t).1.1 =
        (!(seg1 ++ seg2).any Event.failed && (seg1 ++ seg2).any Event.isRemoveAll) := by
    intro b
    obtain ⟨seg1, h1, h2, h3, h4⟩ := cleanLibraryCacheName_calls env cacheName t
    obtain ⟨seg2, g1, g2, g3, g4⟩ := cleanOciCacheName_calls env cacheName
      (cleanLibraryCacheName env cacheName t).2
    rw [CleanCacheName_both]
    cases hf1 : seg1.any Event.failed
    · rw [hf1] at h3 h4
      have hs1 : (cleanLibraryCacheName env cacheName t).1.2.isSome = false := by
        cases h : (cleanLibraryCacheName env cacheName t).1.2 <;> simp [h] at h3 ⊢
      simp only [hs1, Bool.false_eq_true, if_false]
      refine ⟨seg1, seg2, ?_⟩
      cases hf2 : seg2.any Event.failed
      · rw [hf2] at g3 g4
        have hs2 : (cleanOciCacheName env cacheName
            (cleanLibraryCacheName env cacheName t).2).1.2.isSome = false := by
          cases h : (cleanOciCacheName env cacheName
            (cleanLibraryCacheName env cacheName t).2).1.2 <;> simp [h] at g3 ⊢
        simp only [hs2, Bool.false_eq_true, if_false]
        refine ⟨by rw [g1, h1]; simp, h2, by simpa [hf1] using g2, ?_, ?_⟩
        · simp [hf1, hf2]
        · rw [h4, g4]; simp [hf1, hf2]
      · rw [hf2] at g3 g4
        have hs2 : (cleanOciCacheName env cacheName
            (cleanLibraryCacheName env cacheName t).2).1.2.isSome = true := by
          cases h : (cleanOciCacheName env cacheName
            (cleanLibraryCacheName env cacheName t).2).1.2 <;> simp [h] at g3 ⊢
        simp only [hs2, if_true]
        refine ⟨by rw [g1, h1]; simp, h2, by simpa [hf1] using g2, ?_, ?_⟩
        · rw [g3]; simp [hf1, hf2]
        · rw [g4]; simp [hf1, hf2]
    · rw [hf1] at h3 h4
      have hs1 : (cleanLibraryCacheName env cacheName t).1.2.isSome = true := by
        cases h : (cleanLibraryCacheName env cacheName t).1.2 <;> simp [h] at h3 ⊢
      simp only [hs1, if_true]
      refine ⟨seg1, [], by rw [h1]; simp, h2, by simp [hf1], ?_, ?_⟩
      · rw [h3]; simp [hf1]
      · rw [h4]; simp [hf1]
  cases lib <;> cases oci
  · obtain ⟨seg1, seg2, h⟩ := hboth false
    exact ⟨seg1, seg2, by simpa using h⟩
  · obtain ⟨seg, h1, h2, h3, h4⟩ := cleanOciCacheName_calls env cacheName t
    rw [CleanCacheName_oci]
    exact ⟨[], seg, by simpa using ⟨h1, h2, h3, h4⟩⟩
  · obtain ⟨seg, h1, h2, h3, h4⟩ := cleanLibraryCacheName_calls env cacheName t
    rw [CleanCacheName_library]
    exact ⟨seg, [], by simpa using ⟨h1, h2, h3, h4⟩⟩
  · obtain ⟨seg1, seg2, h⟩ := hboth true
    exact ⟨seg1, seg2, by simpa using h⟩


/-- C21: `CleanCacheName` runs only the library search when `libraryCache` is
true and `ociCache` is false, only the oci-tmp search when `ociCache` is true
and `libraryCache` is false, and when the two flags are equal the library
search and then, if it did not fail, the oci-tmp search. On a file system that
does not change and on which the searched caches can be listed and every
removal succeeds, it returns true exactly when a searched cache has an entry
named `cacheName`. In every environment the calls it adds to the trace are
those of the searches named: with only `libraryCache` one search of the library
directory of the cache object, with only `ociCache` one search of its oci-tmp
directory, with equal flags a search of the library directory followed, when no
call of it failed, by a search of the oci-tmp directory and by nothing
otherwise; each search lists its cache directory and, inside it, only lists the
directories found there and removes their entries named `cacheName`. It returns
no error exactly when no call failed, and true exactly when moreover an entry
was removed. -/
theorem CleanCacheName_searches (env : Env) (cacheName : String) (t : Trace) :
    CleanCacheName env cacheName true false t = cleanLibraryCacheName env cacheName t ∧
    CleanCacheName env cacheName false true t = cleanOciCacheName env cacheName t ∧
    (∀ b : Bool, CleanCacheName env cacheName b b t =
      if (cleanLibraryCacheName env cacheName t).1.2.isSome then
        cleanLibraryCacheName env cacheName t
      else if (cleanOciCacheName env cacheName (cleanLibraryCacheName env cacheName t).2).1.2.isSome
      then cleanOciCacheName env cacheName (cleanLibraryCacheName env cacheName t).2
      else
        (((cleanLibraryCacheName env cacheName t).1.1 ||
            (cleanOciCacheName env cacheName (cleanLibraryCacheName env cacheName t).2).1.1, none),
          (cleanOciCacheName env cacheName (cleanLibraryCacheName env cacheName t).2).2)) ∧
    (∀ (c : cache.SingularityCache) (ls : String → ListResult) (lib oci : Bool),
      (lib = oci ∨ lib = true → listable ls c.Library = true) →
      (lib = oci ∨ oci = true → listable ls c.OciTemp = true) →
      (CleanCacheName (staticEnv c ls) cacheName lib oci t).1 =
        ((((lib == oci) || lib) && containsNamed ls c.Library cacheName) ||
          (((lib == oci) || oci) && containsNamed ls c.OciTemp cacheName), none)) ∧
    (∃ seg, (CleanCacheName env cacheName true false t).2 = t ++ seg ∧
      isSearch cache.SingularityCache.Library cacheName seg = true) ∧
    (∃ seg, (CleanCacheName env cacheName false true t).2 = t ++ seg ∧
      isSearch cache.SingularityCache.OciTemp cacheName seg = true) ∧
    (∀ b : Bool, ∃ seg1 seg2, (CleanCacheName env cacheName b b t).2 = t ++ (seg1 ++ seg2) ∧
      isSearch cache.SingularityCache.Library cacheName seg1 = true ∧
      (if seg1.any Event.failed = true then seg2 = []
        else isSearch cache.SingularityCache.OciTemp cacheName seg2 = true)) ∧
    (∀ lib oci : Bool, ∃ seg, (CleanCacheName env cacheName lib oci t).2 = t ++ seg ∧
      (CleanCacheName env cacheName lib oci t).1.2.isNone = !seg.any Event.failed ∧
      (CleanCacheName env cacheName lib oci t).1.1 =
        (!seg.any Event.failed && seg.any Event.isRemoveAll)) := by
  refine ⟨CleanCacheName_library env cacheName t, CleanCacheName_oci env cacheName t,
    fun b => CleanCacheName_both env cacheName b t, ?_, ?_, ?_, ?_, ?_⟩
  · intro c ls lib oci hlib hoci
    have hL : ∀ t', listable ls c.Library = true →
        (cleanLibraryCacheName (staticEnv c ls) cacheName t').1 =
          (containsNamed ls c.Library cacheName, none) :=
      fun t' h => cleanNamed_static c ls (fun c => c.Library) cacheName _ _ _ t' h
    have hO : ∀ t', listable ls c.OciTemp = true →
        (cleanOciCacheName (staticEnv c ls) cacheName t').1 =
          (containsNamed ls c.OciTemp cacheName, none) :=
      fun t' h => cleanNamed_static c ls (fun c => c.OciTemp) cacheName _ _ _ t' h
    cases lib <;> cases oci
    · rw [CleanCacheName_both]
      have h1 := hL t (hlib (Or.inl rfl))
      have h2 := hO (cleanLibraryCacheName (staticEnv c ls) cacheName t).2 (hoci (Or.inl rfl))
      simp [h1, h2]
    · rw [CleanCacheName_oci]
      simp [hO t (hoci (Or.inr rfl))]
    · rw [CleanCacheName_library]
      simp [hL t (hlib (Or.inr rfl))]
    · rw [CleanCacheName_both]
      have h1 := hL t (hlib (Or.inl rfl))
      have h2 := hO (cleanLibraryCacheName (staticEnv c ls) cacheName t).2 (hoci (Or.inl rfl))
      simp [h1, h2]
  · obtain ⟨seg1, seg2, h1, h2, h3, _, _⟩ := CleanCacheName_calls env cacheName true false t
    simp only [Bool.or_false, Bool.false_and, Bool.false_eq_true, if_false] at h3
    subst h3
    exact ⟨seg1, by simpa using h1, by simpa using h2⟩
  · obtain ⟨seg1, seg2, h1, h2, h3, _, _⟩ := CleanCacheName_calls env cacheName false true t
    have hs1 : seg1 = [] := by simpa using h2
    subst hs1
    exact ⟨seg2, by simpa using h1, by simpa using h3⟩
  · intro b
    obtain ⟨seg1, seg2, h1, h2, h3, _, _⟩ := CleanCacheName_calls env cacheName b b t
    refine ⟨seg1, seg2, h1, by simpa using h2, ?_⟩
    cases hf : seg1.any Event.failed
    · simpa [hf] using h3
    · simpa [hf] using h3
  · intro lib oci
    obtain ⟨seg1, seg2, h1, _, _, h4, h5⟩ := CleanCacheName_calls env cacheName lib oci t
    exact ⟨seg1 ++ seg2, h1, h4, h5⟩

theorem CleanCacheName_searches_witness :
    (CleanCacheName (staticEnv cache.cacheHome lsSample) "busybox.sif" true true []).1 =
        (true, none) ∧
      (CleanCacheName (staticEnv cache.cacheHome lsSample) "busybox.sif" true false []).1 =
        (false, none) ∧
      (∃ seg, (CleanCacheName (staticEnv cache.cacheHome lsSample) "busybox.sif" true false []).2 =
          [] ++ seg ∧
        isSearch cache.SingularityCache.Library "busybox.sif" seg = true) ∧
      (CleanCacheName (staticEnv cache.cacheHome lsSample) "busybox.sif" true false []).2 =
        [Event.create (some cache.cacheHome) none,
          Event.readDir "/home/user/.singularity/cache/library" (.ok ["sha256.aa", "sha256.bb"]),
          Event.readDir "/home/user/.singularity/cache/library/sha256.aa" (.ok ["alpine.sif"]),
          Event.readDir "/home/user/.singularity/cache/library/sha256.bb" (.ok ["ubuntu.sif"])] ∧
      (CleanCacheName (staticEnv cache.cacheHome lsSample) "busybox.sif" false true []).2 =
        [Event.create (some cache.cacheHome) none,
          Event.readDir "/home/user/.singularity/cache/oci-tmp" (.ok ["sha256.cc"]),
          Event.readDir "/home/user/.singularity/cache/oci-tmp/sha256.cc" (.ok ["busybox.sif"]),
          Event.removeAll "/home/user/.singularity/cache/oci-tmp/sha256.cc/busybox.sif" none] :=
  have h := (CleanCacheName_searches (staticEnv cache.cacheHome lsSample) "busybox.sif" []).2.2.2.1
    cache.cacheHome lsSample
  ⟨(h true true (fun _ => by decide) (fun _ => by decide)).trans (by decide),
   (h true false (fun _ => by decide) (fun h => by simp at h)).trans (by decide),
   (CleanCacheName_searches (staticEnv cache.cacheHome lsSample) "busybox.sif" []).2.2.2.2.1,
   by decide, by decide⟩

end CacheClean

namespace CacheClean

/-! ### Cleaning by name -/

theorem scanTypes_valid (types : List String) :
    ∀ (fl : Flags),
      (∀ ty ∈ types, ty = "library" ∨ ty = "oci" ∨ ty = "blob" ∨ ty = "blobs") →
      scanTypes types fl =
        .ok ⟨fl.libraryClean || types.contains "library", fl.ociClean || types.contains "oci",
          fl.blobClean || (types.contains "blob" || types.contains "blobs"), fl.cleanAll⟩ := by
  induction types with
  | nil => intro fl _; simp [scanTypes]
  | cons ty rest ih =>
    intro fl h
    have hrest : ∀ ty ∈ rest, ty = "library" ∨ ty = "oci" ∨ ty = "blob" ∨ ty = "blobs" :=
      fun x hx => h x (List.mem_cons_of_mem _ hx)
    rcases h ty (List.mem_cons_self _ _) with h1 | h1 | h1 | h1 <;> subst h1 <;>
      simp [scanTypes, ih _ hrest, Bool.or_assoc]

/-- C22, as stated, fails: "all" is a valid type, and with it (or with
`cleanAll` true) a non-empty `cacheName` is not looked at: the whole cache is
cleaned and no entry is searched by name. -/
theorem CleanSingularityCache_name_counterexample :
    CleanSingularityCache (staticEnv cache.cacheHome lsSample) false ["all"] "ubuntu.sif" =
      (none, [Event.create (some cache.cacheHome) none, Event.clean cache.cacheHome none]) ∧
    CleanSingularityCache (staticEnv cache.cacheHome lsSample) true ["library"] "ubuntu.sif" =
      (none, [Event.create (some cache.cacheHome) none, Event.clean cache.cacheHome none,
        Event.create (some cache.cacheHome) none, Event.create (some cache.cacheHome) none,
        Event.removeAll "/home/user/.singularity/cache/library" none]) := by
  decide

/-- C22, amended: for a non-empty `cacheName`, `cleanAll` false and only the
types "library", "oci", "blob" and "blobs", `CleanSingularityCache` makes
exactly the calls of `CleanCacheName` for that name (with the library and oci
flags as requested) and returns its error: no `CleanCache` is performed. Its
calls are those of a search by name of the library directory (when library is
requested, or oci is not) followed by those of a search by name of the oci-tmp
directory (when oci is requested, or library is not, and no call of the first
search failed), and nothing else: the method `Clean` is never called, and every
`os.RemoveAll` is of the entry named `cacheName` of a directory listed in the
library or the oci-tmp directory of a cache object that was created. -/
theorem CleanSingularityCache_name (env : Env) (types : List String) (cacheName : String)
    (hname : cacheName ≠ "")
    (htypes : ∀ ty ∈ types, ty = "library" ∨ ty = "oci" ∨ ty = "blob" ∨ ty = "blobs") :
    CleanSingularityCache env false types cacheName =
      ((CleanCacheName env cacheName (types.contains "library") (types.contains "oci") []).1.2,
       (CleanCacheName env cacheName (types.contains "library") (types.contains "oci") []).2) ∧
    (∃ seg1 seg2, (CleanSingularityCache env false types cacheName).2 = seg1 ++ seg2 ∧
      (if (types.contains "library" == types.contains "oci" || types.contains "library") = true
        then isSearch cache.SingularityCache.Library cacheName seg1 = true else seg1 = []) ∧
      (if ((types.contains "library" == types.contains "oci" || types.contains "oci") &&
            !seg1.any Event.failed) = true
        then isSearch cache.SingularityCache.OciTemp cacheName seg2 = true else seg2 = [])) ∧
    (CleanSingularityCache env false types cacheName).2.any Event.isClean = false ∧
    (∀ p r, Event.removeAll p r ∈ (CleanSingularityCache env false types cacheName).2 →
      ∃ c files f, Event.create (some c) none ∈ (CleanSingularityCache env false types cacheName).2 ∧
        f ∈ files ∧
        ((Event.readDir c.Library (.ok files) ∈
              (CleanSingularityCache env false types cacheName).2 ∧
            p = filepath.Join [c.Library, f, cacheName]) ∨
          (Event.readDir c.OciTemp (.ok files) ∈
              (CleanSingularityCache env false types cacheName).2 ∧
            p = filepath.Join [c.OciTemp, f, cacheName]))) := by
  have hlen : cacheName.length ≥ 1 := by
    have : cacheName.data ≠ [] := fun h => hname (String.ext h)
    exact List.length_pos.mpr this
  have heq : CleanSingularityCache env false types cacheName =
      ((CleanCacheName env cacheName (types.contains "library") (types.contains "oci") []).1.2,
       (CleanCacheName env cacheName (types.contains "library") (types.contains "oci") []).2) := by
    simp only [CleanSingularityCache, scanTypes_valid types _ htypes, Bool.false_or, hlen,
      and_self, if_true]
    split
    · next h => rw [h]
    · next h => rw [h]
  obtain ⟨seg1, seg2, h1, h2, h3, _, _⟩ :=
    CleanCacheName_calls env cacheName (types.contains "library") (types.contains "oci") []
  have htr : (CleanSingularityCache env false types cacheName).2 = seg1 ++ seg2 := by
    rw [heq]; simpa using h1
  have hs1 : seg1 = [] ∨ isSearch cache.SingularityCache.Library cacheName seg1 = true := by
    split at h2
    · exact Or.inr h2
    · exact Or.inl h2
  have hs2 : seg2 = [] ∨ isSearch cache.SingularityCache.OciTemp cacheName seg2 = true := by
    split at h3
    · exact Or.inr h3
    · exact Or.inl h3
  refine ⟨heq, ⟨seg1, seg2, htr, h2, h3⟩, ?_, ?_⟩
  · rw [htr, List.any_append]
    have c1 : seg1.any Event.isClean = false := by
      rcases hs1 with h | h
      · rw [h]; rfl
      · exact isSearch_not_clean _ _ _ h
    have c2 : seg2.any Event.isClean = false := by
      rcases hs2 with h | h
      · rw [h]; rfl
      · exact isSearch_not_clean _ _ _ h
    rw [c1, c2]; rfl
  · intro p r hp
    rw [htr] at hp ⊢
    rcases List.mem_append.mp hp with hp | hp
    · rcases hs1 with h | h
      · rw [h] at hp; simp at hp
      · obtain ⟨c, files, f, hc, hrd, hf, hpf⟩ := isSearch_removeAll _ _ _ h p r hp
        exact ⟨c, files, f, List.mem_append_left _ hc, hf,
          Or.inl ⟨List.mem_append_left _ hrd, hpf⟩⟩
    · rcases hs2 with h | h
      · rw [h] at hp; simp at hp
      · obtain ⟨c, files, f, hc, hrd, hf, hpf⟩ := isSearch_removeAll _ _ _ h p r hp
        exact ⟨c, files, f, List.mem_append_right _ hc, hf,
          Or.inr ⟨List.mem_append_right _ hrd, hpf⟩⟩

theorem CleanSingularityCache_name_witness :
    CleanSingularityCache (staticEnv cache.cacheHome lsSample) false ["library", "blob"]
        "ubuntu.sif" =
      (none, [Event.create (some cache.cacheHome) none,
        Event.readDir "/home/user/.singularity/cache/library" (.ok ["sha256.aa", "sha256.bb"]),
        Event.readDir "/home/user/.singularity/cache/library/sha256.aa" (.ok ["alpine.sif"]),
        Event.readDir "/home/user/.singularity/cache/library/sha256.bb" (.ok ["ubuntu.sif"]),
        Event.removeAll "/home/user/.singularity/cache/library/sha256.bb/ubuntu.sif" none]) ∧
    (CleanSingularityCache (staticEnv cache.cacheHome lsSample) false ["library", "blob"]
        "ubuntu.sif").2.any Event.isClean = false :=
  ⟨(CleanSingularityCache_name (staticEnv cache.cacheHome lsSample) ["library", "blob"]
      "ubuntu.sif" (by decide) (by decide)).1.trans (by decide),
   (CleanSingularityCache_name (staticEnv cache.cacheHome lsSample) ["library", "blob"]
      "ubuntu.sif" (by decide) (by decide)).2.2.1⟩

end CacheClean
